import Mathlib

/-!
# agentic-camerata (cmt): session store, activity monitor, PTY suspend/resume

A shallow embedding of the Go sources under `internal/db`, `internal/claude`
and `internal/tui`, followed by the properties proved about them.

Conventions of the embedding
* Go `string`-typed enums (`SessionStatus`, `WorkflowType`) stay strings.
* SQL timestamps are natural numbers of seconds; `CURRENT_TIMESTAMP` is an
  explicit argument `ts` of every statement that uses it.
* The monitor's clock (`time.Now()`) is a natural number of nanoseconds.
* Calls that leave the process (store statements issued by the monitor,
  signals, terminal mode calls) are returned as lists of effect values, in
  program order.
-/

namespace db

/-! ## internal/db/sessions.go -/

/-- SessionStatus represents the status of a session (`type SessionStatus string`). -/
abbrev SessionStatus := String

/-- WorkflowType represents the type of coding workflow (`type WorkflowType string`). -/
abbrev WorkflowType := String

def StatusWaiting : SessionStatus := "waiting"
def StatusWorking : SessionStatus := "working"
def StatusCompleted : SessionStatus := "completed"
def StatusAbandoned : SessionStatus := "abandoned"
def StatusKilled : SessionStatus := "killed"
def StatusDeleted : SessionStatus := "deleted"
def StatusRestored : SessionStatus := "restored"

/-- Session is the Go struct handed to and returned by the store.
`DeletedAt` is a `*time.Time`, documented in the source as `nil if not deleted`. -/
structure Session where
  ID : String
  CreatedAt : Nat
  UpdatedAt : Nat
  WorkflowType : WorkflowType
  Status : SessionStatus
  WorkingDirectory : String
  TaskDescription : String
  Prefix : String
  ClaudeSessionID : String
  TmuxSession : String
  TmuxWindow : Int
  TmuxPane : Int
  OutputFile : String
  PID : Int
  DeletedAt : Option Nat
  deriving DecidableEq, Repr

/-- Row is one row of the `sessions` table. The columns that `scanSession` reads
through `sql.NullString`, `sql.NullInt64` and `sql.NullTime` are nullable. -/
structure Row where
  id : String
  created_at : Nat
  updated_at : Nat
  workflow_type : WorkflowType
  status : SessionStatus
  working_directory : String
  task_description : Option String
  prefix_col : Option String
  claude_session_id : Option String
  tmux_session : String
  tmux_window : Int
  tmux_pane : Int
  output_file : Option String
  pid : Option Int
  deleted_at : Option Nat
  deriving DecidableEq, Repr

/-- DB is the state of the store: the `sessions` table in rowid order. -/
structure DB where
  sessions : List Row
  deriving DecidableEq, Repr

/-- Modelled from the spec: the table definition `schema.sql` is embedded by
`db.go` but is not among the sources. The spec makes `id` the unique
identifier of a session and lists `createdAt`, `updatedAt` and an optional
`deletedAt`; the INSERT of `CreateSession` names neither of the three, so
they take the column defaults (current timestamp, current timestamp, NULL).
This is the row the INSERT of `CreateSession` produces. -/
def insertedRow (ts : Nat) (s : Session) : Row :=
  { id := s.ID, created_at := ts, updated_at := ts,
    workflow_type := s.WorkflowType, status := s.Status,
    working_directory := s.WorkingDirectory,
    task_description := some s.TaskDescription,
    prefix_col := some s.Prefix,
    claude_session_id := some s.ClaudeSessionID,
    tmux_session := s.TmuxSession, tmux_window := s.TmuxWindow,
    tmux_pane := s.TmuxPane,
    output_file := some s.OutputFile,
    pid := some s.PID,
    deleted_at := none }

/-- Modelled from the spec: the unique key of the table, declared in the missing
`schema.sql`. The spec calls `id` the unique identifier of a session, so an
INSERT whose id is already in the table is rejected by the engine. -/
def idTaken (d : DB) (id : String) : Bool :=
  d.sessions.any (fun r => r.id == id)

/-- CreateSession creates a new session in the database. The insert fails,
leaving the table as it was, when the id is already present. -/
def CreateSession (d : DB) (ts : Nat) (s : Session) : Except String DB :=
  if idTaken d s.ID then
    .error "insert session: UNIQUE constraint failed: sessions.id"
  else
    .ok { sessions := d.sessions ++ [insertedRow ts s] }

/-- UpdateSession updates a session in the database: every column of the
UPDATE statement, for the rows `WHERE id = ?`. -/
def UpdateSession (d : DB) (ts : Nat) (s : Session) : DB :=
  { sessions := d.sessions.map fun r =>
      if r.id = s.ID then
        { r with
          updated_at := ts,
          workflow_type := s.WorkflowType,
          status := s.Status,
          working_directory := s.WorkingDirectory,
          task_description := some s.TaskDescription,
          prefix_col := some s.Prefix,
          claude_session_id := some s.ClaudeSessionID,
          tmux_session := s.TmuxSession,
          tmux_window := s.TmuxWindow,
          tmux_pane := s.TmuxPane,
          output_file := some s.OutputFile,
          pid := some s.PID }
      else r }

/-- UpdateSessionStatus updates just the status of a session. -/
def UpdateSessionStatus (d : DB) (ts : Nat) (id : String) (status : SessionStatus) : DB :=
  { sessions := d.sessions.map fun r =>
      if r.id = id then { r with updated_at := ts, status := status } else r }

/-- UpdateSessionPID updates the PID of a session. -/
def UpdateSessionPID (d : DB) (ts : Nat) (id : String) (pid : Int) : DB :=
  { sessions := d.sessions.map fun r =>
      if r.id = id then { r with updated_at := ts, pid := some pid } else r }

/-- UpdateClaudeSessionID updates the Claude session ID. -/
def UpdateClaudeSessionID (d : DB) (ts : Nat) (id claudeID : String) : DB :=
  { sessions := d.sessions.map fun r =>
      if r.id = id then { r with updated_at := ts, claude_session_id := some claudeID } else r }

/-- DeleteSession deletes a session by ID. -/
def DeleteSession (d : DB) (id : String) : DB :=
  { sessions := d.sessions.filter fun r => !(r.id == id) }

/-- SoftDeleteSession marks a session as deleted with timestamp. -/
def SoftDeleteSession (d : DB) (ts : Nat) (id : String) : DB :=
  { sessions := d.sessions.map fun r =>
      if r.id = id then
        { r with updated_at := ts, status := "deleted", deleted_at := some ts }
      else r }

/-- RestoreSession restores a deleted session to the restored status. -/
def RestoreSession (d : DB) (ts : Nat) (id : String) : DB :=
  { sessions := d.sessions.map fun r =>
      if r.id = id then
        { r with updated_at := ts, status := "restored", deleted_at := none }
      else r }

/-- The WHERE clause of PruneDeletedSessions:
`status = 'deleted' AND deleted_at < datetime('now', '-7 days')`.
A NULL `deleted_at` makes the comparison NULL, so the row is not selected. -/
def pruneSelects (ts : Nat) (r : Row) : Bool :=
  r.status == "deleted" &&
    (match r.deleted_at with
     | some t => decide ((t : Int) < (ts : Int) - 7 * 86400)
     | none => false)

/-- PruneDeletedSessions permanently removes sessions deleted more than 7 days
ago and returns `RowsAffected`. -/
def PruneDeletedSessions (d : DB) (ts : Nat) : DB × Int :=
  ({ sessions := d.sessions.filter fun r => !(pruneSelects ts r) },
   ((d.sessions.filter (pruneSelects ts)).length : Int))

/-! ## internal/db/db.go -/

/-- isProcessRunning checks if a process with the given PID is still running.
`probe pid` stands for `os.FindProcess(pid)` succeeding and signal 0 being
delivered without error; any failure of the probe is `false`. -/
def isProcessRunning (probe : Int → Bool) (pid : Int) : Bool :=
  if pid ≤ 0 then false else probe pid

/-- The legacy migration of `Open`:
`UPDATE sessions SET status = 'waiting' WHERE status = 'active'`. -/
def migrateLegacyStatus (d : DB) : DB :=
  { sessions := d.sessions.map fun r =>
      if r.status = "active" then { r with status := "waiting" } else r }

/-- The first loop of the recovery scan of `Open`: over the rows selected by
`status = 'working' AND pid IS NOT NULL`, collect the ids whose process is
not running. -/
def stuckIDs (probe : Int → Bool) (d : DB) : List String :=
  (d.sessions.filter fun r => r.status == "working" && r.pid.isSome).filterMap fun r =>
    match r.pid with
    | some pid => if !(isProcessRunning probe pid) then some r.id else none
    | none => none

/-- One statement of the second loop of the recovery scan:
`UPDATE sessions SET status = 'abandoned', updated_at = CURRENT_TIMESTAMP WHERE id = ?`. -/
def markAbandoned (ts : Nat) (d : DB) (id : String) : DB :=
  { sessions := d.sessions.map fun r =>
      if r.id = id then { r with status := "abandoned", updated_at := ts } else r }

/-- The recovery scan of `Open`: collect the stuck ids, then mark each abandoned. -/
def recoverStuck (d : DB) (ts : Nat) (probe : Int → Bool) : DB :=
  (stuckIDs probe d).foldl (markAbandoned ts) d

/-- Open opens the database: the part of `Open` that touches session rows,
the legacy status migration followed by the recovery scan. -/
def Open (d : DB) (ts : Nat) (probe : Int → Bool) : DB :=
  recoverStuck (migrateLegacyStatus d) ts probe

/-! ## The store as a machine -/

/-- The mutating operations of the store, one constructor per exported
operation, with the arguments the Go method takes. -/
inductive Op where
  | create (s : Session)
  | update (s : Session)
  | updateStatus (id : String) (status : SessionStatus)
  | updatePID (id : String) (pid : Int)
  | updateClaudeSessionID (id claudeID : String)
  | softDelete (id : String)
  | restore (id : String)
  | delete (id : String)
  | pruneDeleted
  | reopen (probe : Int → Bool)

/-- Run one operation at timestamp `ts`. A failed insert leaves the store as it was. -/
def applyOp (d : DB) (ts : Nat) : Op → DB
  | .create s =>
      match CreateSession d ts s with
      | .ok d' => d'
      | .error _ => d
  | .update s => UpdateSession d ts s
  | .updateStatus id status => UpdateSessionStatus d ts id status
  | .updatePID id pid => UpdateSessionPID d ts id pid
  | .updateClaudeSessionID id claudeID => UpdateClaudeSessionID d ts id claudeID
  | .softDelete id => SoftDeleteSession d ts id
  | .restore id => RestoreSession d ts id
  | .delete id => DeleteSession d id
  | .pruneDeleted => (PruneDeletedSessions d ts).1
  | .reopen probe => Open d ts probe

/-- Run a sequence of timestamped operations from a given store. -/
def runOps (d : DB) : List (Nat × Op) → DB
  | [] => d
  | (ts, op) :: rest => runOps (applyOp d ts op) rest

/-- The empty store. -/
def emptyDB : DB := { sessions := [] }

/-- The data-model invariant of the spec for one row:
`deletedAt` is non-null iff `status == deleted`. -/
def deletedAtInvariant (r : Row) : Prop :=
  r.deleted_at ≠ none ↔ r.status = StatusDeleted

instance (r : Row) : Decidable (deletedAtInvariant r) := by
  unfold deletedAtInvariant; infer_instance

/-- Status of the first row with the given id, if any. -/
def statusOf (d : DB) (id : String) : Option SessionStatus :=
  (d.sessions.find? fun r => r.id == id).map (·.status)

/-- The condition under which the claim about the recovery scan says a row is
turned to abandoned: status working, a non-null pid, and that pid not alive. -/
def isStuck (probe : Int → Bool) (r : Row) : Bool :=
  r.status == "working" &&
    (match r.pid with
     | some pid => !(isProcessRunning probe pid)
     | none => false)

/-- A session as a caller would create it: only the fields a caller sets. -/
def sampleSession (id : String) (status : SessionStatus) (pid : Int) : Session :=
  { ID := id, CreatedAt := 0, UpdatedAt := 0, WorkflowType := "general",
    Status := status, WorkingDirectory := "/tmp", TaskDescription := "",
    Prefix := "", ClaudeSessionID := "", TmuxSession := "main",
    TmuxWindow := 0, TmuxPane := 0, OutputFile := "", PID := pid,
    DeletedAt := none }

/-- A store for the recovery scan: one row per case of the scan. -/
def recoveryExample : DB :=
  let mk (id : String) (status : SessionStatus) (pid : Option Int) : Row :=
    { insertedRow 1 (sampleSession id status 0) with pid := pid }
  { sessions :=
      [mk "s1" "working" (some 999999), mk "s2" "working" (some 4242),
       mk "s3" "working" (some 0), mk "s4" "working" none,
       mk "s5" "deleted" (some 999999), mk "s6" "active" (some 999999)] }

/-- A liveness probe under which only process 4242 exists. -/
def recoveryProbe : Int → Bool := fun pid => pid == 4242

end db

namespace claude

/-! ## internal/claude/claude.go: activity monitor -/

/-- idleThreshold is how long without output before transitioning back to
waiting: `1 * time.Second`, in nanoseconds. -/
def idleThreshold : Nat := 1000000000

/-- The period of the ticker created by `start`: `100 * time.Millisecond`,
in nanoseconds. -/
def tickInterval : Nat := 100000000

/-- A Go channel that is only ever closed (`done chan struct{}`). -/
structure Chan where
  closed : Bool
  deriving DecidableEq, Repr

/-- The Go builtin `close`: closing an already closed channel panics. -/
def Chan.close (c : Chan) : Except String Chan :=
  if c.closed then .error "panic: close of closed channel"
  else .ok { closed := true }

/-- A call `db.UpdateSessionStatus(id, status)` issued to the store. -/
structure StatusWrite where
  id : String
  status : db.SessionStatus
  deriving DecidableEq, Repr

/-- Carry out a status write on the store at timestamp `ts`. -/
def StatusWrite.apply (w : StatusWrite) (d : db.DB) (ts : Nat) : db.DB :=
  db.UpdateSessionStatus d ts w.id w.status

/-- activityMonitor tracks PTY output to detect working/waiting states. -/
structure activityMonitor where
  sessionID : String
  lastOutput : Nat
  isWorking : Bool
  done : Chan
  deriving DecidableEq, Repr

/-- newActivityMonitor, created at time `now`. -/
def newActivityMonitor (sessionID : String) (now : Nat) : activityMonitor :=
  { sessionID := sessionID, lastOutput := now, isWorking := false,
    done := { closed := false } }

/-- onOutput is called when PTY output is detected, at time `now`. -/
def activityMonitor.onOutput (m : activityMonitor) (now : Nat) :
    activityMonitor × List StatusWrite :=
  let m := { m with lastOutput := now }
  if !m.isWorking then
    ({ m with isWorking := true }, [{ id := m.sessionID, status := db.StatusWorking }])
  else
    (m, [])

/-- The body of the `case <-ticker.C` branch of the loop of `start`, run at
time `now`; `time.Since(m.lastOutput)` is `now - m.lastOutput`. -/
def activityMonitor.onTick (m : activityMonitor) (now : Nat) :
    activityMonitor × List StatusWrite :=
  if m.isWorking && decide ((now : Int) - (m.lastOutput : Int) > (idleThreshold : Int)) then
    ({ m with isWorking := false }, [{ id := m.sessionID, status := db.StatusWaiting }])
  else
    (m, [])

/-- stop stops the activity monitor: `close(m.done)`. -/
def activityMonitor.stop (m : activityMonitor) : Except String activityMonitor :=
  match m.done.close with
  | .ok c => .ok { m with done := c }
  | .error e => .error e

/-- What the monitor observes: PTY output, or a tick of its ticker. -/
inductive Event where
  | output (now : Nat)
  | tick (now : Nat)
  deriving DecidableEq, Repr

/-- The time of an event. -/
def Event.time : Event → Nat
  | .output now => now
  | .tick now => now

/-- One event handled by the monitor. -/
def activityMonitor.handle (m : activityMonitor) : Event → activityMonitor × List StatusWrite
  | .output now => m.onOutput now
  | .tick now => m.onTick now

/-- Handle events in order; the result carries every status write together
with the time of the event that issued it. -/
def activityMonitor.run (m : activityMonitor) : List Event →
    activityMonitor × List (Nat × StatusWrite)
  | [] => (m, [])
  | e :: rest =>
    let r := m.handle e
    let r' := r.1.run rest
    (r'.1, r.2.map (fun w => (e.time, w)) ++ r'.2)

/-- The times of a ticker that fires `n` times, first at `first`, then every
`tickInterval`. -/
def tickTimes (first : Nat) : Nat → List Nat
  | 0 => []
  | n + 1 => first :: tickTimes (first + tickInterval) n

/-- The times of the output events of a list of events. -/
def outputTimes : List Event → List Nat
  | [] => []
  | .output now :: rest => now :: outputTimes rest
  | .tick _ :: rest => outputTimes rest


/-! ## internal/claude/terminal.go and the suspend/resume code of claude.go -/

/-- The signals the code sends with `syscall.Kill`. -/
inductive Signal where
  | SIGSTOP
  | SIGCONT
  | SIGKILL
  deriving DecidableEq, Repr

/-- Calls that reach the operating system, in the order they are made.
`termMakeRaw r` is a call of `term.MakeRaw` on stdin together with its outcome:
`some st` is success returning the previous terminal state `st`, `none` is an
error. `termRestore st` is `term.Restore` on stdin with state `st`.
`kill pid sig` is `syscall.Kill(pid, sig)`. `inheritSize` is
`pty.InheritSize(os.Stdin, ptmx)`. `ptyWrite bs` is `ptmx.Write(bs)`. -/
inductive Effect where
  | termMakeRaw (result : Option Nat)
  | termRestore (st : Nat)
  | kill (pid : Int) (sig : Signal)
  | inheritSize
  | ptyWrite (bytes : List UInt8)
  deriving DecidableEq, Repr

/-- terminalState holds the original terminal state: a `*term.State`, which can be nil. -/
structure terminalState where
  state : Option Nat
  deriving DecidableEq, Repr

/-- makeRaw puts the terminal in raw mode and returns the previous state.
`result` is the outcome of `term.MakeRaw`; on error the returned token is nil. -/
def makeRaw (result : Option Nat) : Option terminalState × List Effect :=
  match result with
  | none => (none, [.termMakeRaw none])
  | some st => (some { state := some st }, [.termMakeRaw (some st)])

/-- restoreTerminal restores the terminal to its previous state: nothing for a nil
token, and nothing for a token whose state is nil. -/
def restoreTerminal (state : Option terminalState) : List Effect :=
  match state with
  | none => []
  | some ts =>
    match ts.state with
    | some st => [.termRestore st]
    | none => []

/-- suspendState holds state needed for suspend/resume coordination.
`oldState` is the saved mode token (nil when not in raw mode), `ptmx` the
pseudo-terminal handle (a pointer, so it can be nil). -/
structure suspendState where
  oldState : Option terminalState
  ptmx : Option Nat
  childPID : Int
  deriving DecidableEq, Repr

/-- resume: re-enter raw mode, resume the child process group, re-sync the PTY size.
`raw` is the outcome of the `term.MakeRaw` call it makes. -/
def suspendState.resume (s : suspendState) (raw : Option Nat) : suspendState × List Effect :=
  let r := makeRaw raw
  let s1 := match r.1 with
    | some newState => { s with oldState := some newState }
    | none => s
  (s1,
    r.2
      ++ (if s.childPID > 0 then [.kill (-s.childPID) .SIGCONT] else [])
      ++ (if s.ptmx.isSome then [.inheritSize] else []))

/-- suspend: restore the terminal, stop the child process group, stop ourselves,
and, once continued, resume. `raw` is the outcome of the `term.MakeRaw` call
made by the resume at its end. -/
def suspendState.suspend (s : suspendState) (raw : Option Nat) : suspendState × List Effect :=
  let e1 := restoreTerminal s.oldState
  let s1 := { s with oldState := none }
  let e2 := if s1.childPID > 0 then [Effect.kill (-s1.childPID) .SIGSTOP] else []
  let e3 := [Effect.kill 0 .SIGSTOP]
  let r := s1.resume raw
  (r.1, e1 ++ e2 ++ e3 ++ r.2)

def suspendState.getOldState (s : suspendState) : Option terminalState := s.oldState

def suspendState.setOldState (s : suspendState) (state : Option terminalState) : suspendState :=
  { s with oldState := state }

/-- The body of the SIGCONT handler of runWithPTY for one received signal.
`stdinIsTerminal` is the value of `isTerminal(os.Stdin.Fd())`. -/
def suspendState.onSigCont (s : suspendState) (stdinIsTerminal : Bool) (raw : Option Nat) :
    suspendState × List Effect :=
  if s.oldState.isNone && stdinIsTerminal then s.resume raw else (s, [])

/-- What the stdin loop does with one chunk, with the suspend sequence kept as one step. -/
inductive CopyAction where
  | write (bytes : List UInt8)
  | suspend
  deriving DecidableEq, Repr

/-- The Go slice expression `buf[a:b]`. -/
def slice (buf : List UInt8) (a b : Nat) : List UInt8 := (buf.drop a).take (b - a)

/-- The statement after the scan loop: write the bytes after the last Ctrl+Z. -/
def writeRemaining (buf : List UInt8) (n start : Nat) : List CopyAction :=
  if start < n then [.write (slice buf start n)] else []

/-- The scan loop `for i := 0; i < n; i++` of the stdin goroutine, from index `i`
with the current value of `start`, followed by the statement after the loop.
The first argument bounds the number of iterations left. -/
def scanFrom (buf : List UInt8) (n : Nat) : Nat → Nat → Nat → List CopyAction
  | 0, _, start => writeRemaining buf n start
  | fuel + 1, i, start =>
    if i < n then
      if buf.getD i 0 = 0x1a then
        (if i > start then [CopyAction.write (slice buf start i)] else [])
          ++ [CopyAction.suspend]
          ++ scanFrom buf n fuel (i + 1) (i + 1)
      else
        scanFrom buf n fuel (i + 1) start
    else
      writeRemaining buf n start

/-- What the stdin goroutine does with one chunk `buf[:n]` returned by a read. -/
def copyChunk (chunk : List UInt8) : List CopyAction :=
  scanFrom chunk chunk.length chunk.length 0 0

/-- A write of a run, left out when the run is empty. -/
def writeRun (run : List UInt8) : List CopyAction :=
  if run = [] then [] else [.write run]

/-- The reference behaviour of the input-copy task on a list of runs: a write of each
non-empty run, and one suspend between consecutive runs. -/
def referenceActions : List (List UInt8) → List CopyAction
  | [] => []
  | [run] => writeRun run
  | run :: next :: rest => writeRun run ++ [.suspend] ++ referenceActions (next :: rest)

/-- The reference behaviour on a chunk: split it at every 0x1A byte. -/
def referenceCopy (chunk : List UInt8) : List CopyAction :=
  referenceActions (chunk.splitOn 0x1a)

/-- The scan in list-recursive form: `pending` is the run collected so far. -/
def copyRuns (pending : List UInt8) : List UInt8 → List CopyAction
  | [] => writeRun pending
  | b :: rest =>
    if b = 0x1a then writeRun pending ++ [.suspend] ++ copyRuns [] rest
    else copyRuns (pending ++ [b]) rest

/-- The bytes written to the pseudo-terminal, in order. -/
def writtenBytes : List CopyAction → List UInt8
  | [] => []
  | .write bs :: rest => bs ++ writtenBytes rest
  | .suspend :: rest => writtenBytes rest

/-- The number of invocations of the suspend sequence. -/
def suspendCount : List CopyAction → Nat
  | [] => 0
  | .write _ :: rest => suspendCount rest
  | .suspend :: rest => suspendCount rest + 1

/-- The events that drive the suspend state during a run: a sentinel byte seen by the
stdin loop, or a continue signal seen by the handler; each carries the outcome of
the `term.MakeRaw` call it may lead to. -/
inductive PtyEvent where
  | sentinel (raw : Option Nat)
  | sigcont (raw : Option Nat)
  deriving DecidableEq, Repr

def suspendState.step (s : suspendState) (stdinIsTerminal : Bool) :
    PtyEvent → suspendState × List Effect
  | .sentinel raw => s.suspend raw
  | .sigcont raw => s.onSigCont stdinIsTerminal raw

def suspendState.steps (s : suspendState) (stdinIsTerminal : Bool) :
    List PtyEvent → suspendState × List Effect
  | [] => (s, [])
  | e :: rest =>
    let r := s.step stdinIsTerminal e
    let r' := r.1.steps stdinIsTerminal rest
    (r'.1, r.2 ++ r'.2)

/-- The terminal-mode part of runWithPTY, from the raw-mode setup to the return:
the suspend state is made with the PTY handle and the child pid; when stdin is a
terminal, makeRaw is called, an error returns at once, and on success the token
is saved and a restore of the token saved at return time is deferred; then the
events of the run are handled, and the function returns. -/
def rawModeSession (ptmx : Nat) (childPID : Int) (stdinIsTerminal : Bool)
    (raw0 : Option Nat) (events : List PtyEvent) : List Effect :=
  let ss : suspendState := { oldState := none, ptmx := some ptmx, childPID := childPID }
  if stdinIsTerminal then
    let r := makeRaw raw0
    match r.1 with
    | none => r.2
    | some state =>
      let run := (ss.setOldState (some state)).steps stdinIsTerminal events
      r.2 ++ run.2 ++ restoreTerminal run.1.getOldState
  else
    (ss.steps stdinIsTerminal events).2

/-- The tokens returned by successful raw-mode entries, in order. -/
def acquiredTokens : List Effect → List Nat
  | [] => []
  | .termMakeRaw (some st) :: rest => st :: acquiredTokens rest
  | _ :: rest => acquiredTokens rest

/-- The tokens passed to terminal restores, in order. -/
def restoredTokens : List Effect → List Nat
  | [] => []
  | .termRestore st :: rest => st :: restoredTokens rest
  | _ :: rest => restoredTokens rest

/-- Follow the token held by the process through a list of effects: a successful
raw-mode entry must find no token held and then holds the one it returns; a
restore must be called with the token held and then none is held. The result
is `none` as soon as an effect breaks this, else the token held at the end. -/
def trackToken (held : Option Nat) : List Effect → Option (Option Nat)
  | [] => some held
  | .termMakeRaw (some st) :: rest =>
    if held = none then trackToken (some st) rest else none
  | .termRestore st :: rest =>
    if held = some st then trackToken none rest else none
  | _ :: rest => trackToken held rest

/-! ## internal/claude/claude.go: the end of Run -/

/-- The end of `Run`: the status written once `runWithPTY` has returned `err`
(abandoned on an error, completed otherwise), and the error `Run` returns. -/
def finalStatusWrite (sessionID : String) (err : Option String) : StatusWrite × Option String :=
  match err with
  | some e => ({ id := sessionID, status := db.StatusAbandoned }, some e)
  | none => ({ id := sessionID, status := db.StatusCompleted }, none)

end claude

namespace tui

/-! ## internal/tui/dashboard.go: the actions of Update that write to the store -/

/-- Key `s` of `Update`, past its guard, on the selected session `session` (the
dashboard's loaded copy): kill the process and mark the row killed, only if the
copy says the session is running. -/
def stopSession (session : db.Session) (store : db.DB) (ts : Nat) :
    db.DB × List claude.Effect :=
  if session.Status = db.StatusWaiting ∨ session.Status = db.StatusWorking then
    (db.UpdateSessionStatus store ts session.ID db.StatusKilled,
     if session.PID > 0 then [.kill session.PID .SIGKILL] else [])
  else
    (store, [])

/-- Key `D` of `Update`, past its guard, on the selected session: stop the process
if the copy says it is running, then soft-delete the row. -/
def deleteSession (session : db.Session) (store : db.DB) (ts : Nat) :
    db.DB × List claude.Effect :=
  (db.SoftDeleteSession store ts session.ID,
   if session.PID > 0 ∧
      (session.Status = db.StatusWaiting ∨ session.Status = db.StatusWorking) then
     [.kill session.PID .SIGKILL]
   else [])

/-- Key `R` of `Update`, past its guard, on the selected session: restore the row. -/
def restoreSession (session : db.Session) (store : db.DB) (ts : Nat) :
    db.DB × List claude.Effect :=
  (db.RestoreSession store ts session.ID, [])

end tui

namespace lifecycle

/-! ## The status-writing steps of the system on the store -/

/-- The parts of the system that write session statuses: the store and the activity
monitor of the run. -/
structure System where
  store : db.DB
  monitor : claude.activityMonitor

/-- The status-writing steps: PTY output and ticker ticks seen by the monitor, the
return of `runWithPTY` inside `Run`, the dashboard's stop, delete and restore on
its loaded copy of a session, and the opening of the store by any process. -/
inductive Step where
  | output (now : Nat)
  | tick (now : Nat)
  | runReturns (err : Option String)
  | dashStop (session : db.Session)
  | dashDelete (session : db.Session)
  | dashRestore (session : db.Session)
  | reopen (probe : Int → Bool)

/-- Carry out the status writes of the monitor or of Run on the store. -/
def applyWrites (store : db.DB) (ts : Nat) : List claude.StatusWrite → db.DB
  | [] => store
  | w :: rest => applyWrites (w.apply store ts) ts rest

/-- One step, with the store's timestamp `ts` at that moment. -/
def System.step (sys : System) (ts : Nat) : Step → System
  | .output now =>
    let r := sys.monitor.onOutput now
    { store := applyWrites sys.store ts r.2, monitor := r.1 }
  | .tick now =>
    let r := sys.monitor.onTick now
    { store := applyWrites sys.store ts r.2, monitor := r.1 }
  | .runReturns err =>
    { sys with
      store := applyWrites sys.store ts [(claude.finalStatusWrite sys.monitor.sessionID err).1] }
  | .dashStop session => { sys with store := (tui.stopSession session sys.store ts).1 }
  | .dashDelete session => { sys with store := (tui.deleteSession session sys.store ts).1 }
  | .dashRestore session => { sys with store := (tui.restoreSession session sys.store ts).1 }
  | .reopen probe => { sys with store := db.Open sys.store ts probe }

/-- One executed step: the system before, the step, the system after. -/
structure Transition where
  before : System
  ts : Nat
  step : Step
  after : System

/-- The transitions of a sequence of timestamped steps. -/
def System.trace (sys : System) : List (Nat × Step) → List Transition
  | [] => []
  | (ts, st) :: rest =>
    { before := sys, ts := ts, step := st, after := sys.step ts st }
      :: (sys.step ts st).trace rest

/-- The statuses a session goes through: its status before the first step and after
each step. -/
def System.statuses (sys : System) (id : String) (steps : List (Nat × Step)) :
    List (Option db.SessionStatus) :=
  db.statusOf sys.store id :: (sys.trace steps).map (fun tr => db.statusOf tr.after.store id)

/-- The allowed edges of the claim: waiting and working into each other; waiting or
working to completed, abandoned or killed; any status to deleted; deleted to
restored. -/
def allowedEdge (a b : db.SessionStatus) : Bool :=
  (a == "waiting" && b == "working") || (a == "working" && b == "waiting")
  || ((a == "waiting" || a == "working")
        && (b == "completed" || b == "abandoned" || b == "killed"))
  || b == "deleted"
  || (a == "deleted" && b == "restored")

/-- The seven statuses of the data model. -/
def knownStatuses : List db.SessionStatus :=
  [db.StatusWaiting, db.StatusWorking, db.StatusCompleted, db.StatusAbandoned,
   db.StatusKilled, db.StatusDeleted, db.StatusRestored]

/-- A step acts on the current status of its row: a write of the monitor or of Run
finds its session still waiting or working; the dashboard's stop or restore has a
loaded copy whose status is the stored one, and the copy restored is a deleted
one (it comes from the trash list). Delete and the opening of the store do not
depend on anything but the store. -/
def actsOnCurrent (sys : System) : Step → Prop
  | .output _ | .tick _ | .runReturns _ =>
    db.statusOf sys.store sys.monitor.sessionID = some db.StatusWaiting
      ∨ db.statusOf sys.store sys.monitor.sessionID = some db.StatusWorking
  | .dashStop session => db.statusOf sys.store session.ID = some session.Status
  | .dashRestore session =>
    session.Status = db.StatusDeleted
      ∧ db.statusOf sys.store session.ID = some session.Status
  | .dashDelete _ => True
  | .reopen _ => True

/-- A store with one waiting session and the monitor of its run. -/
def exampleSystem : System :=
  { store := { sessions := [db.insertedRow 1 (db.sampleSession "abc12345" "waiting" 0)] },
    monitor := claude.newActivityMonitor "abc12345" 0 }

end lifecycle

namespace db

/-! ## internal/db/sessions.go: reading sessions -/

/-- scanSession scans a single row into a Session: a NULL text column reads as the
empty string, a NULL pid as 0, and DeletedAt is set only for a non-NULL
`deleted_at`. `scanSessionRows` does the same for one row of a result set. -/
def scanSession (r : Row) : Session :=
  { ID := r.id, CreatedAt := r.created_at, UpdatedAt := r.updated_at,
    WorkflowType := r.workflow_type, Status := r.status,
    WorkingDirectory := r.working_directory,
    TaskDescription := r.task_description.getD "",
    Prefix := r.prefix_col.getD "",
    ClaudeSessionID := r.claude_session_id.getD "",
    TmuxSession := r.tmux_session, TmuxWindow := r.tmux_window, TmuxPane := r.tmux_pane,
    OutputFile := r.output_file.getD "",
    PID := r.pid.getD 0,
    DeletedAt := r.deleted_at }

/-- GetSession retrieves a session by ID: `none` is the Go result `nil, nil` of a
query without rows. -/
def GetSession (d : DB) (id : String) : Option Session :=
  (d.sessions.find? fun r => r.id == id).map scanSession

/-- The rows of the table with their rowid; the position in the table stands for
the rowid, which grows with every insert. -/
def rowsWithRowid (d : DB) : List (Nat × Row) := d.sessions.enum

/-- The order `ORDER BY created_at DESC, rowid DESC` as a comparison: `a` is not
after `b`. -/
def newerFirst (a b : Nat × Row) : Prop :=
  a.2.created_at > b.2.created_at ∨ (a.2.created_at = b.2.created_at ∧ a.1 ≥ b.1)

instance : DecidableRel newerFirst := fun a b => by
  unfold newerFirst; infer_instance

/-- The WHERE clause of ListSessions: `status = ?` for a non-empty status,
`status != 'deleted'` for the empty one. -/
def listSelects (status : SessionStatus) (r : Row) : Bool :=
  if status ≠ "" then r.status == status else r.status != "deleted"

/-- The result set of the query of ListSessions, rows with their rowid. -/
def listRows (d : DB) (status : SessionStatus) : List (Nat × Row) :=
  ((rowsWithRowid d).filter fun p => listSelects status p.2).insertionSort newerFirst

/-- ListSessions retrieves all sessions, optionally filtered by status.
When status is empty, excludes deleted sessions. -/
def ListSessions (d : DB) (status : SessionStatus) : List Session :=
  (listRows d status).map fun p => scanSession p.2

/-- The order of the claim, strictly: created later, or created at the same time
and inserted later. -/
def strictlyNewer (a b : Nat × Row) : Prop :=
  a.2.created_at > b.2.created_at ∨ (a.2.created_at = b.2.created_at ∧ a.1 > b.1)

/-- The rows the claim says prune removes: status deleted and deleted_at more than
7 days (604800 seconds) before the clock value. -/
def deletedLongAgo (ts : Nat) (r : Row) : Prop :=
  r.status = StatusDeleted ∧ ∃ t, r.deleted_at = some t ∧ t + 604800 < ts

end db

namespace claude

/-! ## internal/claude/prompts.go -/

/-- CommandType represents a cmt command that starts a Claude session
(`type CommandType string`). -/
abbrev CommandType := String

def CommandNew : CommandType := "new"
def CommandResearch : CommandType := "research"
def CommandPlan : CommandType := "plan"
def CommandImplement : CommandType := "implement"
def CommandFixTest : CommandType := "fix-test"
def CommandLookAndFix : CommandType := "look-and-fix"
def CommandQuick : CommandType := "quick"

/-- Prompt prefixes prepended to the task description for each command: the Go map
as a list of its entries. -/
def promptPrefixes : List (CommandType × String) :=
  [(CommandNew, ""),
   (CommandResearch, "/research_codebase"),
   (CommandPlan, "/create_plan"),
   (CommandImplement,
    "/implement_plan implement all phases ignoring any manual verification steps"),
   (CommandFixTest, "Analyze and fix the failing test at:"),
   (CommandLookAndFix,
    "Take a look at this repo and search for comments tagged with %s and propose how to solve them. If a class name or filename is provided as a parameter, focus the search on that specific file or class."),
   (CommandQuick, "")]

/-- The characters of `fmt.Sprintf(format, arg)` for a format whose only verb is
one `%s` and a string argument: the argument takes the place of the verb. -/
def sprintfChars : List Char → String → List Char
  | [], _ => []
  | '%' :: 's' :: rest, arg => arg.data ++ rest
  | c :: rest, arg => c :: sprintfChars rest arg

/-- The call `fmt.Sprintf(format, arg)` made by GetPromptPrefix. -/
def Sprintf (format arg : String) : String :=
  String.mk (sprintfChars format.data arg)

/-- GetPromptPrefix returns the prompt prefix for a command type.
For look-and-fix, commentTag specifies the tag to search for (defaults to "CMT"). -/
def GetPromptPrefix (cmd : CommandType) (commentTag : String) : String :=
  match promptPrefixes.lookup cmd with
  | none => ""
  | some pfx =>
    if cmd = CommandLookAndFix then
      Sprintf pfx (if commentTag = "" then "CMT" else commentTag)
    else pfx

/-! ## internal/claude/claude.go: RunOptions and buildCommand -/

/-- RunOptions configures a Claude session. -/
structure RunOptions where
  Command : CommandType
  WorkflowType : db.WorkflowType
  TaskDescription : String
  WorkingDir : String
  Model : String
  PrintMode : Bool
  AutonomousMode : Bool
  CommentTag : String
  ResumeSessionID : String
  deriving DecidableEq, Repr

/-- The part of `exec.Cmd` the code uses: `Args` holds the command name followed
by the arguments, `Dir` the working directory. -/
structure Cmd where
  Path : String
  Args : List String
  Dir : String
  deriving DecidableEq, Repr

/-- The `args` slice that buildCommand assembles. -/
def buildArgs (opts : RunOptions) : List String :=
  let args : List String := []
  let args := if opts.Model ≠ "" then args ++ ["--model", opts.Model] else args
  let args := if opts.PrintMode then args ++ ["-p"] else args
  let args := if opts.AutonomousMode then args ++ ["--dangerously-skip-permissions"] else args
  let args :=
    if opts.ResumeSessionID ≠ "" then
      if opts.ResumeSessionID = "*" then args ++ ["--resume"]
      else args ++ ["--resume", opts.ResumeSessionID]
    else args
  let args :=
    if opts.TaskDescription ≠ "" then
      let task := opts.TaskDescription
      let pfx := GetPromptPrefix opts.Command opts.CommentTag
      let task := if pfx ≠ "" then pfx ++ " " ++ task else task
      args ++ [task]
    else args
  args

/-- buildCommand constructs the claude CLI command: `exec.Command("claude", args...)`. -/
def buildCommand (opts : RunOptions) : Cmd :=
  { Path := "claude", Args := "claude" :: buildArgs opts, Dir := "" }

/-- The arguments the claim lists before the prompt, in its words: the model
flag and value when Model is non-empty, the print flag when PrintMode is true, the
skip-permissions flag when AutonomousMode is true, and the resume flag, bare for
"*" and followed by the id otherwise, when ResumeSessionID is non-empty. -/
def flagArgs (opts : RunOptions) : List String :=
  (if opts.Model = "" then [] else ["--model", opts.Model])
    ++ (if opts.PrintMode = true then ["-p"] else [])
    ++ (if opts.AutonomousMode = true then ["--dangerously-skip-permissions"] else [])
    ++ (if opts.ResumeSessionID = "" then []
        else if opts.ResumeSessionID = "*" then ["--resume"]
        else ["--resume", opts.ResumeSessionID])

/-- The prompt argument in the words of the claim: none for an empty task
description; else the prefix, one space and the task description when the prefix is
non-empty, and the task description alone otherwise. -/
def promptArgs (opts : RunOptions) : List String :=
  if opts.TaskDescription = "" then []
  else if GetPromptPrefix opts.Command opts.CommentTag = "" then [opts.TaskDescription]
  else [GetPromptPrefix opts.Command opts.CommentTag ++ " " ++ opts.TaskDescription]

/-- Run options with every field empty or false, for the command `new`. -/
def plainOptions : RunOptions :=
  { Command := CommandNew, WorkflowType := "general", TaskDescription := "",
    WorkingDir := "", Model := "", PrintMode := false, AutonomousMode := false,
    CommentTag := "", ResumeSessionID := "" }

end claude

namespace db

/-! ## The store on an engine that can fail -/

/-- The persistence engine under the store: the table, and for each statement still
to come whether the engine fails it (an I/O or lock error with its message,
`some msg`) or runs it (`none`; also when the list is used up). -/
structure Engine where
  table : DB
  failures : List (Option String)
  deriving DecidableEq, Repr

/-- The engine's verdict on the next statement, and the engine ready for the one after. -/
def Engine.next (e : Engine) : Option String × Engine :=
  match e.failures with
  | [] => (none, e)
  | verdict :: rest => (verdict, { e with failures := rest })

/-- CreateSession on the engine: the error returned is `insert session: ` followed
by the engine's message, or the error of the insert itself. -/
def Engine.CreateSession (e : Engine) (ts : Nat) (s : Session) : Engine × Option String :=
  match e.next with
  | (some msg, e') => (e', some ("insert session: " ++ msg))
  | (none, e') =>
    match db.CreateSession e'.table ts s with
    | .ok t => ({ e' with table := t }, none)
    | .error msg => (e', some msg)

/-- UpdateSessionStatus on the engine. -/
def Engine.UpdateSessionStatus (e : Engine) (ts : Nat) (id : String) (status : SessionStatus) :
    Engine × Option String :=
  match e.next with
  | (some msg, e') => (e', some ("update session status: " ++ msg))
  | (none, e') => ({ e' with table := db.UpdateSessionStatus e'.table ts id status }, none)

/-- UpdateSessionPID on the engine. -/
def Engine.UpdateSessionPID (e : Engine) (ts : Nat) (id : String) (pid : Int) :
    Engine × Option String :=
  match e.next with
  | (some msg, e') => (e', some ("update session pid: " ++ msg))
  | (none, e') => ({ e' with table := db.UpdateSessionPID e'.table ts id pid }, none)

end db

namespace tmux

/-! ## internal/tmux/tmux.go -/

def ErrNotInTmux : String := "not running inside tmux"

/-- Location represents a tmux session/window/pane location. -/
structure Location where
  Session : String
  Window : Int
  Pane : Int
  deriving DecidableEq, Repr

/-- InTmux checks if we're running inside a tmux session; the argument is
`os.Getenv("TMUX")`, empty when the variable is unset. -/
def InTmux (TMUX : String) : Bool := TMUX != ""

/-- RequireTmux returns an error if not running inside tmux. -/
def RequireTmux (TMUX : String) : Option String :=
  if !InTmux TMUX then some ErrNotInTmux else none

/-- CurrentLocation returns the current tmux session, window, and pane. `query` is
the outcome of running `tmux display-message` and parsing its output. -/
def CurrentLocation (TMUX : String) (query : Except String Location) : Except String Location :=
  match RequireTmux TMUX with
  | some err => .error err
  | none => query

end tmux

namespace claude

/-! ## internal/claude/claude.go: Run and runWithPTY -/

/-- Runner manages Claude CLI execution; the store is passed to `Run` as an engine. -/
structure Runner where
  outputDir : String
  deriving DecidableEq, Repr

/-- A call made to the store during a run. -/
inductive StoreCall where
  | createSession (s : db.Session)
  | updateSessionPID (id : String) (pid : Int)
  | updateSessionStatus (id : String) (status : db.SessionStatus)
  deriving DecidableEq, Repr

/-- What the operating system and the child do during runWithPTY.
`start` is the outcome of `pty.Start`: an error, or the pid of the child.
`createOutput` is the error of `os.Create` on the transcript file, if any.
`raw0` is the outcome of the first `makeRaw`, with `rawErr` its error message.
`events` are the outputs of the child and the ticks of the monitor that the two
monitor goroutines handle before Run makes its final status write, each with the
store's timestamp at that moment. `wait` is the error of `cmd.Wait`, if any (a
non-zero exit is one). `late` are the outputs and ticks that these goroutines
handle after that write: runWithPTY returns as soon as `cmd.Wait` does and waits
for none of its goroutines, so the copy loop can still be handing output to
`onOutput`, and the ticker loop can still take a tick, until the deferred
`ptmx.Close()` and `close(m.done)` reach them or the process exits. -/
structure PtyOutcome where
  start : Except String Int
  startedAt : Nat
  monitorCreated : Nat
  createOutput : Option String
  stdinIsTerminal : Bool
  raw0 : Option Nat
  rawErr : String
  events : List (Nat × Event)
  wait : Option String
  late : List (Nat × Event)

/-- What a run leaves behind: the engine, the error returned, the calls made to the
store in order, each with the error it returned, and the command handed to
`pty.Start`, if the run got that far. -/
structure RunResult where
  engine : db.Engine
  err : Option String
  calls : List (StoreCall × Option String)
  command : Option Cmd

/-- The status writes of the monitor for one event, sent to the store; the errors
they return are dropped by the monitor. -/
def pushWrites (e : db.Engine) (ts : Nat) :
    List StatusWrite → db.Engine × List (StoreCall × Option String)
  | [] => (e, [])
  | w :: rest =>
    let r := e.UpdateSessionStatus ts w.id w.status
    let r' := pushWrites r.1 ts rest
    (r'.1, (StoreCall.updateSessionStatus w.id w.status, r.2) :: r'.2)

/-- The monitor at work during the copy loops of runWithPTY. -/
def monitorLoop (m : activityMonitor) (e : db.Engine) :
    List (Nat × Event) → db.Engine × List (StoreCall × Option String)
  | [] => (e, [])
  | (ts, ev) :: rest =>
    let h := m.handle ev
    let p := pushWrites e ts h.2
    let r := monitorLoop h.1 p.1 rest
    (r.1, p.2 ++ r.2)

/-- runWithPTY runs the command with a pseudo-terminal for interactive use: what it
and its goroutines do to the store before Run makes its final status write, and
the error it returns. The goroutines it leaves running are `leftRunning`. -/
def Runner.runWithPTY (_r : Runner) (e : db.Engine) (cmd : Cmd) (session : db.Session)
    (o : PtyOutcome) : RunResult :=
  match o.start with
  | .error err =>
    { engine := e, err := some ("start pty: " ++ err), calls := [], command := some cmd }
  | .ok pid =>
    let p := e.UpdateSessionPID o.startedAt session.ID pid
    let calls := [(StoreCall.updateSessionPID session.ID pid, p.2)]
    let monitor := newActivityMonitor session.ID o.monitorCreated
    match o.createOutput with
    | some err =>
      { engine := p.1, err := some ("create output file: " ++ err), calls := calls,
        command := some cmd }
    | none =>
      if o.stdinIsTerminal && o.raw0.isNone then
        { engine := p.1, err := some ("set raw mode: " ++ o.rawErr), calls := calls,
          command := some cmd }
      else
        let l := monitorLoop monitor p.1 o.events
        { engine := l.1, err := o.wait, calls := calls ++ l.2, command := some cmd }

/-- Whether an event is a tick of the monitor's ticker. -/
def Event.isTick : Event → Bool
  | .tick _ => true
  | .output _ => false

/-- The monitor goroutines that runWithPTY leaves running when it returns, as the
state of the monitor at that moment and the events still handled: `monitor.stop()`
only closes `done`, which the ticker loop sees at its next `select`, and nothing
waits for the output-copy goroutine, which ends when its read of the closed PTY
fails. There is no monitor when `pty.Start` failed; on the two early returns after
`monitor.start()` only the ticker loop runs, the copy goroutine not being started
yet; after `cmd.Wait` both run, from the state the earlier events left. -/
def Runner.leftRunning (_r : Runner) (session : db.Session) (o : PtyOutcome) :
    Option (activityMonitor × List (Nat × Event)) :=
  match o.start with
  | .error _ => none
  | .ok _ =>
    let monitor := newActivityMonitor session.ID o.monitorCreated
    match o.createOutput with
    | some _ => some (monitor, o.late.filter fun p => p.2.isTick)
    | none =>
      if o.stdinIsTerminal && o.raw0.isNone then
        some (monitor, o.late.filter fun p => p.2.isTick)
      else
        some ((monitor.run (o.events.map fun p => p.2)).1, o.late)

/-- The status pushes that the goroutines left running make on the store `e` after
the final status write of Run. -/
def Runner.latePushes (r : Runner) (session : db.Session) (o : PtyOutcome) (e : db.Engine) :
    db.Engine × List (StoreCall × Option String) :=
  match r.leftRunning session o with
  | none => (e, [])
  | some (m, evs) => monitorLoop m e evs

/-- What the process finds around it when Run is called. -/
structure Environment where
  TMUX : String
  tmuxQuery : Except String tmux.Location
  getwd : Except String String
  uuid : String
  CMT_PREFIX : String
  CMT_COMMENT_TAG : String
  now : Nat
  pty : PtyOutcome
  finishedAt : Nat

/-- The first part of Run, up to the session record: the tmux check, the tmux
location, the working directory, and the record to create. An error is the error
Run returns. -/
def Runner.prepare (r : Runner) (env : Environment) (opts : RunOptions) :
    Except String (db.Session × String) :=
  match tmux.RequireTmux env.TMUX with
  | some err => .error ("cmt requires tmux: " ++ err)
  | none =>
    match tmux.CurrentLocation env.TMUX env.tmuxQuery with
    | .error err => .error ("get tmux location: " ++ err)
    | .ok loc =>
      let wd : Except String String :=
        if opts.WorkingDir = "" then env.getwd else .ok opts.WorkingDir
      match wd with
      | .error err => .error ("get working directory: " ++ err)
      | .ok workDir =>
        let sessionID := String.mk (env.uuid.data.take 8)
        let outputFile := r.outputDir ++ "/" ++ sessionID ++ ".log"
        let session : db.Session :=
          { ID := sessionID, CreatedAt := 0, UpdatedAt := 0,
            WorkflowType := opts.WorkflowType, Status := db.StatusWaiting,
            WorkingDirectory := workDir, TaskDescription := opts.TaskDescription,
            Prefix := env.CMT_PREFIX,
            ClaudeSessionID :=
              if opts.ResumeSessionID ≠ "" ∧ opts.ResumeSessionID ≠ "*" then
                opts.ResumeSessionID
              else "",
            TmuxSession := loc.Session, TmuxWindow := loc.Window, TmuxPane := loc.Pane,
            OutputFile := outputFile, PID := 0, DeletedAt := none }
        .ok (session, workDir)

/-- The command Run hands to runWithPTY. -/
def Runner.command (_r : Runner) (env : Environment) (opts : RunOptions) (workDir : String) :
    Cmd :=
  let opts := if opts.CommentTag = "" then { opts with CommentTag := env.CMT_COMMENT_TAG } else opts
  { buildCommand opts with Dir := workDir }

/-- Run starts a Claude session with tracking. The result holds the error Run
returns and every call made to the store on behalf of the run, in the order the
store receives them: those of Run and runWithPTY, and after the final status
write of Run those of the goroutines runWithPTY left running. -/
def Runner.Run (r : Runner) (env : Environment) (e : db.Engine) (opts : RunOptions) :
    RunResult :=
  match r.prepare env opts with
  | .error err => { engine := e, err := some err, calls := [], command := none }
  | .ok (session, workDir) =>
    let c := e.CreateSession env.now session
    match c.2 with
    | some err =>
      { engine := c.1, err := some ("create session: " ++ err),
        calls := [(StoreCall.createSession session, some err)], command := none }
    | none =>
      let p := r.runWithPTY c.1 (r.command env opts workDir) session env.pty
      let w := finalStatusWrite session.ID p.err
      let f := p.engine.UpdateSessionStatus env.finishedAt w.1.id w.1.status
      let l := r.latePushes session env.pty f.1
      { engine := l.1, err := w.2,
        calls := (StoreCall.createSession session, none) :: p.calls
          ++ [(StoreCall.updateSessionStatus w.1.id w.1.status, f.2)] ++ l.2,
        command := p.command }

/-- The error runWithPTY returns, in the words of the claim: a spawn failure, a
transcript-file failure, a raw-mode failure, else the error of the wait. -/
def ptyError (o : PtyOutcome) : Option String :=
  match o.start with
  | .error err => some ("start pty: " ++ err)
  | .ok _ =>
    match o.createOutput with
    | some err => some ("create output file: " ++ err)
    | none =>
      if o.stdinIsTerminal = true ∧ o.raw0 = none then some ("set raw mode: " ++ o.rawErr)
      else o.wait

/-- A run in which the child starts as process 4242, prints once and exits cleanly,
and the monitor goroutines handle nothing after the final status write. -/
def cleanPty : PtyOutcome :=
  { start := .ok 4242, startedAt := 10, monitorCreated := 10000000000,
    createOutput := none, stdinIsTerminal := true, raw0 := some 7, rawErr := "",
    events := [(11, .output 11000000000), (13, .tick 13000000000)], wait := none,
    late := [] }

/-- A run in which the child prints and exits at once: `cmd.Wait` returns and Run
writes the final status before the copy goroutine has handed the output, already
read from the PTY, to `onOutput`. -/
def racePty : PtyOutcome :=
  { start := .ok 4242, startedAt := 10, monitorCreated := 10000000000,
    createOutput := none, stdinIsTerminal := true, raw0 := some 7, rawErr := "",
    events := [], wait := none, late := [(21, .output 10050000000)] }

/-- An environment inside tmux, with a clean run. -/
def exampleEnvironment : Environment :=
  { TMUX := "/tmp/tmux-1000/default,1234,0",
    tmuxQuery := .ok { Session := "main", Window := 0, Pane := 1 },
    getwd := .ok "/home/user/project", uuid := "abc12345-0000-4000-8000-000000000000",
    CMT_PREFIX := "", CMT_COMMENT_TAG := "", now := 9, pty := cleanPty, finishedAt := 20 }

/-- The runner of the examples. -/
def exampleRunner : Runner := { outputDir := "/home/user/.config/cmt/output" }

end claude

namespace cli

/-! ## internal/cli/quick.go -/

/-- CLI is the root command structure for cmt: its global flags. -/
structure CLI where
  DB : String
  Verbose : Bool
  Autonomous : Bool
  deriving DecidableEq, Repr

/-- QuickCmd runs a quick single-response query using Sonnet. -/
structure QuickCmd where
  Prompt : String
  deriving DecidableEq, Repr

/-- The run options in the call of `runner.Run` at the end of `QuickCmd.Run`, for
the prompt read so far. -/
def QuickCmd.options (cli : CLI) (prompt : String) : claude.RunOptions :=
  { Command := claude.CommandQuick,
    WorkflowType := "general",
    TaskDescription := prompt,
    WorkingDir := "",
    Model := "haiku",
    PrintMode := true,
    AutonomousMode := cli.Autonomous,
    CommentTag := "",
    ResumeSessionID := "" }

/-- Run executes the quick command, up to the call of `runner.Run`: the prompt is
read from stdin when it is "-" (`stdin` is the outcome of `io.ReadAll`), the
runner is made (`newRunner` is the outcome of `claude.NewRunner`), and the result
is the runner with the options handed to it, or the error returned before. -/
def QuickCmd.Run (c : QuickCmd) (cli : CLI) (stdin : Except String String)
    (newRunner : Except String claude.Runner) :
    Except String (claude.Runner × claude.RunOptions) :=
  let prompt : Except String String :=
    if c.Prompt = "-" then
      match stdin with
      | .error err => .error ("reading stdin: " ++ err)
      | .ok data => .ok data
    else .ok c.Prompt
  match prompt with
  | .error err => .error err
  | .ok prompt =>
    match newRunner with
    | .error err => .error err
    | .ok runner => .ok (runner, QuickCmd.options cli prompt)

/-! ## internal/cli/fileflags.go -/

/-- FileFlags provides file selection flags for commands. -/
structure FileFlags where
  Files : List String
  Dirs : List String
  Thoughts : Int
  deriving DecidableEq, Repr

/-- DefaultDir of package plans. -/
def plansDefaultDir : String := "thoughts/shared"

/-- The loop over the `-f` flags. `notExist file` is `os.IsNotExist` of the error
of `os.Stat(file)`. -/
def resolveDirect (notExist : String → Bool) :
    List String → List String → Except String (List String)
  | [], resolved => .ok resolved
  | file :: rest, resolved =>
    if notExist file then .error ("file not found: " ++ file)
    else resolveDirect notExist rest (resolved ++ [file])

/-- The loop over the `-d` flags. `selectFile n dir` is the outcome of the call
number `n` of `plans.SelectMarkdownFile`, made on `dir`. -/
def resolveDirs (selectFile : Nat → String → Except String String) :
    Nat → List String → List String → Except String (Nat × List String)
  | n, [], resolved => .ok (n, resolved)
  | n, dir :: rest, resolved =>
    match selectFile n dir with
    | .error err => .error err
    | .ok path => resolveDirs selectFile (n + 1) rest (resolved ++ [path])

/-- The loop over the `-t` count, with the number of rounds left. -/
def resolveThoughts (selectFile : Nat → String → Except String String) :
    Nat → Nat → List String → Except String (List String)
  | 0, _, resolved => .ok resolved
  | rounds + 1, n, resolved =>
    match selectFile n plansDefaultDir with
    | .error err => .error err
    | .ok path => resolveThoughts selectFile rounds (n + 1) (resolved ++ [path])

/-- ResolveFiles processes all file flags and returns the list of file paths.
Files are processed in order: -f files, then -d directories, then -t defaults. -/
def FileFlags.ResolveFiles (f : FileFlags) (notExist : String → Bool)
    (selectFile : Nat → String → Except String String) : Except String (List String) :=
  match resolveDirect notExist f.Files [] with
  | .error err => .error err
  | .ok resolved =>
    match resolveDirs selectFile 0 f.Dirs resolved with
    | .error err => .error err
    | .ok (n, resolved) => resolveThoughts selectFile f.Thoughts.toNat n resolved

/-- The Go function `strings.Join`. -/
def stringsJoin : List String → String → String
  | [], _ => ""
  | [a], _ => a
  | a :: b :: rest, sep => a ++ sep ++ stringsJoin (b :: rest) sep

/-- PrependFilesToTask prepends file paths to the task description. -/
def PrependFilesToTask (files : List String) (task : String) : String :=
  if files.length = 0 then task
  else
    let parts := files ++ [task]
    stringsJoin parts " "

/-! ## internal/cli/sessions.go -/

/-- The bytes of the Go string "...". -/
def threeDots : List UInt8 := [0x2e, 0x2e, 0x2e]

/-- shortenPath shortens a path to fit within maxLen. A Go string is a sequence of
bytes, and `len` and slicing count bytes; the slice expression panics when its
start is past the end of the string. The start is computed without wrapping: a
sum that leaves the range of `int` is above `len(path)` here and negative in Go,
and the slice expression panics for both. -/
def shortenPath (path : List UInt8) (maxLen : Int) : Except String (List UInt8) :=
  if (path.length : Int) ≤ maxLen then .ok path
  else if (path.length : Int) > maxLen then
    let start : Int := (path.length : Int) - maxLen + 3
    if start < 0 ∨ start > (path.length : Int) then
      .error "panic: runtime error: slice bounds out of range"
    else .ok (threeDots ++ path.drop start.toNat)
  else .ok path

end cli

namespace tui

/-! ## internal/tui/dashboard.go: layout -/

/-- The result of an addition or subtraction of Go `int` values (64 bits, two's
complement): the exact result wrapped into the range from -2^63 to 2^63 - 1. -/
def wrapInt (x : Int) : Int :=
  (x + 9223372036854775808) % 18446744073709551616 - 9223372036854775808

def colIDWidth : Int := 10
def colStatusWidth : Int := 11
def colWorkflowWidth : Int := 10
def colAgeWidth : Int := 6
def colPrefixWidth : Int := 20

/-- visibleColumns determines which columns to show based on available width.
`prefixCol` is the Go field `prefix`, `promptWidth` the dynamic width for the prompt
column. -/
structure visibleColumns where
  id : Bool
  status : Bool
  workflow : Bool
  age : Bool
  prefixCol : Bool
  prompt : Bool
  promptWidth : Int
  deriving DecidableEq, Repr

/-- getVisibleColumns returns which columns fit in the given width. The sums of
`used` and the column widths stay far below 2^63; the subtractions from `width`
and `available` can wrap. -/
def getVisibleColumns (width : Int) : visibleColumns :=
  let available := wrapInt (width - 6)
  let cols : visibleColumns :=
    { id := true, status := false, workflow := false, age := false, prefixCol := false,
      prompt := false, promptWidth := 0 }
  let used := colIDWidth
  let (cols, used) :=
    if used + 1 + colStatusWidth ≤ available then
      ({ cols with status := true }, used + (1 + colStatusWidth))
    else (cols, used)
  let (cols, used) :=
    if used + 1 + colWorkflowWidth ≤ available then
      ({ cols with workflow := true }, used + (1 + colWorkflowWidth))
    else (cols, used)
  let (cols, used) :=
    if used + 1 + colAgeWidth + 2 ≤ available then
      ({ cols with age := true }, used + (1 + colAgeWidth + 2))
    else (cols, used)
  let (cols, used) :=
    if used + 1 + colPrefixWidth ≤ available then
      ({ cols with prefixCol := true }, used + (1 + colPrefixWidth))
    else (cols, used)
  let remaining := wrapInt (wrapInt (available - used) - 1)
  if remaining ≥ 10 then { cols with prompt := true, promptWidth := remaining }
  else cols

/-! ## internal/tui/dashboard.go: the model -/

def focusList : Int := 0
def focusInfo : Int := 1

def viewNormal : Int := 0
def viewTrash : Int := 1

/-- What `SetContent` last put into the info viewport: nothing yet, the text
"No session selected", or the details of a session (the lines that
`updateInfoContent` formats from its fields). -/
inductive InfoContent where
  | empty
  | noSession
  | details (session : db.Session)
  deriving DecidableEq, Repr

/-- The `viewport.Model` of the bubbles library as far as the dashboard drives it:
the size it was made with, its content, and the key messages handed to its
`Update` since it was made. -/
structure Viewport where
  Width : Int
  Height : Int
  content : InfoContent
  received : List String
  deriving DecidableEq, Repr

/-- The call `viewport.New(width, height)`. -/
def Viewport.New (width height : Int) : Viewport :=
  { Width := width, Height := height, content := .empty, received := [] }

def Viewport.SetContent (v : Viewport) (c : InfoContent) : Viewport :=
  { v with content := c }

def Viewport.Update (v : Viewport) (key : String) : Viewport :=
  { v with received := v.received ++ [key] }

/-- Dashboard is the main TUI model. The field `db` of the Go struct is a pointer to
the store, which `Update` takes and returns beside the model; `sessions` holds
the sessions the pointers of the Go slice point to. -/
structure Dashboard where
  sessions : List db.Session
  selected : Int
  focus : Int
  infoViewport : Viewport
  width : Int
  height : Int
  err : Option String
  loading : Bool
  jumpTarget : Option db.Session
  showInfo : Bool
  viewMode : Int
  deriving DecidableEq, Repr

/-- NewDashboard creates a new dashboard model: the fields the composite literal
does not name have their zero value. -/
def NewDashboard : Dashboard :=
  { sessions := [], selected := 0, focus := focusList,
    infoViewport := { Width := 0, Height := 0, content := .empty, received := [] },
    width := 0, height := 0, err := none, loading := true, jumpTarget := none,
    showInfo := false, viewMode := 0 }

def Dashboard.listWidth (d : Dashboard) : Int := wrapInt (d.width - 2)

def Dashboard.infoWidth (d : Dashboard) : Int := wrapInt (d.width - 4)

/-- The list height: 5 chrome lines are always present, 8 when the info panel is
shown, which also keeps 18 lines for itself. -/
def Dashboard.contentHeight (d : Dashboard) : Int :=
  if d.showInfo then
    let chrome : Int := 8
    let minInfoHeight : Int := 18
    let listHeight := wrapInt (wrapInt (d.height - chrome) - minInfoHeight)
    let listHeight := if listHeight < 5 then 5 else listHeight
    listHeight
  else wrapInt (d.height - 5)

def Dashboard.infoHeight (d : Dashboard) : Int :=
  let height := wrapInt (wrapInt (d.height - 8) - d.contentHeight)
  let height := if height < 3 then 3 else height
  height

/-- The index expression `sessions[i]`: it panics for an index outside the slice. -/
def index (sessions : List db.Session) (i : Int) : Except String db.Session :=
  if i < 0 then .error "panic: runtime error: index out of range"
  else
    match sessions[i.toNat]? with
    | some session => .ok session
    | none => .error "panic: runtime error: index out of range"

/-- updateInfoContent updates the info panel content based on selected session. -/
def Dashboard.updateInfoContent (d : Dashboard) : Except String Dashboard :=
  if d.sessions.length = 0 ∨ d.selected ≥ (d.sessions.length : Int) then
    .ok { d with infoViewport := d.infoViewport.SetContent .noSession }
  else
    match index d.sessions d.selected with
    | .error e => .error e
    | .ok session => .ok { d with infoViewport := d.infoViewport.SetContent (.details session) }

/-! ## internal/tui/dashboard.go: sortSessions -/

/-- The test `Status == db.StatusWaiting || Status == db.StatusWorking` of the
comparison function. -/
def isRunning (s : db.Session) : Bool :=
  s.Status == db.StatusWaiting || s.Status == db.StatusWorking

/-- The comparison function handed to `sort.Slice`, on the two elements it reads:
running sessions come first, and within the same group the one created later. -/
def sessionLess (a b : db.Session) : Bool :=
  let iRunning := isRunning a
  let jRunning := isRunning b
  if iRunning != jRunning then iRunning
  else decide (a.CreatedAt > b.CreatedAt)

/-- The call `sort.Slice(sorted, less)`: the contents of the slice afterwards.
`sort.Slice` does not promise an order for elements neither of which is less than
the other; up to 12 elements it is an insertion sort, which keeps them in their
order, and this is the order taken here for every length. -/
def sortSlice (sorted : List db.Session) : List db.Session :=
  sorted.insertionSort fun a b => ¬ sessionLess b a = true

/-- sortSessions sorts sessions with running (waiting/working) first, then by
creation time descending. The first component is the contents of the caller's
slice after the call, the second the slice returned: the sort runs on `sorted`,
a copy in a new array, and an empty slice is returned as it is. -/
def sortSessions (sessions : List db.Session) : List db.Session × List db.Session :=
  if sessions.length = 0 then (sessions, sessions)
  else
    let sorted := sessions
    let sorted := sortSlice sorted
    (sessions, sorted)

/-! ## internal/tui/dashboard.go: Update -/

/-- The messages `Update` distinguishes: a `tea.KeyMsg` with its `String()`, a
`tea.WindowSizeMsg`, the three messages of the dashboard, and any other message. -/
inductive Msg where
  | key (s : String)
  | windowSize (Width Height : Int)
  | pruneCompleted (count : Int) (err : Option String)
  | sessionsLoaded (sessions : List db.Session) (err : Option String)
  | tick (t : Nat)
  | other
  deriving DecidableEq, Repr

/-- The commands `Update` returns: `tea.Quit`, `d.loadSessions`, `d.tick()` and the
command the viewport returns for a key. -/
inductive Cmd where
  | quit
  | loadSessions
  | tick
  | viewport (key : String)
  deriving DecidableEq, Repr

/-- What one call of `Update` leaves behind: the model, the store, the signals sent,
the calls of `tmux.JumpTo`, and the commands batched in the result. -/
structure UpdateResult where
  model : Dashboard
  store : db.DB
  effects : List claude.Effect
  jumps : List tmux.Location
  cmds : List Cmd
  deriving DecidableEq, Repr

/-- The guard `len(d.sessions) > 0 && d.selected < len(d.sessions)` of the keys that
act on the selected session. -/
def Dashboard.hasSelection (d : Dashboard) : Prop :=
  d.sessions.length > 0 ∧ d.selected < (d.sessions.length : Int)

instance (d : Dashboard) : Decidable d.hasSelection := by
  unfold Dashboard.hasSelection; infer_instance

/-- The end of the cases of `Update` that call `d.updateInfoContent()` last and add
no command: the result of `Update` then, a panic if that call panics. -/
def Dashboard.refreshInfo (d : Dashboard) (store : db.DB) : Except String UpdateResult :=
  match d.updateInfoContent with
  | .error e => .error e
  | .ok d => .ok { model := d, store := store, effects := [], jumps := [], cmds := [] }

/-- The case `tea.KeyMsg` of `Update`. `ts` is the clock of the store. -/
def Dashboard.updateKey (d : Dashboard) (store : db.DB) (ts : Nat) (k : String) :
    Except String UpdateResult :=
  if k = "q" ∨ k = "ctrl+c" then
    .ok { model := d, store := store, effects := [], jumps := [], cmds := [.quit] }
  else if k = "tab" then
    let d := if d.showInfo then { d with focus := Int.tmod (d.focus + 1) 2 } else d
    .ok { model := d, store := store, effects := [], jumps := [], cmds := [] }
  else if k = "j" ∨ k = "down" then
    if d.focus = focusList ∧ d.selected < (d.sessions.length : Int) - 1 then
      ({ d with selected := d.selected + 1 }).refreshInfo store
    else if d.focus = focusInfo then
      .ok { model := { d with infoViewport := d.infoViewport.Update k }, store := store,
            effects := [], jumps := [], cmds := [.viewport k] }
    else .ok { model := d, store := store, effects := [], jumps := [], cmds := [] }
  else if k = "k" ∨ k = "up" then
    if d.focus = focusList ∧ d.selected > 0 then
      ({ d with selected := d.selected - 1 }).refreshInfo store
    else if d.focus = focusInfo then
      .ok { model := { d with infoViewport := d.infoViewport.Update k }, store := store,
            effects := [], jumps := [], cmds := [.viewport k] }
    else .ok { model := d, store := store, effects := [], jumps := [], cmds := [] }
  else if k = "enter" then
    if d.viewMode = viewNormal ∧ d.focus = focusList ∧ d.hasSelection then
      match index d.sessions d.selected with
      | .error e => .error e
      | .ok session =>
        let loc : tmux.Location :=
          { Session := session.TmuxSession, Window := session.TmuxWindow,
            Pane := session.TmuxPane }
        .ok { model := d, store := store, effects := [], jumps := [loc], cmds := [] }
    else .ok { model := d, store := store, effects := [], jumps := [], cmds := [] }
  else if k = "r" then
    .ok { model := d, store := store, effects := [], jumps := [], cmds := [.loadSessions] }
  else if k = "i" then
    let d := { d with showInfo := !d.showInfo }
    let d := if !d.showInfo ∧ d.focus = focusInfo then { d with focus := focusList } else d
    let d := { d with infoViewport := Viewport.New d.infoWidth d.infoHeight }
    d.refreshInfo store
  else if k = "s" then
    if d.viewMode = viewNormal ∧ d.focus = focusList ∧ d.hasSelection then
      match index d.sessions d.selected with
      | .error e => .error e
      | .ok session =>
        if session.Status = db.StatusWaiting ∨ session.Status = db.StatusWorking then
          .ok { model := d, store := (stopSession session store ts).1,
                effects := (stopSession session store ts).2, jumps := [],
                cmds := [.loadSessions] }
        else .ok { model := d, store := store, effects := [], jumps := [], cmds := [] }
    else .ok { model := d, store := store, effects := [], jumps := [], cmds := [] }
  else if k = "D" then
    if d.viewMode = viewNormal ∧ d.focus = focusList ∧ d.hasSelection then
      match index d.sessions d.selected with
      | .error e => .error e
      | .ok session =>
        .ok { model := d, store := (deleteSession session store ts).1,
              effects := (deleteSession session store ts).2, jumps := [],
              cmds := [.loadSessions] }
    else .ok { model := d, store := store, effects := [], jumps := [], cmds := [] }
  else if k = "T" then
    let d := if d.viewMode = viewNormal then { d with viewMode := viewTrash }
             else { d with viewMode := viewNormal }
    let d := { d with selected := 0 }
    .ok { model := d, store := store, effects := [], jumps := [], cmds := [.loadSessions] }
  else if k = "R" then
    if d.viewMode = viewTrash ∧ d.focus = focusList ∧ d.hasSelection then
      match index d.sessions d.selected with
      | .error e => .error e
      | .ok session =>
        .ok { model := d, store := (restoreSession session store ts).1,
              effects := (restoreSession session store ts).2, jumps := [],
              cmds := [.loadSessions] }
    else .ok { model := d, store := store, effects := [], jumps := [], cmds := [] }
  else .ok { model := d, store := store, effects := [], jumps := [], cmds := [] }

/-- Update handles messages. The result is an error when the call panics. -/
def Dashboard.Update (d : Dashboard) (store : db.DB) (ts : Nat) (msg : Msg) :
    Except String UpdateResult :=
  match msg with
  | .key k => d.updateKey store ts k
  | .windowSize Width Height =>
    let d := { d with width := Width }
    let d := { d with height := Height }
    let d := { d with infoViewport := Viewport.New d.infoWidth d.infoHeight }
    d.refreshInfo store
  | .pruneCompleted _ _ =>
    .ok { model := d, store := store, effects := [], jumps := [], cmds := [] }
  | .sessionsLoaded sessions err =>
    let d := { d with loading := false }
    let d := { d with err := err }
    let d := { d with sessions := (sortSessions sessions).2 }
    let d :=
      if d.selected ≥ (d.sessions.length : Int) ∧ d.sessions.length > 0 then
        { d with selected := (d.sessions.length : Int) - 1 }
      else d
    d.refreshInfo store
  | .tick _ =>
    .ok { model := d, store := store, effects := [], jumps := [],
          cmds := [.loadSessions, .tick] }
  | .other => .ok { model := d, store := store, effects := [], jumps := [], cmds := [] }

/-- A run of the dashboard: `Update` on each message in turn, with the clock of the
store at that message; a panic ends the run. -/
def runUpdates (d : Dashboard) (store : db.DB) :
    List (Nat × Msg) → Except String (Dashboard × db.DB)
  | [] => .ok (d, store)
  | (ts, msg) :: rest =>
    match d.Update store ts msg with
    | .error e => .error e
    | .ok r => runUpdates r.model r.store rest

/-- A loaded session for examples. -/
def exampleSession (id : String) (status : db.SessionStatus) (pid : Int) (created : Nat) :
    db.Session :=
  { ID := id, CreatedAt := created, UpdatedAt := created, WorkflowType := "general",
    Status := status, WorkingDirectory := "/home/user/project", TaskDescription := "",
    Prefix := "", ClaudeSessionID := "", TmuxSession := "main", TmuxWindow := 0,
    TmuxPane := 1, OutputFile := "", PID := pid, DeletedAt := none }

end tui

namespace tui

/-- The selection index is not negative and, for a non-empty session list, below its
length. -/
def selectionOk (d : Dashboard) : Prop :=
  0 ≤ d.selected ∧ (d.sessions = [] ∨ d.selected < (d.sessions.length : Int))

/-- A store with two rows for examples: a waiting session with a live process and a
completed one. -/
def exampleStore : db.DB :=
  { sessions := [db.insertedRow 100 (exampleSession "abc12345" "waiting" 4242 100),
                 { db.insertedRow 50 (exampleSession "def67890" "completed" 0 50) with
                   status := "completed" }] }

/-- The dashboard after loading `exampleStore` in the normal view. -/
def exampleDashboard : Dashboard :=
  { NewDashboard with
    sessions := [exampleSession "abc12345" "waiting" 4242 100,
                 exampleSession "def67890" "completed" 0 50],
    loading := false }

/-- The dashboard in the trash view with the deleted session loaded. -/
def exampleTrashDashboard : Dashboard :=
  { NewDashboard with
    sessions := [{ exampleSession "abc12345" "deleted" 4242 100 with
                   UpdatedAt := 200, DeletedAt := some 200 }],
    loading := false, viewMode := viewTrash }

end tui

/-! # Properties -/

namespace db

theorem foldl_markAbandoned_sessions (ts : Nat) (ids : List String) (d : DB) :
    (ids.foldl (markAbandoned ts) d).sessions
      = d.sessions.map fun r =>
          if r.id ∈ ids then { r with status := "abandoned", updated_at := ts } else r := by
  induction ids generalizing d with
  | nil => simp
  | cons id rest ih =>
    rw [List.foldl_cons, ih]
    simp only [markAbandoned, List.map_map]
    apply List.map_congr_left
    intro r _
    by_cases h1 : r.id = id <;> by_cases h2 : r.id ∈ rest <;> simp [h1, h2]

theorem mem_stuckIDs_iff (probe : Int → Bool) (d : DB) (id : String) :
    id ∈ stuckIDs probe d ↔ ∃ r ∈ d.sessions, isStuck probe r = true ∧ r.id = id := by
  unfold stuckIDs isStuck
  simp only [List.mem_filterMap, List.mem_filter]
  constructor
  · rintro ⟨r, ⟨hr, hw⟩, h⟩
    refine ⟨r, hr, ?_⟩
    cases hp : r.pid with
    | none => simp [hp] at h
    | some p =>
      simp only [hp] at h
      by_cases hrun : isProcessRunning probe p = true
      · simp [hrun] at h
      · simp [hrun] at h
        simp [hp, hrun, h] at hw ⊢
        exact hw
  · rintro ⟨r, hr, hs, rfl⟩
    refine ⟨r, ⟨hr, ?_⟩, ?_⟩
    · cases hp : r.pid with
      | none => simp [hp] at hs
      | some p => simp [hp] at hs ⊢; exact hs.1
    · cases hp : r.pid with
      | none => simp [hp] at hs
      | some p => simp [hp] at hs ⊢; exact hs.2

theorem mem_stuckIDs_of_nodup (probe : Int → Bool) (d : DB)
    (hid : (d.sessions.map (·.id)).Nodup) (r : Row) (hr : r ∈ d.sessions) :
    r.id ∈ stuckIDs probe d ↔ isStuck probe r = true := by
  rw [mem_stuckIDs_iff]
  constructor
  · rintro ⟨r', hr', hs, hid'⟩
    have := List.inj_on_of_nodup_map hid hr' hr hid'
    exact this ▸ hs
  · intro hs
    exact ⟨r, hr, hs, rfl⟩

theorem recoverStuck_sessions (d : DB) (ts : Nat) (probe : Int → Bool)
    (hid : (d.sessions.map (·.id)).Nodup) :
    (recoverStuck d ts probe).sessions
      = d.sessions.map fun r =>
          if isStuck probe r then { r with status := "abandoned", updated_at := ts } else r := by
  unfold recoverStuck
  rw [foldl_markAbandoned_sessions]
  apply List.map_congr_left
  intro r hr
  by_cases hs : isStuck probe r = true
  · simp [hs, (mem_stuckIDs_of_nodup probe d hid r hr).2 hs]
  · have : r.id ∉ stuckIDs probe d := fun h => hs ((mem_stuckIDs_of_nodup probe d hid r hr).1 h)
    simp [hs, this]

theorem migrateLegacyStatus_ids (d : DB) :
    (migrateLegacyStatus d).sessions.map (·.id) = d.sessions.map (·.id) := by
  unfold migrateLegacyStatus
  rw [List.map_map]
  apply List.map_congr_left
  intro r _
  by_cases h : r.status = "active" <;> simp [h]

/-- C3. The recovery scan run by Open, on a store whose ids are distinct, leaves
every row in place and changes statuses as follows: a row is turned to abandoned
exactly when it had status working, a non-null pid, and that pid is not alive
(a pid <= 0 or a failed probe is not alive); every other row keeps its status,
so a working row with a live pid stays working and rows that are waiting,
completed, abandoned, killed, deleted or restored stay as they are. The same
holds for Open as a whole, whose only other status change is the migration of
the legacy value active to waiting. -/
theorem Open_recovery_scan (d : DB) (ts : Nat) (probe : Int → Bool)
    (hid : (d.sessions.map (·.id)).Nodup) :
    (recoverStuck d ts probe).sessions.map (fun r => (r.id, r.status))
        = d.sessions.map (fun r =>
            (r.id, if isStuck probe r then StatusAbandoned else r.status))
    ∧ (Open d ts probe).sessions.map (fun r => (r.id, r.status))
        = d.sessions.map (fun r =>
            (r.id, if r.status = "active" then StatusWaiting
                   else if isStuck probe r then StatusAbandoned else r.status))
    ∧ (∀ r, isStuck probe r = true ↔
          r.status = StatusWorking ∧
            ∃ pid, r.pid = some pid ∧ (pid ≤ 0 ∨ probe pid = false)) := by
  refine ⟨?_, ?_, ?_⟩
  · rw [recoverStuck_sessions d ts probe hid, List.map_map]
    apply List.map_congr_left
    intro r _
    by_cases hs : isStuck probe r = true <;> simp [hs, StatusAbandoned]
  · unfold Open
    rw [recoverStuck_sessions _ ts probe (by rw [migrateLegacyStatus_ids]; exact hid)]
    simp only [migrateLegacyStatus, List.map_map]
    apply List.map_congr_left
    intro r _
    by_cases ha : r.status = "active"
    · simp [ha, isStuck, StatusWaiting]
    · by_cases hs : isStuck probe r = true <;> simp [ha, hs, StatusAbandoned]
  · intro r
    unfold isStuck isProcessRunning StatusWorking
    cases hp : r.pid with
    | none => simp
    | some p =>
      by_cases h0 : p ≤ 0 <;> simp [h0]

/-- Witness for C3: a store with a stuck row, a live working row, a working row
with pid 0, a working row without pid and a deleted row. -/
theorem Open_recovery_scan_witness :
    (Open recoveryExample 9 recoveryProbe).sessions.map (fun r => (r.id, r.status))
      = [("s1", "abandoned"), ("s2", "working"), ("s3", "abandoned"),
         ("s4", "working"), ("s5", "deleted"), ("s6", "waiting")] :=
  (Open_recovery_scan recoveryExample 9 recoveryProbe (by decide)).2.1.trans (by decide)

/-- C1, evaluated on the code: after create, soft-delete and a status update (the
write Run makes when its child ends), the row has status abandoned and a
non-null deleted_at, so the invariant that deleted_at is non-null iff status is
deleted fails; a status update to deleted leaves deleted_at null. -/
theorem UpdateSessionStatus_breaks_deletedAtInvariant :
    (runOps emptyDB
        [(1, .create (sampleSession "abc12345" StatusWaiting 0)),
         (2, .softDelete "abc12345"),
         (3, .updateStatus "abc12345" StatusAbandoned)]).sessions.map
          (fun r => (r.status, r.deleted_at)) = [("abandoned", some 2)]
    ∧ (∃ r ∈ (runOps emptyDB
        [(1, .create (sampleSession "abc12345" StatusWaiting 0)),
         (2, .softDelete "abc12345"),
         (3, .updateStatus "abc12345" StatusAbandoned)]).sessions,
          ¬ deletedAtInvariant r)
    ∧ (runOps emptyDB
        [(1, .create (sampleSession "abc12345" StatusWaiting 0)),
         (2, .updateStatus "abc12345" StatusDeleted)]).sessions.map
          (fun r => (r.status, r.deleted_at)) = [("deleted", none)] := by
  decide

end db

namespace claude

/-! ## Activity monitor -/

theorem run_cons (m : activityMonitor) (e : Event) (rest : List Event) :
    m.run (e :: rest)
      = (((m.handle e).1.run rest).1,
          (m.handle e).2.map (fun w => (e.time, w)) ++ ((m.handle e).1.run rest).2) := rfl

theorem run_append (m : activityMonitor) (xs ys : List Event) :
    m.run (xs ++ ys)
      = (((m.run xs).1.run ys).1, (m.run xs).2 ++ ((m.run xs).1.run ys).2) := by
  induction xs generalizing m with
  | nil => simp [activityMonitor.run]
  | cons e rest ih =>
    simp only [List.cons_append, run_cons, ih, List.append_assoc]

/-- Ticks do nothing to a monitor that is not working. -/
theorem run_ticks_idle (m : activityMonitor) (h : m.isWorking = false) (ts : List Nat) :
    m.run (ts.map Event.tick) = (m, []) := by
  induction ts with
  | nil => rfl
  | cons t rest ih =>
    simp only [List.map_cons, run_cons, activityMonitor.handle, activityMonitor.onTick, h]
    simp [ih]

/-- A tick within the idle threshold of the last output leaves a monitor as it is. -/
theorem onTick_within (m : activityMonitor) (now : Nat)
    (h : now ≤ m.lastOutput + idleThreshold) : m.onTick now = (m, []) := by
  unfold activityMonitor.onTick
  have : ¬ ((now : Int) - (m.lastOutput : Int) > (idleThreshold : Int)) := by omega
  simp [this]

/-- A tick later than the idle threshold after the last output flips a working monitor. -/
theorem onTick_beyond (m : activityMonitor) (now : Nat) (hw : m.isWorking = true)
    (h : m.lastOutput + idleThreshold < now) :
    m.onTick now
      = ({ m with isWorking := false }, [{ id := m.sessionID, status := db.StatusWaiting }]) := by
  unfold activityMonitor.onTick
  have : ((now : Int) - (m.lastOutput : Int) > (idleThreshold : Int)) := by omega
  simp [this, hw]

theorem mem_tickTimes_self (c n : Nat) : c ∈ tickTimes c (n + 1) := by
  simp [tickTimes]

theorem mem_tickTimes_succ {t c n : Nat} (h : t ∈ tickTimes (c + tickInterval) n) :
    t ∈ tickTimes c (n + 1) := by
  simp [tickTimes, h]

/-- A working monitor with no further output, under a ticker whose next tick is at
most one interval past the threshold and which runs long enough, is flipped by
exactly one tick, and that tick is later than the threshold by at most one interval. -/
theorem run_ticker_flips (m : activityMonitor) (hw : m.isWorking = true) (n c : Nat)
    (hc : c ≤ m.lastOutput + idleThreshold + tickInterval)
    (hn : m.lastOutput + idleThreshold < c + (n - 1) * tickInterval) (hn0 : 0 < n) :
    ∃ t1, t1 ∈ tickTimes c n ∧
      m.run ((tickTimes c n).map Event.tick)
        = ({ m with isWorking := false },
            [(t1, { id := m.sessionID, status := db.StatusWaiting })]) ∧
      m.lastOutput + idleThreshold < t1 ∧
      t1 ≤ m.lastOutput + idleThreshold + tickInterval := by
  induction n generalizing c with
  | zero => omega
  | succ k ih =>
    by_cases hlt : m.lastOutput + idleThreshold < c
    · refine ⟨c, mem_tickTimes_self c k, ?_, hlt, hc⟩
      simp only [tickTimes, List.map_cons, run_cons, activityMonitor.handle,
        onTick_beyond m c hw hlt]
      rw [run_ticks_idle _ rfl]
      simp [Event.time]
    · have hle : c ≤ m.lastOutput + idleThreshold := by omega
      have hk : 0 < k := by
        rcases Nat.eq_zero_or_pos k with h0 | h0
        · subst h0; simp at hn; omega
        · exact h0
      have hc' : c + tickInterval ≤ m.lastOutput + idleThreshold + tickInterval := by omega
      have hn' : m.lastOutput + idleThreshold < c + tickInterval + (k - 1) * tickInterval := by
        have : k + 1 - 1 = (k - 1) + 1 := by omega
        rw [this, Nat.add_mul] at hn
        omega
      obtain ⟨t1, hmem, hrun, h1, h2⟩ := ih (c + tickInterval) hc' hn' hk
      refine ⟨t1, mem_tickTimes_succ hmem, ?_, h1, h2⟩
      simp only [tickTimes, List.map_cons, run_cons, activityMonitor.handle,
        onTick_within m c hle]
      simp [hrun]


/-- C4 as stated fails: on a fresh monitor the second stop() panics, because
stop is a bare close of the done channel. -/
theorem stop_twice_panics :
    (newActivityMonitor "test-monitor" 0).stop
        = .ok { newActivityMonitor "test-monitor" 0 with done := { closed := true } }
    ∧ ({ newActivityMonitor "test-monitor" 0 with done := { closed := true } } :
        activityMonitor).stop = .error "panic: close of closed channel" :=
  ⟨rfl, rfl⟩

/-- C4 amended: for every activity monitor, stop() closes the done channel
without panicking when the channel is still open (as it is in every monitor
made by newActivityMonitor) and changes nothing else; on a monitor whose done
channel is already closed, so on every second call, it panics with
close of closed channel. -/
theorem stop_closes_done_once (m : activityMonitor) (sessionID : String) (now : Nat) :
    m.stop = (if m.done.closed then .error "panic: close of closed channel"
              else .ok { m with done := { closed := true } })
    ∧ ({ m with done := { closed := true } } : activityMonitor).stop
        = .error "panic: close of closed channel"
    ∧ (newActivityMonitor sessionID now).done.closed = false := by
  refine ⟨?_, rfl, rfl⟩
  unfold activityMonitor.stop Chan.close
  by_cases h : m.done.closed = true <;> simp [h]

/-- C5 as stated fails at the boundary: with the output at t0 = 5 and ticks at
5, 5 + 100ms, ..., the tick at exactly t0 + 1s does not flip (the test is a
strict >), the next one does, and t1 - t0 = idleThreshold + tickInterval. -/
theorem idle_flip_upper_bound_not_strict :
    ((newActivityMonitor "test-monitor-2" 0).run
        (Event.output 5 :: (tickTimes 5 13).map Event.tick)).2
      = [(5, { id := "test-monitor-2", status := "working" }),
         (1100000005, { id := "test-monitor-2", status := "waiting" })]
    ∧ ¬ (1100000005 - 5 < idleThreshold + tickInterval) := by
  decide

/-- C5 amended: a monitor that is not working, under a ticker of period
tickInterval = 100ms at any phase (any ticks before the output, first tick after
the output at c1 with t0 <= c1 <= t0 + tickInterval, at least 12 ticks after it),
and one output event at t0: isWorking is true right after t0, the only status
writes are working at t0 and waiting at the time t1 of one tick, after which
isWorking is false, and idleThreshold < t1 - t0 <= idleThreshold + tickInterval. -/
theorem idle_flip_time_bounds (sessionID : String) (created t0 c1 n : Nat)
    (before : List Nat) (h0 : t0 ≤ c1) (h1 : c1 ≤ t0 + tickInterval) (hn : 12 ≤ n) :
    (((newActivityMonitor sessionID created).run
        (before.map Event.tick ++ [Event.output t0])).1.isWorking = true)
    ∧ ∃ t1, t1 ∈ tickTimes c1 n ∧
        (newActivityMonitor sessionID created).run
            (before.map Event.tick ++ [Event.output t0] ++ (tickTimes c1 n).map Event.tick)
          = ({ sessionID := sessionID, lastOutput := t0, isWorking := false,
               done := { closed := false } },
             [(t0, { id := sessionID, status := db.StatusWorking }),
              (t1, { id := sessionID, status := db.StatusWaiting })])
        ∧ idleThreshold < t1 - t0
        ∧ t1 - t0 ≤ idleThreshold + tickInterval := by
  have hpre : (newActivityMonitor sessionID created).run
        (before.map Event.tick ++ [Event.output t0])
      = ({ sessionID := sessionID, lastOutput := t0, isWorking := true,
           done := { closed := false } },
         [(t0, { id := sessionID, status := db.StatusWorking })]) := by
    rw [run_append, run_ticks_idle _ rfl]
    rfl
  refine ⟨by rw [hpre], ?_⟩
  have hc : c1 ≤ t0 + idleThreshold + tickInterval := by omega
  have hlong : t0 + idleThreshold < c1 + (n - 1) * tickInterval := by
    have : 11 * tickInterval ≤ (n - 1) * tickInterval :=
      Nat.mul_le_mul_right _ (by omega)
    simp only [idleThreshold, tickInterval] at this ⊢
    omega
  obtain ⟨t1, hmem, hrun, hlo, hhi⟩ :=
    run_ticker_flips
      { sessionID := sessionID, lastOutput := t0, isWorking := true,
        done := { closed := false } } rfl n c1 hc hlong (by omega)
  refine ⟨t1, hmem, ?_, ?_, ?_⟩
  · rw [run_append, hpre]
    simp only [hrun, List.singleton_append]
  · simp only at hlo; omega
  · simp only at hhi; omega

/-- Witness for C5 amended: created at 0, one tick before the output, output at
t0 = 7, first tick after it at 50000007, 12 ticks. -/
theorem idle_flip_time_bounds_witness :
    ∃ t1, t1 ∈ tickTimes 50000007 12 ∧
      (newActivityMonitor "test-monitor-2" 0).run
          ([3].map Event.tick ++ [Event.output 7] ++ (tickTimes 50000007 12).map Event.tick)
        = ({ sessionID := "test-monitor-2", lastOutput := 7, isWorking := false,
             done := { closed := false } },
           [(7, { id := "test-monitor-2", status := db.StatusWorking }),
            (t1, { id := "test-monitor-2", status := db.StatusWaiting })])
      ∧ idleThreshold < t1 - 7
      ∧ t1 - 7 ≤ idleThreshold + tickInterval :=
  (idle_flip_time_bounds "test-monitor-2" 0 7 50000007 12 [3]
    (by decide) (by decide) (by decide)).2


theorem mem_of_mem_outputTimes {o : Nat} {evs : List Event} (h : o ∈ outputTimes evs) :
    Event.output o ∈ evs := by
  induction evs with
  | nil => simp [outputTimes] at h
  | cons e rest ih =>
    cases e with
    | output now =>
      simp only [outputTimes, List.mem_cons] at h
      rcases h with h | h
      · subst h; simp
      · exact List.mem_cons_of_mem _ (ih h)
    | tick now =>
      simp only [outputTimes] at h
      exact List.mem_cons_of_mem _ (ih h)

/-- A working monitor stays working, and writes nothing, through any events in time
order whose outputs are spaced by at most the idle threshold and whose ticks are no
later than the threshold after the last output. -/
theorem run_steady (rest : List Event) (m : activityMonitor) (hw : m.isWorking = true)
    (hsorted : rest.Pairwise (fun a b => a.time ≤ b.time))
    (hgap : List.Chain (fun a b => b ≤ a + idleThreshold) m.lastOutput (outputTimes rest))
    (hticks : ∀ t, Event.tick t ∈ rest →
      t ≤ (outputTimes rest).getLastD m.lastOutput + idleThreshold) :
    ∀ pre, pre <+: rest → (m.run pre).1.isWorking = true ∧ (m.run pre).2 = [] := by
  induction rest generalizing m with
  | nil =>
    intro pre hpre
    have : pre = [] := List.prefix_nil.mp hpre
    subst this
    exact ⟨hw, rfl⟩
  | cons e r ih =>
    intro pre hpre
    cases pre with
    | nil => exact ⟨hw, rfl⟩
    | cons e' pre' =>
      obtain ⟨he, hpre'⟩ := List.cons_prefix_cons.mp hpre
      subst he
      have hsorted' := (List.pairwise_cons.mp hsorted).2
      have hfirst := (List.pairwise_cons.mp hsorted).1
      cases e' with
      | output now =>
        have hstep : m.handle (Event.output now) = ({ m with lastOutput := now }, []) := by
          simp [activityMonitor.handle, activityMonitor.onOutput, hw]
        simp only [outputTimes, List.chain_cons] at hgap
        have hticks' : ∀ t, Event.tick t ∈ r →
            t ≤ (outputTimes r).getLastD now + idleThreshold := by
          intro t ht
          have := hticks t (List.mem_cons_of_mem _ ht)
          rw [outputTimes, List.getLastD_cons] at this
          exact this
        have := ih { m with lastOutput := now } hw hsorted' hgap.2 hticks' pre' hpre'
        rw [run_cons, hstep]
        simpa using this
      | tick now =>
        have hle : now ≤ m.lastOutput + idleThreshold := by
          cases hot : outputTimes r with
          | nil =>
            have := hticks now (List.mem_cons_self _ _)
            simpa [outputTimes, hot] using this
          | cons o os =>
            simp only [outputTimes, hot, List.chain_cons] at hgap
            have hmem : Event.output o ∈ r :=
              mem_of_mem_outputTimes (by rw [hot]; exact List.mem_cons_self _ _)
            have := hfirst _ hmem
            simp only [Event.time] at this
            omega
        have hstep : m.handle (Event.tick now) = (m, []) := by
          simp [activityMonitor.handle, onTick_within m now hle]
        have hticks' : ∀ t, Event.tick t ∈ r →
            t ≤ (outputTimes r).getLastD m.lastOutput + idleThreshold := by
          intro t ht
          have := hticks t (List.mem_cons_of_mem _ ht)
          simpa [outputTimes] using this
        have := ih m hw hsorted' (by simpa [outputTimes] using hgap) hticks' pre' hpre'
        rw [run_cons, hstep]
        simpa using this

/-- C6. For every monitor, every first output at t0 and every later list of events in
time order (outputs and ticks, in any interleaving) in which each output follows the
previous one by at most idleThreshold and no tick is later than idleThreshold after
the last output: after the first output and after every further event of the list
isWorking is true, and the status writes issued so far are at most the one working
write of the first output, so no waiting status is written. The reason is that
onOutput sets lastOutput to the current time on every call, whether or not the
monitor is already working. -/
theorem continuous_output_stays_working (m : activityMonitor) (t0 : Nat) (rest : List Event)
    (hsorted : (Event.output t0 :: rest).Pairwise (fun a b => a.time ≤ b.time))
    (hgap : List.Chain' (fun a b => b ≤ a + idleThreshold)
      (outputTimes (Event.output t0 :: rest)))
    (hticks : ∀ t, Event.tick t ∈ Event.output t0 :: rest →
      t ≤ (outputTimes (Event.output t0 :: rest)).getLastD t0 + idleThreshold) :
    (∀ pre, pre <+: rest →
      (m.run (Event.output t0 :: pre)).1.isWorking = true ∧
      (m.run (Event.output t0 :: pre)).2 = (m.onOutput t0).2.map (fun w => (t0, w)) ∧
      ∀ x ∈ (m.run (Event.output t0 :: pre)).2, x.2.status ≠ db.StatusWaiting)
    ∧ (∀ (m' : activityMonitor) (now : Nat), (m'.onOutput now).1.lastOutput = now) := by
  constructor
  · intro pre hpre
    have hw : (m.onOutput t0).1.isWorking = true := by
      unfold activityMonitor.onOutput
      by_cases h : m.isWorking = true <;> simp [h]
    have hlast : (m.onOutput t0).1.lastOutput = t0 := by
      unfold activityMonitor.onOutput
      by_cases h : m.isWorking = true <;> simp [h]
    have hticks' : ∀ t, Event.tick t ∈ rest →
        t ≤ (outputTimes rest).getLastD (m.onOutput t0).1.lastOutput + idleThreshold := by
      intro t ht
      have := hticks t (List.mem_cons_of_mem _ ht)
      rw [outputTimes, List.getLastD_cons] at this
      rw [hlast]
      exact this
    have hgap' : List.Chain (fun a b => b ≤ a + idleThreshold) (m.onOutput t0).1.lastOutput
        (outputTimes rest) := by
      rw [hlast]
      simpa [outputTimes, List.Chain'] using hgap
    obtain ⟨h1, h2⟩ := run_steady rest (m.onOutput t0).1 hw
      (List.pairwise_cons.mp hsorted).2 hgap' hticks' pre hpre
    have hrun : (m.run (Event.output t0 :: pre)).2
        = (m.onOutput t0).2.map (fun w => (t0, w)) := by
      rw [run_cons]
      simp only [activityMonitor.handle, Event.time, h2, List.append_nil]
    refine ⟨?_, hrun, ?_⟩
    · rw [run_cons]
      exact h1
    · rw [hrun]
      intro x hx
      unfold activityMonitor.onOutput at hx
      by_cases h : m.isWorking = true
      · simp [h] at hx
      · simp [h] at hx
        subst hx
        simp [db.StatusWorking, db.StatusWaiting]
  · intro m' now
    unfold activityMonitor.onOutput
    by_cases h : m'.isWorking = true <;> simp [h]

/-- Witness for C6: outputs at 0, 0.9s, 1.8s and 2.7s, ticks in between and one tick
exactly idleThreshold after the last output. -/
theorem continuous_output_stays_working_witness :
    ((newActivityMonitor "abc12345" 0).run
        [Event.output 0, Event.tick 500000000, Event.output 900000000,
          Event.tick 1800000000, Event.output 1800000000, Event.output 2700000000,
          Event.tick 3700000000]).1.isWorking = true
    ∧ ((newActivityMonitor "abc12345" 0).run
        [Event.output 0, Event.tick 500000000, Event.output 900000000,
          Event.tick 1800000000, Event.output 1800000000, Event.output 2700000000,
          Event.tick 3700000000]).2
      = [(0, { id := "abc12345", status := "working" })] :=
  ⟨((continuous_output_stays_working (newActivityMonitor "abc12345" 0) 0
      [Event.tick 500000000, Event.output 900000000, Event.tick 1800000000,
        Event.output 1800000000, Event.output 2700000000, Event.tick 3700000000]
      (by decide) (by simp [outputTimes, idleThreshold])
      (by simp [outputTimes, idleThreshold])).1 _ (List.prefix_refl _)).1,
    by decide⟩

/-! ## Input-copy loop -/

theorem slice_self (buf : List UInt8) (a : Nat) : slice buf a a = [] := by
  simp [slice]

theorem slice_succ (buf : List UInt8) (a i : Nat) (ha : a ≤ i) (hi : i < buf.length) :
    slice buf a (i + 1) = slice buf a i ++ [buf.getD i 0] := by
  unfold slice
  have h1 : i + 1 - a = (i - a) + 1 := by omega
  have h2 : i - a < (buf.drop a).length := by simp; omega
  rw [h1, List.take_succ, List.getElem?_drop]
  have h3 : a + (i - a) = i := by omega
  rw [h3, List.getD_eq_getElem?_getD]
  simp [List.getElem?_eq_getElem hi]

theorem slice_length (buf : List UInt8) (a i : Nat) (hi : i ≤ buf.length) :
    (slice buf a i).length = i - a := by
  unfold slice
  simp
  omega

theorem writeRun_slice (buf : List UInt8) (a i : Nat) (hi : i ≤ buf.length) :
    writeRun (slice buf a i) = if i > a then [CopyAction.write (slice buf a i)] else [] := by
  unfold writeRun
  have hlen := slice_length buf a i hi
  by_cases h : i > a
  · have : slice buf a i ≠ [] := by
      intro h0; rw [h0] at hlen; simp at hlen; omega
    simp [h, this]
  · have : slice buf a i = [] := by
      apply List.eq_nil_of_length_eq_zero; omega
    simp [h, this]

/-- The index loop and the list recursion agree at every loop state. -/
theorem scanFrom_eq_copyRuns (buf : List UInt8) (fuel i start : Nat)
    (hs : start ≤ i) (hf : i + fuel = buf.length) :
    scanFrom buf buf.length fuel i start = copyRuns (slice buf start i) (buf.drop i) := by
  induction fuel generalizing i start with
  | zero =>
    have hi : i = buf.length := by omega
    subst hi
    simp only [scanFrom, writeRemaining, List.drop_length, copyRuns]
    rw [writeRun_slice buf start buf.length (le_refl _)]
  | succ k ih =>
    have hi : i < buf.length := by omega
    have hdrop : buf.drop i = buf.getD i 0 :: buf.drop (i + 1) := by
      rw [List.drop_eq_getElem_cons hi, List.getD_eq_getElem?_getD]
      simp [List.getElem?_eq_getElem hi]
    rw [hdrop]
    simp only [scanFrom, hi, if_true, copyRuns]
    by_cases hb : buf.getD i 0 = 0x1a
    · simp only [hb, if_true]
      rw [ih (i + 1) (i + 1) (le_refl _) (by omega), slice_self,
        writeRun_slice buf start i (le_of_lt hi)]
    · simp only [hb, if_false]
      rw [ih (i + 1) start (by omega) (by omega), slice_succ buf start i hs hi]

theorem copyChunk_eq_copyRuns (chunk : List UInt8) : copyChunk chunk = copyRuns [] chunk := by
  unfold copyChunk
  rw [scanFrom_eq_copyRuns chunk chunk.length 0 0 (le_refl _) (by simp), slice_self]
  rfl

theorem splitOn_cons_sentinel (rest : List UInt8) :
    (0x1a :: rest).splitOn (0x1a : UInt8) = [] :: rest.splitOn 0x1a := by
  simp [List.splitOn]

theorem splitOn_cons_other (b : UInt8) (rest : List UInt8) (hb : b ≠ 0x1a) :
    (b :: rest).splitOn (0x1a : UInt8) = (rest.splitOn 0x1a).modifyHead (List.cons b) := by
  simp [List.splitOn, hb]

theorem referenceActions_cons (run : List UInt8) (runs : List (List UInt8)) (h : runs ≠ []) :
    referenceActions (run :: runs) = writeRun run ++ [.suspend] ++ referenceActions runs := by
  cases runs with
  | nil => exact absurd rfl h
  | cons next rest => rfl

/-- The list recursion with a pending run is the reference on the split of the rest,
with the pending run put in front of the first run. -/
theorem copyRuns_eq_reference (rest pending : List UInt8) :
    copyRuns pending rest
      = referenceActions ((rest.splitOn 0x1a).modifyHead (fun run => pending ++ run)) := by
  induction rest generalizing pending with
  | nil => simp [copyRuns, List.splitOn, referenceActions]
  | cons b bs ih =>
    by_cases hb : b = 0x1a
    · subst hb
      rw [splitOn_cons_sentinel]
      simp only [copyRuns, if_true, List.modifyHead_cons, List.append_nil]
      rw [referenceActions_cons pending (List.splitOn 0x1a bs)
        (by unfold List.splitOn; exact List.splitOnP_ne_nil _ _), ih []]
      congr 2
      have : (fun run : List UInt8 => [] ++ run) = id := by funext run; simp
      rw [this]
      cases h : List.splitOn (0x1a : UInt8) bs <;> simp [List.modifyHead]
    · rw [splitOn_cons_other b bs hb]
      simp only [copyRuns, hb, if_false]
      rw [ih (pending ++ [b]), List.modifyHead_modifyHead]
      congr 2
      funext run
      simp


theorem writtenBytes_append (xs ys : List CopyAction) :
    writtenBytes (xs ++ ys) = writtenBytes xs ++ writtenBytes ys := by
  induction xs with
  | nil => rfl
  | cons a rest ih => cases a <;> simp [writtenBytes, ih]

theorem suspendCount_append (xs ys : List CopyAction) :
    suspendCount (xs ++ ys) = suspendCount xs + suspendCount ys := by
  induction xs with
  | nil => simp [suspendCount]
  | cons a rest ih =>
    cases a <;> simp [suspendCount, ih]
    omega

theorem writtenBytes_writeRun (run : List UInt8) : writtenBytes (writeRun run) = run := by
  unfold writeRun
  by_cases h : run = [] <;> simp [h, writtenBytes]

theorem suspendCount_writeRun (run : List UInt8) : suspendCount (writeRun run) = 0 := by
  unfold writeRun
  by_cases h : run = [] <;> simp [h, suspendCount]

theorem writtenBytes_copyRuns (rest pending : List UInt8) :
    writtenBytes (copyRuns pending rest) = pending ++ rest.filter (fun b => b != 0x1a) := by
  induction rest generalizing pending with
  | nil => simp [copyRuns, writtenBytes_writeRun]
  | cons b bs ih =>
    by_cases hb : b = 0x1a
    · subst hb
      simp [copyRuns, writtenBytes_append, writtenBytes_writeRun, writtenBytes, ih]
    · simp [copyRuns, hb, ih]

theorem suspendCount_copyRuns (rest pending : List UInt8) :
    suspendCount (copyRuns pending rest) = rest.count 0x1a := by
  induction rest generalizing pending with
  | nil => simp [copyRuns, suspendCount_writeRun]
  | cons b bs ih =>
    by_cases hb : b = 0x1a
    · subst hb
      simp [copyRuns, suspendCount_append, suspendCount_writeRun, suspendCount, ih]
    · simp [copyRuns, hb, ih, List.count_cons, hb]

theorem copyRuns_append_sentinel (before after pending : List UInt8) :
    copyRuns pending (before ++ 0x1a :: after)
      = copyRuns pending before ++ CopyAction.suspend :: copyRuns [] after := by
  induction before generalizing pending with
  | nil => simp [copyRuns]
  | cons b bs ih =>
    by_cases hb : b = 0x1a
    · subst hb
      simp [copyRuns, ih]
    · simp [copyRuns, hb, ih]

theorem splitOn_sentinel_length (chunk : List UInt8) :
    (chunk.splitOn 0x1a).length = chunk.count 0x1a + 1 := by
  induction chunk with
  | nil => simp [List.splitOn]
  | cons b bs ih =>
    by_cases hb : b = 0x1a
    · subst hb
      rw [splitOn_cons_sentinel]
      simp [ih]
    · rw [splitOn_cons_other b bs hb]
      simp [ih, List.count_cons, hb]

/-- C7. For every chunk read from stdin, the actions of the input-copy loop are
exactly the reference: split the chunk at every 0x1A byte into k+1 runs (k the
number of 0x1A bytes), write each non-empty run in order, and invoke the suspend
sequence once between consecutive runs. Hence the bytes written are the chunk
with every 0x1A removed, in order; the suspend sequence is invoked once per 0x1A
byte; and around any sentinel the actions are those for the bytes before it, then
the suspend, then those for the bytes after it. -/
theorem copyChunk_matches_reference (chunk : List UInt8) :
    copyChunk chunk = referenceCopy chunk
    ∧ (chunk.splitOn 0x1a).length = chunk.count 0x1a + 1
    ∧ writtenBytes (copyChunk chunk) = chunk.filter (fun b => b != 0x1a)
    ∧ suspendCount (copyChunk chunk) = chunk.count 0x1a
    ∧ ∀ before after : List UInt8,
        copyChunk (before ++ 0x1a :: after)
          = copyChunk before ++ CopyAction.suspend :: copyChunk after := by
  refine ⟨?_, splitOn_sentinel_length chunk, ?_, ?_, ?_⟩
  · rw [copyChunk_eq_copyRuns, copyRuns_eq_reference]
    unfold referenceCopy
    congr 1
    have : (fun run : List UInt8 => [] ++ run) = id := by funext run; simp
    rw [this]
    cases h : List.splitOn (0x1a : UInt8) chunk <;> simp [List.modifyHead]
  · rw [copyChunk_eq_copyRuns, writtenBytes_copyRuns]
    simp
  · rw [copyChunk_eq_copyRuns, suspendCount_copyRuns]
  · intro before after
    simp only [copyChunk_eq_copyRuns]
    exact copyRuns_append_sentinel before after []


/-! ## Suspend and resume -/

/-- C8. One invocation of the suspend sequence on a suspend state as runWithPTY makes
it (PTY handle non-nil), with child pid > 0 and the raw-mode re-entry succeeding
with token st1, makes exactly these calls in this order: the restore of the
terminal with the saved token (one term.Restore with the saved state when the
saved token is non-nil), one SIGSTOP to the child's process group, one SIGSTOP
to its own process group (pid 0), term.MakeRaw, one SIGCONT to the child's
process group, the PTY size re-sync. It ends with the saved token non-nil, namely
the token the re-entry returned, and changes nothing else in the state. -/
theorem suspend_sequence (s : suspendState) (st1 : Nat)
    (hpid : 0 < s.childPID) (hptmx : s.ptmx.isSome = true) :
    (s.suspend (some st1)).2
        = restoreTerminal s.oldState ++
          [.kill (-s.childPID) .SIGSTOP, .kill 0 .SIGSTOP, .termMakeRaw (some st1),
           .kill (-s.childPID) .SIGCONT, .inheritSize]
    ∧ (∀ st0, s.oldState = some { state := some st0 } →
        (s.suspend (some st1)).2
          = [.termRestore st0, .kill (-s.childPID) .SIGSTOP, .kill 0 .SIGSTOP,
             .termMakeRaw (some st1), .kill (-s.childPID) .SIGCONT, .inheritSize])
    ∧ (s.suspend (some st1)).1 = { s with oldState := some { state := some st1 } }
    ∧ (s.suspend (some st1)).1.oldState ≠ none := by
  have hgen : (s.suspend (some st1)).2
        = restoreTerminal s.oldState ++
          [.kill (-s.childPID) .SIGSTOP, .kill 0 .SIGSTOP, .termMakeRaw (some st1),
           .kill (-s.childPID) .SIGCONT, .inheritSize] := by
    simp [suspendState.suspend, suspendState.resume, makeRaw, hpid, hptmx]
  refine ⟨hgen, ?_, ?_, ?_⟩
  · intro st0 h0
    rw [hgen, h0]
    rfl
  · simp [suspendState.suspend, suspendState.resume, makeRaw]
  · simp [suspendState.suspend, suspendState.resume, makeRaw]

/-- Witness for C8: in raw mode with saved state 10, child pid 4242. -/
theorem suspend_sequence_witness :
    (({ oldState := some { state := some 10 }, ptmx := some 3, childPID := 4242 } :
        suspendState).suspend (some 11)).2
      = [.termRestore 10, .kill (-4242) .SIGSTOP, .kill 0 .SIGSTOP,
         .termMakeRaw (some 11), .kill (-4242) .SIGCONT, .inheritSize] :=
  (suspend_sequence { oldState := some { state := some 10 }, ptmx := some 3, childPID := 4242 }
    11 (by decide) (by decide)).2.1 10 rfl

/-- C9. On a continue signal, with a suspend state as runWithPTY makes it (PTY handle
non-nil, child pid > 0): if the saved token is nil and stdin is a terminal, the
handler makes exactly the re-entry calls (term.MakeRaw, SIGCONT to the child's
process group, PTY size re-sync) and saves the token when the entry succeeds;
otherwise it makes no call at all and leaves the suspend state unchanged. So it
makes the re-entry calls if and only if the saved token is nil and stdin is a
terminal, and right after a suspend sequence whose re-entry succeeded it does
nothing. -/
theorem sigcont_handler (s : suspendState) (stdinIsTerminal : Bool) (raw : Option Nat)
    (hpid : 0 < s.childPID) (hptmx : s.ptmx.isSome = true) :
    ((s.oldState = none ∧ stdinIsTerminal = true) →
        s.onSigCont stdinIsTerminal raw
          = ({ s with oldState := raw.map (fun st => { state := some st }) },
             [.termMakeRaw raw, .kill (-s.childPID) .SIGCONT, .inheritSize]))
    ∧ (¬ (s.oldState = none ∧ stdinIsTerminal = true) →
        s.onSigCont stdinIsTerminal raw = (s, []))
    ∧ ((s.onSigCont stdinIsTerminal raw).2
          = [.termMakeRaw raw, .kill (-s.childPID) .SIGCONT, .inheritSize]
        ↔ (s.oldState = none ∧ stdinIsTerminal = true))
    ∧ (∀ st1, (s.suspend (some st1)).1.onSigCont stdinIsTerminal raw
          = ((s.suspend (some st1)).1, [])) := by
  have hyes : (s.oldState = none ∧ stdinIsTerminal = true) →
        s.onSigCont stdinIsTerminal raw
          = ({ s with oldState := raw.map (fun st => { state := some st }) },
             [.termMakeRaw raw, .kill (-s.childPID) .SIGCONT, .inheritSize]) := by
    rintro ⟨h1, h2⟩
    cases raw with
    | none =>
      simp [suspendState.onSigCont, suspendState.resume, makeRaw, h1, h2, hpid, hptmx]
      cases s
      simp_all
    | some st =>
      simp [suspendState.onSigCont, suspendState.resume, makeRaw, h1, h2, hpid, hptmx]
  have hno : ¬ (s.oldState = none ∧ stdinIsTerminal = true) →
        s.onSigCont stdinIsTerminal raw = (s, []) := by
    intro h
    unfold suspendState.onSigCont
    have : (s.oldState.isNone && stdinIsTerminal) = false := by
      cases ho : s.oldState <;> cases ht : stdinIsTerminal <;> simp_all
    simp [this]
  refine ⟨hyes, hno, ?_, ?_⟩
  · constructor
    · intro h
      by_contra hc
      rw [hno hc] at h
      simp at h
    · intro h
      rw [hyes h]
  · intro st1
    simp [suspendState.onSigCont, suspendState.suspend, suspendState.resume, makeRaw]

/-- Witness for C9: not in raw mode, stdin a terminal, raw-mode entry succeeding. -/
theorem sigcont_handler_witness :
    ({ oldState := none, ptmx := some 3, childPID := 4242 } : suspendState).onSigCont true (some 11)
      = ({ oldState := some { state := some 11 }, ptmx := some 3, childPID := 4242 },
         [.termMakeRaw (some 11), .kill (-4242) .SIGCONT, .inheritSize]) :=
  (sigcont_handler { oldState := none, ptmx := some 3, childPID := 4242 } true (some 11)
    (by decide) (by decide)).1 ⟨rfl, rfl⟩


/-! ## Raw mode is entered and restored in pairs -/

theorem trackToken_append (xs ys : List Effect) (held : Option Nat) :
    trackToken held (xs ++ ys) = (trackToken held xs).bind (fun h => trackToken h ys) := by
  induction xs generalizing held with
  | nil => simp [trackToken]
  | cons e rest ih =>
    cases e with
    | termMakeRaw result =>
      cases result with
      | none => simp [trackToken, ih]
      | some st =>
        by_cases h : held = none <;> simp [trackToken, ih, h]
    | termRestore st =>
      by_cases h : held = some st <;> simp [trackToken, ih, h]
    | kill pid sig => simp [trackToken, ih]
    | inheritSize => simp [trackToken, ih]
    | ptyWrite bytes => simp [trackToken, ih]

/-- Along a list of effects that keeps the token discipline, the tokens acquired and
the tokens restored differ only by the token held at the start and at the end. -/
theorem tokens_of_trackToken (xs : List Effect) (held final : Option Nat)
    (h : trackToken held xs = some final) :
    held.toList ++ acquiredTokens xs = restoredTokens xs ++ final.toList := by
  induction xs generalizing held with
  | nil =>
    simp only [trackToken, Option.some.injEq] at h
    subst h
    simp [acquiredTokens, restoredTokens]
  | cons e rest ih =>
    cases e with
    | termMakeRaw result =>
      cases result with
      | none =>
        simp only [trackToken] at h
        simpa [acquiredTokens, restoredTokens] using ih held h
      | some st =>
        by_cases hh : held = none
        · subst hh
          simp only [trackToken, if_true] at h
          simpa [acquiredTokens, restoredTokens] using ih (some st) h
        · simp [trackToken, hh] at h
    | termRestore st =>
      by_cases hh : held = some st
      · subst hh
        simp only [trackToken, if_true] at h
        simpa [acquiredTokens, restoredTokens] using ih none h
      · simp [trackToken, hh] at h
    | kill pid sig =>
      simp only [trackToken] at h
      simpa [acquiredTokens, restoredTokens] using ih held h
    | inheritSize =>
      simp only [trackToken] at h
      simpa [acquiredTokens, restoredTokens] using ih held h
    | ptyWrite bytes =>
      simp only [trackToken] at h
      simpa [acquiredTokens, restoredTokens] using ih held h

/-- One event keeps the saved token and the held terminal state in step, and its
calls keep the token discipline. -/
theorem step_keeps_discipline (s : suspendState) (held : Option Nat) (e : PtyEvent)
    (hs : s.oldState = held.map (fun st => { state := some st })) :
    ∃ held' : Option Nat,
      (s.step true e).1.oldState = held'.map (fun st => { state := some st }) ∧
      trackToken held (s.step true e).2 = some held' := by
  cases e with
  | sentinel raw =>
    cases held with
    | none =>
      refine ⟨raw, ?_, ?_⟩
      · cases raw <;>
          simp [suspendState.step, suspendState.suspend, suspendState.resume, makeRaw]
      · simp only [Option.map_none'] at hs
        cases raw <;> by_cases hp : s.childPID > 0 <;> by_cases hx : s.ptmx.isSome = true <;>
          simp [suspendState.step, suspendState.suspend, suspendState.resume, makeRaw,
            restoreTerminal, trackToken, hs, hp, hx]
    | some st =>
      refine ⟨raw, ?_, ?_⟩
      · cases raw <;>
          simp [suspendState.step, suspendState.suspend, suspendState.resume, makeRaw]
      · simp only [Option.map_some'] at hs
        cases raw <;> by_cases hp : s.childPID > 0 <;> by_cases hx : s.ptmx.isSome = true <;>
          simp [suspendState.step, suspendState.suspend, suspendState.resume, makeRaw,
            restoreTerminal, trackToken, hs, hp, hx]
  | sigcont raw =>
    cases held with
    | none =>
      refine ⟨raw, ?_, ?_⟩
      · simp only [Option.map_none'] at hs
        cases raw <;>
          simp [suspendState.step, suspendState.onSigCont, suspendState.resume, makeRaw, hs]
      · simp only [Option.map_none'] at hs
        cases raw <;> by_cases hp : s.childPID > 0 <;> by_cases hx : s.ptmx.isSome = true <;>
          simp [suspendState.step, suspendState.onSigCont, suspendState.resume, makeRaw,
            trackToken, hs, hp, hx]
    | some st =>
      refine ⟨some st, ?_, ?_⟩
      · simp only [Option.map_some'] at hs
        simp [suspendState.step, suspendState.onSigCont, hs]
      · simp only [Option.map_some'] at hs
        simp [suspendState.step, suspendState.onSigCont, hs, trackToken]

theorem steps_keep_discipline (events : List PtyEvent) (s : suspendState) (held : Option Nat)
    (hs : s.oldState = held.map (fun st => { state := some st })) :
    ∃ held' : Option Nat,
      (s.steps true events).1.oldState = held'.map (fun st => { state := some st }) ∧
      trackToken held (s.steps true events).2 = some held' := by
  induction events generalizing s held with
  | nil => exact ⟨held, hs, rfl⟩
  | cons e rest ih =>
    obtain ⟨h1, hs1, ht1⟩ := step_keeps_discipline s held e hs
    obtain ⟨h2, hs2, ht2⟩ := ih (s.step true e).1 h1 hs1
    refine ⟨h2, hs2, ?_⟩
    simp only [suspendState.steps]
    rw [trackToken_append, ht1]
    exact ht2

/-- C10. In every run of the terminal-mode part of runWithPTY on a terminal stdin (the
initial raw-mode entry, then any sequence of sentinel-triggered suspend sequences
and continue-signal handler runs, each raw-mode entry succeeding or failing,
then the return), the terminal calls keep the token discipline: a successful
raw-mode entry happens only while no token is held, each restore is called with
the token held, and no token is held at the end. So every successful entry is
followed by exactly one restore with the token it returned: the restored tokens
are the acquired tokens, in order. A restore with a nil token makes no call. -/
theorem raw_mode_entries_restored_once (ptmx : Nat) (childPID : Int) (raw0 : Option Nat)
    (events : List PtyEvent) :
    trackToken none (rawModeSession ptmx childPID true raw0 events) = some none
    ∧ restoredTokens (rawModeSession ptmx childPID true raw0 events)
        = acquiredTokens (rawModeSession ptmx childPID true raw0 events)
    ∧ restoreTerminal none = [] := by
  have htrack : trackToken none (rawModeSession ptmx childPID true raw0 events) = some none := by
    cases raw0 with
    | none => simp [rawModeSession, makeRaw, trackToken]
    | some st0 =>
      obtain ⟨held, hs, ht⟩ :=
        steps_keep_discipline events
          { oldState := some { state := some st0 }, ptmx := some ptmx, childPID := childPID }
          (some st0) rfl
      have hrun : rawModeSession ptmx childPID true (some st0) events
          = Effect.termMakeRaw (some st0) ::
              ((({ oldState := some { state := some st0 }, ptmx := some ptmx,
                   childPID := childPID } : suspendState).steps true events).2
                ++ restoreTerminal
                    (({ oldState := some { state := some st0 }, ptmx := some ptmx,
                        childPID := childPID } : suspendState).steps true events).1.oldState) :=
        rfl
      rw [hrun]
      simp only [trackToken, if_true]
      rw [trackToken_append, ht, hs]
      cases held <;> simp [restoreTerminal, trackToken]
  refine ⟨htrack, ?_, rfl⟩
  have := tokens_of_trackToken _ none none htrack
  simpa using this.symm

end claude

namespace db

/-! ## Status of a session under the store's row-wise updates -/

theorem statusOf_map (d d' : DB) (f : Row → Row) (id : String)
    (hmap : d'.sessions = d.sessions.map f) (hid : ∀ r, (f r).id = r.id) :
    statusOf d' id = (d.sessions.find? fun r => r.id == id).map (fun r => (f r).status) := by
  unfold statusOf
  rw [hmap, List.find?_map]
  have : ((fun r : Row => r.id == id) ∘ f) = (fun r : Row => r.id == id) := by
    funext r
    simp [hid r]
  rw [this, Option.map_map]
  rfl

theorem ids_map (d d' : DB) (f : Row → Row)
    (hmap : d'.sessions = d.sessions.map f) (hid : ∀ r, (f r).id = r.id) :
    d'.sessions.map (·.id) = d.sessions.map (·.id) := by
  rw [hmap, List.map_map]
  apply List.map_congr_left
  intro r _
  exact hid r

/-- A row-wise update that rewrites the rows with one id, keeping their id. -/
theorem statusOf_update (d d' : DB) (g : Row → Row) (id sid : String)
    (hmap : d'.sessions = d.sessions.map (fun r => if r.id = id then g r else r))
    (hid : ∀ r, (g r).id = r.id) (st : SessionStatus) (hst : ∀ r, (g r).status = st) :
    statusOf d' sid = if id = sid then (statusOf d sid).map (fun _ => st) else statusOf d sid := by
  have hid' : ∀ r : Row, (if r.id = id then g r else r).id = r.id := by
    intro r
    by_cases h : r.id = id <;> simp [h, hid r]
  rw [statusOf_map d d' _ sid hmap hid']
  unfold statusOf
  cases hf : d.sessions.find? (fun r => r.id == sid) with
  | none => simp
  | some r =>
    have hr : r.id = sid := by
      have := List.find?_some hf
      simpa using this
    by_cases h : id = sid
    · subst h
      simp [hr, hst r]
    · have : r.id ≠ id := by rw [hr]; exact fun h' => h h'.symm
      simp [h, this]

theorem statusOf_UpdateSessionStatus (d : DB) (ts : Nat) (id sid : String) (st : SessionStatus) :
    statusOf (UpdateSessionStatus d ts id st) sid
      = if id = sid then (statusOf d sid).map (fun _ => st) else statusOf d sid :=
  statusOf_update d _ (fun r => { r with updated_at := ts, status := st }) id sid rfl
    (fun _ => rfl) st (fun _ => rfl)

theorem statusOf_SoftDeleteSession (d : DB) (ts : Nat) (id sid : String) :
    statusOf (SoftDeleteSession d ts id) sid
      = if id = sid then (statusOf d sid).map (fun _ => "deleted") else statusOf d sid :=
  statusOf_update d _
    (fun r => { r with updated_at := ts, status := "deleted", deleted_at := some ts })
    id sid rfl (fun _ => rfl) "deleted" (fun _ => rfl)

theorem statusOf_RestoreSession (d : DB) (ts : Nat) (id sid : String) :
    statusOf (RestoreSession d ts id) sid
      = if id = sid then (statusOf d sid).map (fun _ => "restored") else statusOf d sid :=
  statusOf_update d _
    (fun r => { r with updated_at := ts, status := "restored", deleted_at := none })
    id sid rfl (fun _ => rfl) "restored" (fun _ => rfl)

theorem ids_UpdateSessionStatus (d : DB) (ts : Nat) (id : String) (st : SessionStatus) :
    (UpdateSessionStatus d ts id st).sessions.map (·.id) = d.sessions.map (·.id) :=
  ids_map d _ _ rfl (by intro r; by_cases h : r.id = id <;> simp [h])

theorem ids_SoftDeleteSession (d : DB) (ts : Nat) (id : String) :
    (SoftDeleteSession d ts id).sessions.map (·.id) = d.sessions.map (·.id) :=
  ids_map d _ _ rfl (by intro r; by_cases h : r.id = id <;> simp [h])

theorem ids_RestoreSession (d : DB) (ts : Nat) (id : String) :
    (RestoreSession d ts id).sessions.map (·.id) = d.sessions.map (·.id) :=
  ids_map d _ _ rfl (by intro r; by_cases h : r.id = id <;> simp [h])

theorem ids_recoverStuck (d : DB) (ts : Nat) (probe : Int → Bool) :
    (recoverStuck d ts probe).sessions.map (·.id) = d.sessions.map (·.id) :=
  ids_map d _ _ (foldl_markAbandoned_sessions ts _ d)
    (by intro r; by_cases h : r.id ∈ stuckIDs probe d <;> simp [h])

theorem ids_Open (d : DB) (ts : Nat) (probe : Int → Bool) :
    (Open d ts probe).sessions.map (·.id) = d.sessions.map (·.id) := by
  unfold Open
  rw [ids_recoverStuck, migrateLegacyStatus_ids]

/-- The status of a session after Open, on a store with distinct ids. -/
theorem statusOf_Open (d : DB) (ts : Nat) (probe : Int → Bool) (sid : String)
    (hid : (d.sessions.map (·.id)).Nodup) (a b : SessionStatus)
    (ha : statusOf d sid = some a) (hb : statusOf (Open d ts probe) sid = some b) :
    b = a ∨ (a = "working" ∧ b = "abandoned") ∨ (a = "active" ∧ b = "waiting") := by
  have hmig : (migrateLegacyStatus d).sessions.map (·.id) = d.sessions.map (·.id) :=
    migrateLegacyStatus_ids d
  have hsess := recoverStuck_sessions (migrateLegacyStatus d) ts probe (by rw [hmig]; exact hid)
  have hopen : (Open d ts probe).sessions
      = d.sessions.map (fun r =>
          (fun r : Row => if isStuck probe r then
              { r with status := "abandoned", updated_at := ts } else r)
            (if r.status = "active" then { r with status := "waiting" } else r)) := by
    unfold Open
    rw [hsess]
    simp only [migrateLegacyStatus, List.map_map]
    rfl
  have hkeep : ∀ r : Row,
      ((fun r : Row => if isStuck probe r then
              { r with status := "abandoned", updated_at := ts } else r)
            (if r.status = "active" then { r with status := "waiting" } else r)).id = r.id := by
    intro r
    by_cases h1 : r.status = "active"
    · by_cases h2 : isStuck probe { r with status := "waiting" } = true <;> simp [h1, h2]
    · by_cases h2 : isStuck probe r = true <;> simp [h1, h2]
  rw [statusOf_map d _ _ sid hopen hkeep] at hb
  unfold statusOf at ha
  cases hf : d.sessions.find? (fun r => r.id == sid) with
  | none => simp [hf] at ha
  | some r =>
    simp only [hf, Option.map_some', Option.some.injEq] at ha hb
    subst ha
    by_cases h1 : r.status = "active"
    · right; right
      refine ⟨h1, ?_⟩
      rw [← hb]
      simp [h1, isStuck]
    · by_cases h2 : isStuck probe r = true
      · right; left
        have hw : r.status = "working" := by
          unfold isStuck at h2
          simp only [Bool.and_eq_true, beq_iff_eq] at h2
          exact h2.1
        refine ⟨hw, ?_⟩
        rw [← hb]
        simp [h1, h2]
      · left
        rw [← hb]
        simp [h1, h2]

end db

namespace lifecycle

/-! ## Status changes along the steps of the system -/

theorem step_ids (sys : System) (ts : Nat) (st : Step) :
    (sys.step ts st).store.sessions.map (·.id) = sys.store.sessions.map (·.id) := by
  cases st with
  | output now =>
    simp only [System.step, claude.activityMonitor.onOutput]
    by_cases h : sys.monitor.isWorking = true <;>
      simp [h, applyWrites, claude.StatusWrite.apply, db.ids_UpdateSessionStatus]
  | tick now =>
    simp only [System.step, claude.activityMonitor.onTick]
    split <;> simp [applyWrites, claude.StatusWrite.apply, db.ids_UpdateSessionStatus]
  | runReturns err =>
    simp [System.step, applyWrites, claude.StatusWrite.apply, db.ids_UpdateSessionStatus]
  | dashStop session =>
    simp only [System.step, tui.stopSession]
    split <;> simp [db.ids_UpdateSessionStatus]
  | dashDelete session => simp [System.step, tui.deleteSession, db.ids_SoftDeleteSession]
  | dashRestore session => simp [System.step, tui.restoreSession, db.ids_RestoreSession]
  | reopen probe => simp [System.step, db.ids_Open]

/-- A status write onto a session that is still waiting or working makes an allowed
change when it writes working, waiting, completed, abandoned or killed. -/
theorem write_edge (d : db.DB) (ts : Nat) (id sid : String) (st a b : db.SessionStatus)
    (hcur : db.statusOf d id = some db.StatusWaiting ∨ db.statusOf d id = some db.StatusWorking)
    (hst : st = "working" ∨ st = "waiting" ∨ st = "completed" ∨ st = "abandoned"
      ∨ st = "killed")
    (ha : db.statusOf d sid = some a)
    (hb : db.statusOf (db.UpdateSessionStatus d ts id st) sid = some b) (hne : a ≠ b) :
    allowedEdge a b = true := by
  rw [db.statusOf_UpdateSessionStatus] at hb
  by_cases h : id = sid
  · subst h
    simp only [if_true, ha, Option.map_some', Option.some.injEq] at hb
    subst hb
    rw [ha] at hcur
    simp only [Option.some.injEq, db.StatusWaiting, db.StatusWorking] at hcur
    rcases hcur with hc | hc <;> subst hc <;>
      rcases hst with h | h | h | h | h <;> subst h <;> first | (exact absurd rfl hne) | decide
  · simp only [h, if_false] at hb
    rw [ha] at hb
    exact absurd (Option.some.inj hb) hne

theorem step_edge (sys : System) (ts : Nat) (st : Step) (sid : String)
    (hid : (sys.store.sessions.map (·.id)).Nodup) (hact : actsOnCurrent sys st)
    (a b : db.SessionStatus) (ha : db.statusOf sys.store sid = some a)
    (hb : db.statusOf (sys.step ts st).store sid = some b)
    (hknown : a ∈ knownStatuses) (hne : a ≠ b) : allowedEdge a b = true := by
  cases st with
  | output now =>
    simp only [System.step, claude.activityMonitor.onOutput] at hb
    by_cases h : sys.monitor.isWorking = true
    · simp only [h, Bool.not_true, Bool.false_eq_true, if_false, applyWrites] at hb
      rw [ha] at hb
      exact absurd (Option.some.inj hb) hne
    · simp only [h, Bool.not_eq_true] at hb
      simp only [Bool.not_eq_true, Bool.not_false, if_true, applyWrites,
        claude.StatusWrite.apply, h] at hb
      exact write_edge _ ts _ sid _ a b hact (Or.inl rfl) ha hb hne
  | tick now =>
    simp only [System.step, claude.activityMonitor.onTick] at hb
    split at hb
    · simp only [applyWrites, claude.StatusWrite.apply] at hb
      exact write_edge _ ts _ sid _ a b hact (Or.inr (Or.inl rfl)) ha hb hne
    · simp only [applyWrites] at hb
      rw [ha] at hb
      exact absurd (Option.some.inj hb) hne
  | runReturns err =>
    simp only [System.step, applyWrites, claude.StatusWrite.apply] at hb
    cases err with
    | none =>
      exact write_edge _ ts _ sid _ a b hact (Or.inr (Or.inr (Or.inl rfl))) ha hb hne
    | some e =>
      exact write_edge _ ts _ sid _ a b hact (Or.inr (Or.inr (Or.inr (Or.inl rfl)))) ha hb hne
  | dashStop session =>
    simp only [System.step, tui.stopSession] at hb
    split at hb
    · rename_i hrun
      have hcur : db.statusOf sys.store session.ID = some db.StatusWaiting
          ∨ db.statusOf sys.store session.ID = some db.StatusWorking := by
        simp only [actsOnCurrent] at hact
        rcases hrun with h | h
        · left; rw [hact, h]
        · right; rw [hact, h]
      exact write_edge _ ts _ sid _ a b hcur
        (Or.inr (Or.inr (Or.inr (Or.inr rfl)))) ha hb hne
    · rw [ha] at hb
      exact absurd (Option.some.inj hb) hne
  | dashDelete session =>
    simp only [System.step, tui.deleteSession, db.statusOf_SoftDeleteSession] at hb
    by_cases h : session.ID = sid
    · simp only [h, if_true, ha, Option.map_some', Option.some.injEq] at hb
      subst hb
      simp [allowedEdge]
    · simp only [h, if_false] at hb
      rw [ha] at hb
      exact absurd (Option.some.inj hb) hne
  | dashRestore session =>
    simp only [System.step, tui.restoreSession, db.statusOf_RestoreSession] at hb
    by_cases h : session.ID = sid
    · simp only [h, if_true, ha, Option.map_some', Option.some.injEq] at hb
      subst hb
      simp only [actsOnCurrent] at hact
      rw [h, ha] at hact
      have : a = "deleted" := by
        rw [Option.some.inj hact.2, hact.1]; rfl
      subst this
      decide
    · simp only [h, if_false] at hb
      rw [ha] at hb
      exact absurd (Option.some.inj hb) hne
  | reopen probe =>
    simp only [System.step] at hb
    rcases db.statusOf_Open sys.store ts probe sid hid a b ha hb with h | ⟨h1, h2⟩ | ⟨h1, _⟩
    · exact absurd h.symm hne
    · subst h1; subst h2; decide
    · subst h1
      simp [knownStatuses, db.StatusWaiting, db.StatusWorking, db.StatusCompleted,
        db.StatusAbandoned, db.StatusKilled, db.StatusDeleted, db.StatusRestored] at hknown

/-- C2 as stated fails: after the dashboard stops a working session (status killed),
the return of runWithPTY with the error of the killed child makes Run write
abandoned, and killed to abandoned is not an allowed edge. -/
theorem run_overwrites_killed :
    exampleSystem.statuses "abc12345"
        [(2, .output 5),
         (3, .dashStop (db.sampleSession "abc12345" "working" 4242)),
         (3, .runReturns (some "signal: killed"))]
      = [some "waiting", some "working", some "killed", some "abandoned"]
    ∧ allowedEdge "killed" "abandoned" = false := by
  decide

/-- C2 amended: over every sequence of status-writing steps (monitor pushes, Run's
final write, the dashboard's stop, delete and restore, the opening of the store)
on a store with distinct ids, every change of a session's status made by a step
that acts on the current status follows an allowed edge: waiting and working into
each other, waiting or working to completed, abandoned or killed, any status to
deleted, deleted to restored. A step acts on the current status when it is a
monitor push or Run's final write that finds its session still waiting or
working, a stop or restore whose loaded copy of the row has the stored status
(a deleted copy for restore), a delete, or the opening of the store. -/
theorem status_changes_follow_edges (steps : List (Nat × Step)) (sys : System) (sid : String)
    (hid : (sys.store.sessions.map (·.id)).Nodup)
    (tr : Transition) (htr : tr ∈ sys.trace steps) (hact : actsOnCurrent tr.before tr.step)
    (a b : db.SessionStatus) (ha : db.statusOf tr.before.store sid = some a)
    (hb : db.statusOf tr.after.store sid = some b)
    (hknown : a ∈ knownStatuses) (hne : a ≠ b) : allowedEdge a b = true := by
  induction steps generalizing sys with
  | nil => simp [System.trace] at htr
  | cons p rest ih =>
    obtain ⟨ts, st⟩ := p
    simp only [System.trace, List.mem_cons] at htr
    rcases htr with h | h
    · subst h
      exact step_edge sys ts st sid hid hact a b ha hb hknown hne
    · exact ih (sys.step ts st) (by rw [step_ids]; exact hid) h


/-- Witness for C2 amended: the dashboard stops a session that the monitor has just
marked working, with a current copy of the row. -/
theorem status_changes_follow_edges_witness :
    (exampleSystem.store.sessions.map (·.id)).Nodup
    ∧ db.statusOf
        ((exampleSystem.step 2 (.output 5)).step 3
          (.dashStop (db.sampleSession "abc12345" "working" 4242))).store "abc12345"
        = some "killed"
    ∧ allowedEdge "working" "killed" = true :=
  ⟨by decide, by decide,
    status_changes_follow_edges
      [(2, .output 5), (3, .dashStop (db.sampleSession "abc12345" "working" 4242))]
      exampleSystem "abc12345" (by decide)
      { before := exampleSystem.step 2 (.output 5), ts := 3,
        step := .dashStop (db.sampleSession "abc12345" "working" 4242),
        after := (exampleSystem.step 2 (.output 5)).step 3
          (.dashStop (db.sampleSession "abc12345" "working" 4242)) }
      (List.mem_cons_of_mem _ (List.mem_cons_self _ _))
      (show db.statusOf (exampleSystem.step 2 (.output 5)).store "abc12345"
          = some "working" by decide)
      "working" "killed" (by decide) (by decide) (by decide) (by decide)⟩

end lifecycle

namespace db

/-! ## Prune -/

theorem pruneSelects_iff (ts : Nat) (r : Row) :
    pruneSelects ts r = true ↔ deletedLongAgo ts r := by
  unfold pruneSelects deletedLongAgo StatusDeleted
  cases hd : r.deleted_at with
  | none => simp
  | some t =>
    simp only [Bool.and_eq_true, beq_iff_eq, decide_eq_true_eq, Option.some.injEq,
      exists_eq_left']
    constructor
    · rintro ⟨h1, h2⟩
      exact ⟨h1, by omega⟩
    · rintro ⟨h1, h2⟩
      exact ⟨h1, by omega⟩

/-- C17. For every store state and clock value, PruneDeletedSessions keeps, in their
order and unchanged, exactly the rows that are not selected, and the rows it
selects are exactly those with status deleted and a deleted_at more than 7 days
before the clock value; the number it returns is the number of rows it removed;
a row whose status is waiting, working or completed is never removed. -/
theorem PruneDeletedSessions_removes_expired (d : DB) (ts : Nat) :
    (PruneDeletedSessions d ts).1.sessions = d.sessions.filter (fun r => !(pruneSelects ts r))
    ∧ (∀ r, pruneSelects ts r = true ↔ deletedLongAgo ts r)
    ∧ (∀ r, r ∈ (PruneDeletedSessions d ts).1.sessions
        ↔ r ∈ d.sessions ∧ ¬ deletedLongAgo ts r)
    ∧ (PruneDeletedSessions d ts).2 = (d.sessions.countP (pruneSelects ts) : Int)
    ∧ ((PruneDeletedSessions d ts).2 : Int)
        = (d.sessions.length : Int) - ((PruneDeletedSessions d ts).1.sessions.length : Int)
    ∧ (∀ r ∈ d.sessions,
        (r.status = StatusWaiting ∨ r.status = StatusWorking ∨ r.status = StatusCompleted) →
          r ∈ (PruneDeletedSessions d ts).1.sessions) := by
  refine ⟨rfl, pruneSelects_iff ts, ?_, ?_, ?_, ?_⟩
  · intro r
    simp only [PruneDeletedSessions, List.mem_filter, Bool.not_eq_true', ← pruneSelects_iff]
    simp
  · simp [PruneDeletedSessions, List.countP_eq_length_filter]
  · simp only [PruneDeletedSessions]
    have h := List.length_eq_countP_add_countP (pruneSelects ts) d.sessions
    have h1 : (d.sessions.filter (pruneSelects ts)).length
        = d.sessions.countP (pruneSelects ts) := (List.countP_eq_length_filter _ _).symm
    have h2 : (d.sessions.filter (fun r => !(pruneSelects ts r))).length
        = d.sessions.countP (fun r => ¬ pruneSelects ts r = true) := by
      rw [List.countP_eq_length_filter]
      congr 1
      apply List.filter_congr
      intro r _
      simp
    omega
  · intro r hr hst
    simp only [PruneDeletedSessions, List.mem_filter, Bool.not_eq_true']
    refine ⟨hr, ?_⟩
    unfold pruneSelects
    rcases hst with h | h | h <;>
      simp [h, StatusWaiting, StatusWorking, StatusCompleted]

/-- C18. For every store state, a second PruneDeletedSessions at the same clock value
right after a first one returns 0 and leaves the store exactly as the first call
left it. -/
theorem PruneDeletedSessions_twice (d : DB) (ts : Nat) :
    PruneDeletedSessions (PruneDeletedSessions d ts).1 ts = ((PruneDeletedSessions d ts).1, 0) := by
  simp only [PruneDeletedSessions, List.filter_filter]
  have h1 : d.sessions.filter (fun r => (!pruneSelects ts r) && !pruneSelects ts r)
      = d.sessions.filter (fun r => !pruneSelects ts r) := by
    apply List.filter_congr
    intro r _
    simp
  have h2 : d.sessions.filter (fun r => pruneSelects ts r && !pruneSelects ts r) = [] := by
    rw [List.filter_eq_nil_iff]
    intro r _
    simp
  rw [h1, h2]
  rfl


/-! ## ListSessions and GetSession -/

theorem listSelects_iff (status : SessionStatus) (r : Row) :
    listSelects status r = true
      ↔ (if status = "" then r.status ≠ StatusDeleted else r.status = status) := by
  unfold listSelects StatusDeleted
  by_cases h : status = "" <;> simp [h]

theorem listRows_perm (d : DB) (status : SessionStatus) :
    (listRows d status).Perm ((rowsWithRowid d).filter fun p => listSelects status p.2) :=
  List.perm_insertionSort _ _

theorem listRows_rowids_nodup (d : DB) (status : SessionStatus) :
    ((listRows d status).map Prod.fst).Nodup := by
  have hsub : (((rowsWithRowid d).filter fun p => listSelects status p.2).map Prod.fst).Sublist
      ((rowsWithRowid d).map Prod.fst) :=
    (List.filter_sublist _).map _
  have hnd : ((rowsWithRowid d).map Prod.fst).Nodup := by
    unfold rowsWithRowid
    rw [List.enum_map_fst]
    exact List.nodup_range _
  exact ((listRows_perm d status).map Prod.fst).nodup_iff.mpr (hnd.sublist hsub)

theorem listRows_sorted (d : DB) (status : SessionStatus) :
    (listRows d status).Pairwise newerFirst := by
  haveI : IsTotal (Nat × Row) newerFirst := ⟨by
    intro a b
    unfold newerFirst
    omega⟩
  haveI : IsTrans (Nat × Row) newerFirst := ⟨by
    intro a b c
    unfold newerFirst
    omega⟩
  exact List.sorted_insertionSort newerFirst _

/-- C19. For every store state, ListSessions returns the scanned rows of a result set
that holds each row of the table selected by the filter exactly once (every
non-deleted row for the empty status, every row with the given status
otherwise) and is ordered by creation time, newest first, rows created at the
same time in the order of insertion, latest first. -/
theorem ListSessions_selection_and_order (d : DB) (status : SessionStatus) :
    ListSessions d status = (listRows d status).map (fun p => scanSession p.2)
    ∧ (listRows d status).Perm
        ((rowsWithRowid d).filter fun p =>
          decide (if status = "" then p.2.status ≠ StatusDeleted else p.2.status = status))
    ∧ (∀ p : Nat × Row, p ∈ listRows d status
        ↔ d.sessions[p.1]? = some p.2
          ∧ (if status = "" then p.2.status ≠ StatusDeleted else p.2.status = status))
    ∧ (listRows d status).Nodup
    ∧ (listRows d status).Pairwise strictlyNewer := by
  have hfilter : ((rowsWithRowid d).filter fun p => listSelects status p.2)
      = (rowsWithRowid d).filter fun p =>
          decide (if status = "" then p.2.status ≠ StatusDeleted else p.2.status = status) := by
    apply List.filter_congr
    intro p _
    rw [Bool.eq_iff_iff, listSelects_iff]
    simp
  refine ⟨rfl, ?_, ?_, ?_, ?_⟩
  · rw [← hfilter]
    exact listRows_perm d status
  · intro p
    rw [(listRows_perm d status).mem_iff, List.mem_filter, listSelects_iff]
    unfold rowsWithRowid
    rw [List.mem_enum_iff_getElem?]
  · exact List.Nodup.of_map _ (listRows_rowids_nodup d status)
  · have hne : (listRows d status).Pairwise (fun a b => a.1 ≠ b.1) := by
      have := listRows_rowids_nodup d status
      unfold List.Nodup at this
      rwa [List.pairwise_map] at this
    refine ((listRows_sorted d status).and hne).imp ?_
    intro a b h
    unfold newerFirst at h
    unfold strictlyNewer
    omega

/-- C20. For every session s whose id is not yet in the store, CreateSession succeeds
and GetSession of that id then returns a session equal to s on ID, WorkflowType,
Status, WorkingDirectory, TaskDescription, Prefix, ClaudeSessionID, TmuxSession,
TmuxWindow, TmuxPane, OutputFile and PID, with DeletedAt nil (and with the
timestamps of the insert). GetSession returns nil exactly for the ids that are
not in the store. -/
theorem GetSession_after_CreateSession (d : DB) (ts : Nat) (s : Session)
    (hnew : idTaken d s.ID = false) :
    CreateSession d ts s = .ok { sessions := d.sessions ++ [insertedRow ts s] }
    ∧ GetSession { sessions := d.sessions ++ [insertedRow ts s] } s.ID
        = some { s with CreatedAt := ts, UpdatedAt := ts, DeletedAt := none }
    ∧ (∀ (d' : DB) (id : String), GetSession d' id = none ↔ idTaken d' id = false) := by
  refine ⟨?_, ?_, ?_⟩
  · simp [CreateSession, hnew]
  · unfold GetSession
    have hnone : d.sessions.find? (fun r => r.id == s.ID) = none := by
      rw [List.find?_eq_none]
      intro r hr
      unfold idTaken at hnew
      rw [List.any_eq_false] at hnew
      exact hnew r hr
    rw [List.find?_append, hnone]
    simp [insertedRow, scanSession]
  · intro d' id
    unfold GetSession idTaken
    rw [Option.map_eq_none', List.find?_eq_none, List.any_eq_false]

/-- Witness for C20: a new session added to a store that holds six others. -/
theorem GetSession_after_CreateSession_witness :
    GetSession
        { sessions := recoveryExample.sessions
            ++ [insertedRow 5 (sampleSession "abc12345" "waiting" 4242)] } "abc12345"
      = some { sampleSession "abc12345" "waiting" 4242 with
                CreatedAt := 5, UpdatedAt := 5, DeletedAt := none } :=
  (GetSession_after_CreateSession recoveryExample 5 (sampleSession "abc12345" "waiting" 4242)
    (by decide)).2.1

end db

namespace claude

/-! ## buildCommand -/

/-- The assembled arguments are the flag arguments followed by the prompt argument. -/
theorem buildArgs_eq (opts : RunOptions) :
    buildArgs opts = flagArgs opts ++ promptArgs opts := by
  unfold buildArgs flagArgs promptArgs
  by_cases hm : opts.Model = "" <;> by_cases hp : opts.PrintMode = true <;>
    by_cases ha : opts.AutonomousMode = true <;> by_cases hr : opts.ResumeSessionID = "" <;>
    by_cases hs : opts.ResumeSessionID = "*" <;> by_cases ht : opts.TaskDescription = "" <;>
    by_cases hx : GetPromptPrefix opts.Command opts.CommentTag = "" <;>
    simp [hm, hp, ha, hr, hs, ht, hx]

theorem promptArgs_length (opts : RunOptions) : (promptArgs opts).length ≤ 1 := by
  unfold promptArgs
  split
  · simp
  · split <;> simp


/-- C14. For every run options the arguments of the command are the command name, then
exactly the flag arguments in the order model, print, skip-permissions, resume
(each present under the stated condition and with nothing else), then at most
one prompt argument; without a task description the flag arguments are all there
is. The flag arguments do not depend on the task description, the command or the
comment tag, and the whole command does not depend on WorkflowType or WorkingDir. -/
theorem buildCommand_flag_arguments (opts : RunOptions) :
    (buildCommand opts).Args.take (1 + (flagArgs opts).length) = "claude" :: flagArgs opts
    ∧ ((buildCommand opts).Args.drop (1 + (flagArgs opts).length)).length ≤ 1
    ∧ (buildCommand { opts with TaskDescription := "" }).Args = "claude" :: flagArgs opts
    ∧ (∀ (task : String) (cmd : CommandType) (tag : String),
        flagArgs { opts with TaskDescription := task, Command := cmd, CommentTag := tag }
          = flagArgs opts)
    ∧ (∀ (w : db.WorkflowType) (dir : String),
        buildCommand { opts with WorkflowType := w, WorkingDir := dir } = buildCommand opts) := by
  refine ⟨?_, ?_, ?_, ?_, ?_⟩
  · simp only [buildCommand, buildArgs_eq]
    rw [Nat.add_comm, List.take_succ_cons, List.take_left']
    rfl
  · simp only [buildCommand, buildArgs_eq]
    rw [Nat.add_comm, List.drop_succ_cons, List.drop_left']
    · exact promptArgs_length opts
    · rfl
  · simp only [buildCommand, buildArgs_eq]
    simp [promptArgs, flagArgs]
  · intro task cmd tag
    rfl
  · intro w dir
    rfl

/-- C15. For every run options the command passes at most one prompt argument, and it
is the last one: with an empty task description the arguments end with the flag
arguments and there is no prompt argument, even for a command that has a prefix;
with a non-empty task description the last argument is the prefix, one space and
the task description when GetPromptPrefix gives a non-empty prefix, and the task
description alone otherwise, as one argument whatever spaces it holds. -/
theorem buildCommand_prompt_argument (opts : RunOptions) :
    (buildCommand opts).Args
        = "claude" :: flagArgs opts ++
            (if opts.TaskDescription = "" then []
             else if GetPromptPrefix opts.Command opts.CommentTag = "" then
               [opts.TaskDescription]
             else [GetPromptPrefix opts.Command opts.CommentTag ++ " " ++ opts.TaskDescription])
    ∧ (buildCommand opts).Args.length
        = 1 + (flagArgs opts).length + (if opts.TaskDescription = "" then 0 else 1)
    ∧ (buildCommand { opts with Command := CommandResearch, TaskDescription := "" }).Args
        = "claude" :: flagArgs opts
    ∧ (buildCommand
        { opts with Command := CommandResearch, TaskDescription := "two  words and more" }).Args
        = "claude" :: flagArgs opts ++ ["/research_codebase two  words and more"] := by
  have hmain : (buildCommand opts).Args
        = "claude" :: flagArgs opts ++
            (if opts.TaskDescription = "" then []
             else if GetPromptPrefix opts.Command opts.CommentTag = "" then
               [opts.TaskDescription]
             else [GetPromptPrefix opts.Command opts.CommentTag ++ " " ++ opts.TaskDescription]) := by
    simp only [buildCommand, buildArgs_eq, promptArgs, List.cons_append]
  refine ⟨hmain, ?_, ?_, ?_⟩
  · rw [hmain]
    by_cases ht : opts.TaskDescription = ""
    · simp [ht]; omega
    · by_cases hx : GetPromptPrefix opts.Command opts.CommentTag = "" <;> simp [ht, hx] <;> omega
  · simp only [buildCommand, buildArgs_eq]
    simp [promptArgs, flagArgs]
  · simp only [buildCommand, buildArgs_eq]
    have hp : GetPromptPrefix CommandResearch opts.CommentTag = "/research_codebase" := by
      simp [GetPromptPrefix, promptPrefixes, CommandResearch, CommandNew, CommandLookAndFix,
        List.lookup]
    simp [promptArgs, flagArgs, hp]

/-- C16 as stated fails: with PrintMode false and the task description "-p" for the
command new, the argument list is claude followed by "-p". -/
theorem print_flag_from_task :
    (buildCommand { plainOptions with TaskDescription := "-p" }).Args = ["claude", "-p"]
    ∧ ({ plainOptions with TaskDescription := "-p" } : RunOptions).PrintMode = false
    ∧ ¬ ("-p" ∈ (buildCommand { plainOptions with TaskDescription := "-p" }).Args
          ↔ ({ plainOptions with TaskDescription := "-p" } : RunOptions).PrintMode = true) := by
  decide

/-- C16 amended: for every run options, the argument list built by buildCommand holds
an argument equal to "-p" if and only if PrintMode is true or one of the strings
passed through as they are, the model, the resume id or the prompt argument, is
itself "-p". -/
theorem print_flag_iff (opts : RunOptions) :
    "-p" ∈ (buildCommand opts).Args
      ↔ (opts.PrintMode = true ∨ opts.Model = "-p" ∨ opts.ResumeSessionID = "-p"
          ∨ promptArgs opts = ["-p"]) := by
  simp only [buildCommand, buildArgs_eq, List.mem_cons, List.mem_append]
  have hprompt : "-p" ∈ promptArgs opts ↔ promptArgs opts = ["-p"] := by
    unfold promptArgs
    by_cases ht : opts.TaskDescription = ""
    · simp [ht]
    · by_cases hx : GetPromptPrefix opts.Command opts.CommentTag = "" <;>
        simp [ht, hx, eq_comm]
  have hflag : "-p" ∈ flagArgs opts
      ↔ (opts.PrintMode = true ∨ opts.Model = "-p" ∨ opts.ResumeSessionID = "-p") := by
    unfold flagArgs
    by_cases hm : opts.Model = "" <;> by_cases hp : opts.PrintMode = true <;>
      by_cases ha : opts.AutonomousMode = true <;>
      by_cases hr : opts.ResumeSessionID = "" <;>
      by_cases hs : opts.ResumeSessionID = "*" <;>
      simp [hm, hp, ha, hr, hs, eq_comm]
  rw [hprompt, hflag]
  constructor
  · rintro (h | h | h)
    · exact absurd h (by decide)
    · rcases h with h | h | h
      · exact Or.inl h
      · exact Or.inr (Or.inl h)
      · exact Or.inr (Or.inr (Or.inl h))
    · exact Or.inr (Or.inr (Or.inr h))
  · rintro (h | h | h | h)
    · exact Or.inr (Or.inl (Or.inl h))
    · exact Or.inr (Or.inl (Or.inr (Or.inl h)))
    · exact Or.inr (Or.inl (Or.inr (Or.inr h)))
    · exact Or.inr (Or.inr h)

end claude

namespace db

/-! ## Rows stay in place under updates -/

theorem statusOf_isSome_iff (d : DB) (id : String) :
    (statusOf d id).isSome = idTaken d id := by
  unfold statusOf idTaken
  rw [Option.isSome_map', Bool.eq_iff_iff, List.find?_isSome, List.any_eq_true]

theorem idTaken_of_ids (d d' : DB) (id : String)
    (h : d'.sessions.map (·.id) = d.sessions.map (·.id)) : idTaken d' id = idTaken d id := by
  have key : ∀ t : DB, idTaken t id = (t.sessions.map (·.id)).any (fun x => x == id) := by
    intro t
    unfold idTaken
    induction t.sessions with
    | nil => rfl
    | cons a l ih => simp [ih]
  rw [key d', key d, h]

theorem ids_UpdateSessionPID (d : DB) (ts : Nat) (id : String) (pid : Int) :
    (UpdateSessionPID d ts id pid).sessions.map (·.id) = d.sessions.map (·.id) :=
  ids_map d _ _ rfl (by intro r; by_cases h : r.id = id <;> simp [h])

theorem idTaken_Engine_UpdateSessionStatus (e : Engine) (ts : Nat) (id sid : String)
    (st : SessionStatus) :
    idTaken (e.UpdateSessionStatus ts id st).1.table sid = idTaken e.table sid := by
  unfold Engine.UpdateSessionStatus Engine.next
  rcases hf : e.failures with _ | ⟨v, rest⟩
  · exact idTaken_of_ids _ _ _ (ids_UpdateSessionStatus _ _ _ _)
  · cases v with
    | none => exact idTaken_of_ids _ _ _ (ids_UpdateSessionStatus _ _ _ _)
    | some msg => rfl

theorem idTaken_Engine_UpdateSessionPID (e : Engine) (ts : Nat) (id sid : String) (pid : Int) :
    idTaken (e.UpdateSessionPID ts id pid).1.table sid = idTaken e.table sid := by
  unfold Engine.UpdateSessionPID Engine.next
  rcases hf : e.failures with _ | ⟨v, rest⟩
  · exact idTaken_of_ids _ _ _ (ids_UpdateSessionPID _ _ _ _)
  · cases v with
    | none => exact idTaken_of_ids _ _ _ (ids_UpdateSessionPID _ _ _ _)
    | some msg => rfl

/-- A session record that has just been inserted is in the table. -/
theorem idTaken_Engine_CreateSession (e : Engine) (ts : Nat) (s : Session)
    (h : (e.CreateSession ts s).2 = none) :
    idTaken (e.CreateSession ts s).1.table s.ID = true := by
  unfold Engine.CreateSession Engine.next at h ⊢
  have hins : ∀ t : DB, idTaken { sessions := t.sessions ++ [insertedRow ts s] } s.ID = true := by
    intro t
    simp [idTaken, insertedRow]
  rcases hf : e.failures with _ | ⟨v, rest⟩
  · simp only [hf] at h ⊢
    unfold db.CreateSession at h ⊢
    by_cases ht : idTaken e.table s.ID = true
    · simp [ht] at h
    · simp only [ht]
      exact hins e.table
  · cases v with
    | some msg => simp [hf] at h
    | none =>
      simp only [hf] at h ⊢
      unfold db.CreateSession at h ⊢
      by_cases ht : idTaken e.table s.ID = true
      · simp [ht] at h
      · simp only [ht]
        exact hins e.table

/-- A status update that the engine runs sets the status of a row that is there. -/
theorem statusOf_Engine_UpdateSessionStatus (e : Engine) (ts : Nat) (id : String)
    (st : SessionStatus) (hrow : idTaken e.table id = true)
    (hok : (e.UpdateSessionStatus ts id st).2 = none) :
    statusOf (e.UpdateSessionStatus ts id st).1.table id = some st := by
  have hsome : (statusOf e.table id).isSome = true := by
    rw [statusOf_isSome_iff]; exact hrow
  obtain ⟨a, ha⟩ := Option.isSome_iff_exists.mp hsome
  unfold Engine.UpdateSessionStatus Engine.next at hok ⊢
  rcases hf : e.failures with _ | ⟨v, rest⟩
  · simp only [hf]
    rw [statusOf_UpdateSessionStatus]
    simp [ha]
  · cases v with
    | some msg => simp [hf] at hok
    | none =>
      simp only [hf]
      rw [statusOf_UpdateSessionStatus]
      simp [ha]

end db

namespace claude

/-! ## Run -/

theorem runWithPTY_err (r : Runner) (e : db.Engine) (cmd : Cmd) (session : db.Session)
    (o : PtyOutcome) : (r.runWithPTY e cmd session o).err = ptyError o := by
  unfold Runner.runWithPTY ptyError
  cases hs : o.start with
  | error err => rfl
  | ok pid =>
    cases hc : o.createOutput with
    | some err => rfl
    | none =>
      cases ht : o.stdinIsTerminal <;> cases hr : o.raw0 <;> simp

theorem idTaken_pushWrites (ws : List StatusWrite) (e : db.Engine) (ts : Nat) (sid : String) :
    db.idTaken (pushWrites e ts ws).1.table sid = db.idTaken e.table sid := by
  induction ws generalizing e with
  | nil => rfl
  | cons w rest ih =>
    simp only [pushWrites]
    rw [ih, db.idTaken_Engine_UpdateSessionStatus]

theorem idTaken_monitorLoop (evs : List (Nat × Event)) (m : activityMonitor) (e : db.Engine)
    (sid : String) :
    db.idTaken (monitorLoop m e evs).1.table sid = db.idTaken e.table sid := by
  induction evs generalizing m e with
  | nil => rfl
  | cons p rest ih =>
    obtain ⟨ts, ev⟩ := p
    simp only [monitorLoop]
    rw [ih, idTaken_pushWrites]

theorem idTaken_runWithPTY (r : Runner) (e : db.Engine) (cmd : Cmd) (session : db.Session)
    (o : PtyOutcome) (sid : String) :
    db.idTaken (r.runWithPTY e cmd session o).engine.table sid = db.idTaken e.table sid := by
  unfold Runner.runWithPTY
  cases hs : o.start with
  | error err => rfl
  | ok pid =>
    cases hc : o.createOutput with
    | some err => exact db.idTaken_Engine_UpdateSessionPID _ _ _ _ _
    | none =>
      simp only
      split
      · exact db.idTaken_Engine_UpdateSessionPID _ _ _ _ _
      · simp only
        rw [idTaken_monitorLoop, db.idTaken_Engine_UpdateSessionPID]


theorem latePushes_nil (r : Runner) (session : db.Session) (o : PtyOutcome) (e : db.Engine)
    (h : o.late = []) : r.latePushes session o e = (e, []) := by
  unfold Runner.latePushes Runner.leftRunning
  cases o.start with
  | error err => rfl
  | ok pid =>
    cases o.createOutput with
    | some err => simp [h, monitorLoop]
    | none =>
      by_cases hc : (o.stdinIsTerminal && o.raw0.isNone) = true
      · simp [h, hc, monitorLoop]
      · simp [h, hc, monitorLoop]

/-- Run once the session record has been created: the result in one piece. -/
theorem Run_after_create (r : Runner) (env : Environment) (e : db.Engine) (opts : RunOptions)
    (session : db.Session) (workDir : String)
    (hprep : r.prepare env opts = .ok (session, workDir))
    (hcreate : (e.CreateSession env.now session).2 = none) :
    r.Run env e opts
      = { engine :=
            (r.latePushes session env.pty
              ((r.runWithPTY (e.CreateSession env.now session).1 (r.command env opts workDir) session env.pty).engine.UpdateSessionStatus
                env.finishedAt session.ID
                (if ptyError env.pty = none then db.StatusCompleted
                 else db.StatusAbandoned)).1).1,
          err := ptyError env.pty,
          calls := (StoreCall.createSession session, none)
            :: (r.runWithPTY (e.CreateSession env.now session).1 (r.command env opts workDir) session env.pty).calls
            ++ [(StoreCall.updateSessionStatus session.ID
                  (if ptyError env.pty = none then db.StatusCompleted else db.StatusAbandoned),
                 ((r.runWithPTY (e.CreateSession env.now session).1 (r.command env opts workDir) session
                    env.pty).engine.UpdateSessionStatus env.finishedAt session.ID
                    (if ptyError env.pty = none then db.StatusCompleted
                     else db.StatusAbandoned)).2)]
            ++ (r.latePushes session env.pty
              ((r.runWithPTY (e.CreateSession env.now session).1 (r.command env opts workDir) session env.pty).engine.UpdateSessionStatus
                env.finishedAt session.ID
                (if ptyError env.pty = none then db.StatusCompleted
                 else db.StatusAbandoned)).1).2,
          command := some (r.command env opts workDir) } := by
  have hcmd : (r.runWithPTY (e.CreateSession env.now session).1 (r.command env opts workDir)
      session env.pty).command = some (r.command env opts workDir) := by
    unfold Runner.runWithPTY
    cases env.pty.start with
    | error err => rfl
    | ok pid =>
      cases env.pty.createOutput with
      | some err => rfl
      | none =>
        simp only
        split <;> rfl
  unfold Runner.Run
  simp only [hprep, hcreate]
  have herr := runWithPTY_err r (e.CreateSession env.now session).1 (r.command env opts workDir)
    session env.pty
  cases hp : ptyError env.pty with
  | none =>
    rw [hp] at herr
    simp [herr, hcmd, finalStatusWrite]
  | some msg =>
    rw [hp] at herr
    simp [herr, hcmd, finalStatusWrite]

/-- What holds of a run in which the monitor goroutines handle nothing after the final
status write (and the session row was created): Run returns exactly the error of
the PTY run; the last call to the store is the status update of the session, to
completed when the PTY run returned no error and to abandoned when it returned
one; and when the engine runs that update the row is left with that status. -/
theorem Run_final_status_without_late_events (r : Runner) (env : Environment) (e : db.Engine)
    (opts : RunOptions) (session : db.Session) (workDir : String)
    (hprep : r.prepare env opts = .ok (session, workDir))
    (hcreate : (e.CreateSession env.now session).2 = none)
    (hlate : env.pty.late = []) :
    (r.Run env e opts).err = ptyError env.pty
    ∧ (∃ res, (r.Run env e opts).calls.getLast?
        = some (StoreCall.updateSessionStatus session.ID
            (if ptyError env.pty = none then db.StatusCompleted else db.StatusAbandoned), res)
        ∧ (res = none →
            db.statusOf (r.Run env e opts).engine.table session.ID
              = some (if ptyError env.pty = none then db.StatusCompleted
                      else db.StatusAbandoned)))
    ∧ (ptyError env.pty = none ↔
        ((∃ pid, env.pty.start = .ok pid) ∧ env.pty.createOutput = none
          ∧ ¬ (env.pty.stdinIsTerminal = true ∧ env.pty.raw0 = none) ∧ env.pty.wait = none)) := by
  have hrun := Run_after_create r env e opts session workDir hprep hcreate
  rw [latePushes_nil r session env.pty _ hlate] at hrun
  rw [hrun]
  refine ⟨rfl,
    ⟨((r.runWithPTY (e.CreateSession env.now session).1 (r.command env opts workDir) session
        env.pty).engine.UpdateSessionStatus env.finishedAt session.ID
        (if ptyError env.pty = none then db.StatusCompleted else db.StatusAbandoned)).2,
      ?_, ?_⟩, ?_⟩
  · dsimp only
    rw [List.append_nil]
    exact List.getLast?_concat _
  · intro hres
    apply db.statusOf_Engine_UpdateSessionStatus _ _ _ _ _ hres
    rw [idTaken_runWithPTY]
    exact db.idTaken_Engine_CreateSession e env.now session hcreate
  · unfold ptyError
    cases hs : env.pty.start with
    | error err => simp
    | ok pid =>
      cases hc : env.pty.createOutput with
      | some err => simp
      | none =>
        by_cases hr : env.pty.stdinIsTerminal = true ∧ env.pty.raw0 = none
        · simp [hr]
        · simp [hr]

/-- The session record of the example run. -/
theorem exampleRunner_prepare :
    exampleRunner.prepare exampleEnvironment plainOptions
      = .ok ({ ID := "abc12345", CreatedAt := 0, UpdatedAt := 0, WorkflowType := "general",
               Status := "waiting", WorkingDirectory := "/home/user/project",
               TaskDescription := "", Prefix := "", ClaudeSessionID := "",
               TmuxSession := "main", TmuxWindow := 0, TmuxPane := 1,
               OutputFile := "/home/user/.config/cmt/output/abc12345.log", PID := 0,
               DeletedAt := none }, "/home/user/project") := by
  rfl

set_option maxRecDepth 100000 in
/-- C11, evaluated on the code: a clean run whose child prints and exits at once, so
that the output-copy goroutine hands its output to onOutput after cmd.Wait has
returned and Run has written completed. The PTY run returns no error and Run
returns nil; the calls to the store after the insert are the pid update, the
final write of completed, and then the push of working by onOutput, which is the
last status written for the session; the row is left working, not completed. -/
theorem Run_final_status_overwritten :
    ptyError racePty = none
    ∧ (exampleRunner.Run { exampleEnvironment with pty := racePty }
        { table := db.emptyDB, failures := [] } plainOptions).err = none
    ∧ ((exampleRunner.Run { exampleEnvironment with pty := racePty }
        { table := db.emptyDB, failures := [] } plainOptions).calls.drop 1
      = [(StoreCall.updateSessionPID "abc12345" 4242, none),
         (StoreCall.updateSessionStatus "abc12345" "completed", none),
         (StoreCall.updateSessionStatus "abc12345" "working", none)])
    ∧ db.statusOf
        (exampleRunner.Run { exampleEnvironment with pty := racePty }
          { table := db.emptyDB, failures := [] } plainOptions).engine.table "abc12345"
      = some "working" := by
  decide

/-- C12. For every run options, runner and store, when the TMUX environment variable is
unset or empty, Run returns the error cmt requires tmux: not running inside tmux,
whose message contains tmux, makes no call to the store and leaves it as it was:
no session row is created. -/
theorem Run_requires_tmux (r : Runner) (env : Environment) (e : db.Engine) (opts : RunOptions)
    (h : env.TMUX = "") :
    (r.Run env e opts).err = some ("cmt requires " ++ "tmux" ++ ": not running inside tmux")
    ∧ (r.Run env e opts).engine = e
    ∧ (r.Run env e opts).calls = [] := by
  have hprep : r.prepare env opts = .error "cmt requires tmux: not running inside tmux" := by
    unfold Runner.prepare tmux.RequireTmux tmux.InTmux
    simp [h, tmux.ErrNotInTmux]
  have hrun : r.Run env e opts
      = { engine := e, err := some "cmt requires tmux: not running inside tmux", calls := [],
          command := none } := by
    simp only [Runner.Run, hprep]
  rw [hrun]
  exact ⟨rfl, rfl, rfl⟩

/-- Witness for C12: the example environment with TMUX unset, on a store with six rows. -/
theorem Run_requires_tmux_witness :
    (exampleRunner.Run { exampleEnvironment with TMUX := "" }
        { table := db.recoveryExample, failures := [] } plainOptions).err
      = some "cmt requires tmux: not running inside tmux"
    ∧ (exampleRunner.Run { exampleEnvironment with TMUX := "" }
        { table := db.recoveryExample, failures := [] } plainOptions).engine
      = { table := db.recoveryExample, failures := [] } :=
  ⟨(Run_requires_tmux exampleRunner { exampleEnvironment with TMUX := "" }
      { table := db.recoveryExample, failures := [] } plainOptions rfl).1,
   (Run_requires_tmux exampleRunner { exampleEnvironment with TMUX := "" }
      { table := db.recoveryExample, failures := [] } plainOptions rfl).2.1⟩

/-- C13 as stated fails: in a clean run in which the engine fails the final status
update (database is locked), that error is the result of the last store call, Run
returns nil, and the row is left waiting. -/
theorem Run_drops_status_failure :
    (exampleRunner.Run exampleEnvironment
        { table := db.emptyDB, failures := [none, none, none, none, some "database is locked"] }
        plainOptions).calls.getLast?
      = some (StoreCall.updateSessionStatus "abc12345" "completed",
              some "update session status: database is locked")
    ∧ (exampleRunner.Run exampleEnvironment
        { table := db.emptyDB, failures := [none, none, none, none, some "database is locked"] }
        plainOptions).err = none
    ∧ db.statusOf
        (exampleRunner.Run exampleEnvironment
          { table := db.emptyDB,
            failures := [none, none, none, none, some "database is locked"] }
          plainOptions).engine.table "abc12345" = some "waiting" := by
  decide

/-- C13 amended: of the store failures of a run, only the failure to create the session
row is returned to the caller of Run: Run then returns it as create session:
followed by the store's error and makes no other call to the store. Once the row
is created, Run returns exactly the error of the PTY run, whatever the store
returns for the pid update, for the working and waiting pushes and for the final
status update. -/
theorem Run_store_failures (r : Runner) (env : Environment) (e : db.Engine) (opts : RunOptions)
    (session : db.Session) (workDir : String)
    (hprep : r.prepare env opts = .ok (session, workDir)) :
    (∀ err, (e.CreateSession env.now session).2 = some err →
        (r.Run env e opts).err = some ("create session: " ++ err)
        ∧ (r.Run env e opts).calls = [(StoreCall.createSession session, some err)])
    ∧ ((e.CreateSession env.now session).2 = none →
        (r.Run env e opts).err = ptyError env.pty
        ∧ ∀ later : List (Option String),
            (r.Run env { e with failures := none :: later } opts).err = ptyError env.pty) := by
  constructor
  · intro err herr
    have hrun : r.Run env e opts
        = { engine := (e.CreateSession env.now session).1,
            err := some ("create session: " ++ err),
            calls := [(StoreCall.createSession session, some err)], command := none } := by
      simp only [Runner.Run, hprep, herr]
    rw [hrun]
    exact ⟨rfl, rfl⟩
  · intro hcreate
    refine ⟨by rw [Run_after_create r env e opts session workDir hprep hcreate], ?_⟩
    intro later
    have hc : (db.Engine.CreateSession { e with failures := none :: later } env.now session).2
        = none := by
      have h0 := hcreate
      unfold db.Engine.CreateSession db.Engine.next at h0 ⊢
      rcases hf : e.failures with _ | ⟨v, rest⟩
      · simp only [hf] at h0
        simp only
        cases hcs : db.CreateSession e.table env.now session with
        | ok t => rfl
        | error msg => simp [hcs] at h0
      · cases v with
        | some msg => simp [hf] at h0
        | none =>
          simp only [hf] at h0
          simp only
          cases hcs : db.CreateSession e.table env.now session with
          | ok t => rfl
          | error msg => simp [hcs] at h0
    rw [Run_after_create r env _ opts session workDir hprep hc]

/-- Witness for C13 amended: the engine fails the insert of the session row. -/
theorem Run_store_failures_witness :
    (exampleRunner.Run exampleEnvironment
        { table := db.emptyDB, failures := [some "database is locked"] } plainOptions).err
      = some ("create session: " ++ "insert session: database is locked") :=
  ((Run_store_failures exampleRunner exampleEnvironment
      { table := db.emptyDB, failures := [some "database is locked"] } plainOptions _ _
      exampleRunner_prepare).1 "insert session: database is locked" rfl).1

end claude

namespace claude

/-! ## Prompt prefixes -/

theorem sprintfChars_one_verb (pre post : List Char) (arg : String) (h : '%' ∉ pre) :
    sprintfChars (pre ++ '%' :: 's' :: post) arg = pre ++ arg.data ++ post := by
  induction pre with
  | nil => simp [sprintfChars]
  | cons c rest ih =>
    have hc : c ≠ '%' := fun hc => h (by simp [hc])
    have hrest : '%' ∉ rest := fun hr => h (by simp [hr])
    have hstep : sprintfChars (c :: (rest ++ '%' :: 's' :: post)) arg
        = c :: sprintfChars (rest ++ '%' :: 's' :: post) arg := by
      rw [sprintfChars]
      intro s hs
      exact absurd hs hc
    rw [List.cons_append, hstep, ih hrest]
    simp

theorem lookup_none_iff_no_key (k : String) (l : List (String × String)) :
    l.lookup k = none ↔ k ∉ l.map Prod.fst := by
  induction l with
  | nil => simp
  | cons p rest ih =>
    obtain ⟨a, b⟩ := p
    by_cases h : k = a
    · simp [List.lookup, h]
    · have hb : (k == a) = false := by simpa using h
      simp [List.lookup, hb, h, ih]

theorem Sprintf_one_verb (pre post arg : String) (h : '%' ∉ pre.data) :
    Sprintf (pre ++ "%s" ++ post) arg = pre ++ arg ++ post := by
  unfold Sprintf
  apply String.ext
  have hd : (pre ++ "%s" ++ post).data = pre.data ++ '%' :: 's' :: post.data := by
    simp [String.data_append]
  rw [hd, sprintfChars_one_verb _ _ _ h]
  simp [String.data_append]

set_option maxRecDepth 100000 in
/-- C25. For every command and comment tag: GetPromptPrefix of look-and-fix is the
look-and-fix entry of the table with its %s replaced by the tag, by CMT when the tag
is empty, so that comments tagged with is followed by that tag; for every other
command the result is the table's entry for it, the same for every comment tag, and
the empty string when the table has no entry; the table has entries for exactly the
seven commands. -/
theorem GetPromptPrefix_result (cmd : CommandType) (t : String) :
    promptPrefixes.lookup CommandLookAndFix
      = some ("Take a look at this repo and search for comments tagged with " ++ "%s"
          ++ " and propose how to solve them. If a class name or filename is provided as a parameter, focus the search on that specific file or class.")
    ∧ GetPromptPrefix CommandLookAndFix t
      = "Take a look at this repo and search for comments tagged with "
          ++ (if t = "" then "CMT" else t)
          ++ " and propose how to solve them. If a class name or filename is provided as a parameter, focus the search on that specific file or class."
    ∧ GetPromptPrefix cmd t
      = (if cmd = CommandLookAndFix then GetPromptPrefix CommandLookAndFix t
         else (promptPrefixes.lookup cmd).getD "")
    ∧ GetPromptPrefix CommandNew t = ""
    ∧ GetPromptPrefix CommandResearch t = "/research_codebase"
    ∧ GetPromptPrefix CommandPlan t = "/create_plan"
    ∧ GetPromptPrefix CommandImplement t
      = "/implement_plan implement all phases ignoring any manual verification steps"
    ∧ GetPromptPrefix CommandFixTest t = "Analyze and fix the failing test at:"
    ∧ GetPromptPrefix CommandQuick t = ""
    ∧ (promptPrefixes.lookup cmd = none
        ↔ cmd ∉ [CommandNew, CommandResearch, CommandPlan, CommandImplement, CommandFixTest,
                  CommandLookAndFix, CommandQuick]) := by
  have hlook : promptPrefixes.lookup CommandLookAndFix
      = some ("Take a look at this repo and search for comments tagged with " ++ "%s"
          ++ " and propose how to solve them. If a class name or filename is provided as a parameter, focus the search on that specific file or class.") := by
    decide
  have hgen : GetPromptPrefix cmd t
      = (if cmd = CommandLookAndFix then GetPromptPrefix CommandLookAndFix t
         else (promptPrefixes.lookup cmd).getD "") := by
    by_cases hc : cmd = CommandLookAndFix
    · simp [hc]
    · unfold GetPromptPrefix
      cases promptPrefixes.lookup cmd <;> simp [hc]
  have hfixed : ∀ c : CommandType, c ≠ CommandLookAndFix →
      GetPromptPrefix c t = (promptPrefixes.lookup c).getD "" := by
    intro c hc
    unfold GetPromptPrefix
    cases promptPrefixes.lookup c <;> simp [hc]
  refine ⟨hlook, ?_, hgen, ?_, ?_, ?_, ?_, ?_, ?_, ?_⟩
  · unfold GetPromptPrefix
    rw [hlook]
    simp only [if_true]
    exact Sprintf_one_verb _ _ _ (by decide)
  · rw [hfixed _ (by decide)]; decide
  · rw [hfixed _ (by decide)]; decide
  · rw [hfixed _ (by decide)]; decide
  · rw [hfixed _ (by decide)]; decide
  · rw [hfixed _ (by decide)]; decide
  · rw [hfixed _ (by decide)]; decide
  · rw [lookup_none_iff_no_key]
    rfl

end claude

namespace cli

/-! ## The quick command, file flags and path shortening -/

/-- C22, evaluated on the code: for every prompt the run options that QuickCmd.Run hands
to the runner have PrintMode true and Model "haiku", not "sonnet", although the
comment on QuickCmd and the help text of the command say that it uses Sonnet; the
command built from them passes the model haiku. -/
theorem QuickCmd_uses_haiku (c : QuickCmd) (cli : CLI) (runner : claude.Runner)
    (data : String) :
    (∀ prompt, (QuickCmd.options cli prompt).PrintMode = true
        ∧ (QuickCmd.options cli prompt).Model = "haiku"
        ∧ (QuickCmd.options cli prompt).Model ≠ "sonnet")
    ∧ c.Run cli (.ok data) (.ok runner)
        = .ok (runner, QuickCmd.options cli (if c.Prompt = "-" then data else c.Prompt))
    ∧ (claude.buildCommand
        (QuickCmd.options { DB := "", Verbose := false, Autonomous := false } "hello")).Args
        = ["claude", "--model", "haiku", "-p", "hello"] := by
  refine ⟨?_, ?_, by decide⟩
  · intro prompt
    refine ⟨rfl, rfl, ?_⟩
    show "haiku" ≠ "sonnet"
    decide
  · unfold QuickCmd.Run
    by_cases h : c.Prompt = "-" <;> simp [h]

theorem stringsJoin_append_one (files : List String) (hne : files ≠ []) (sep task : String) :
    stringsJoin (files ++ [task]) sep = stringsJoin files sep ++ sep ++ task := by
  induction files with
  | nil => exact absurd rfl hne
  | cons a rest ih =>
    cases rest with
    | nil => simp [stringsJoin]
    | cons b rest' =>
      have h := ih (by simp)
      show a ++ sep ++ stringsJoin ((b :: rest') ++ [task]) sep
        = a ++ sep ++ stringsJoin (b :: rest') sep ++ sep ++ task
      rw [h]
      simp [String.append_assoc]

/-- C23. For every list of file paths and every task string, PrependFilesToTask returns
the task unchanged when the list is empty, and otherwise the paths in their given
order joined by single spaces, followed by one space and the task; so with an
empty task the result is the joined paths and one trailing space. -/
theorem PrependFilesToTask_result (files : List String) (task : String) :
    PrependFilesToTask [] task = task
    ∧ PrependFilesToTask files task
        = (if files = [] then task else stringsJoin files " " ++ " " ++ task)
    ∧ PrependFilesToTask files ""
        = (if files = [] then "" else stringsJoin files " " ++ " ")
    ∧ stringsJoin [] " " = ""
    ∧ (∀ a : String, stringsJoin [a] " " = a)
    ∧ (∀ (a b : String) (rest : List String),
        stringsJoin (a :: b :: rest) " " = a ++ " " ++ stringsJoin (b :: rest) " ") := by
  have hmain : ∀ t : String, PrependFilesToTask files t
      = (if files = [] then t else stringsJoin files " " ++ " " ++ t) := by
    intro t
    unfold PrependFilesToTask
    by_cases h : files = []
    · simp [h]
    · have hlen : files.length ≠ 0 := by
        intro h0
        exact h (List.length_eq_zero.mp h0)
      simp only [hlen, h, if_false]
      exact stringsJoin_append_one files h " " t
  refine ⟨rfl, hmain task, ?_, rfl, fun _ => rfl, fun _ _ _ => rfl⟩
  rw [hmain ""]
  by_cases h : files = [] <;> simp [h]

theorem resolveDirect_eq (notExist : String → Bool) (files resolved : List String) :
    resolveDirect notExist files resolved
      = match files.find? notExist with
        | none => .ok (resolved ++ files)
        | some p => .error ("file not found: " ++ p) := by
  induction files generalizing resolved with
  | nil => simp [resolveDirect]
  | cons file rest ih =>
    by_cases h : notExist file = true
    · simp [resolveDirect, h]
    · simp only [resolveDirect, h, List.find?_cons]
      rw [ih]
      cases rest.find? notExist <;> simp

/-- C24. For every FileFlags with no -d directories and no -t count and for every
file-existence test: when no path of Files is reported missing, ResolveFiles
returns exactly Files in the same order and no error (the empty list for empty
Files); otherwise it returns the error file not found: followed by the first
path of Files that is missing, and no list. -/
theorem ResolveFiles_direct_files (f : FileFlags) (notExist : String → Bool)
    (selectFile : Nat → String → Except String String)
    (hd : f.Dirs = []) (ht : f.Thoughts ≤ 0) :
    f.ResolveFiles notExist selectFile
      = match f.Files.find? notExist with
        | none => .ok f.Files
        | some p => .error ("file not found: " ++ p) := by
  unfold FileFlags.ResolveFiles
  rw [resolveDirect_eq, hd]
  have h0 : f.Thoughts.toNat = 0 := by omega
  cases hf : f.Files.find? notExist with
  | none => simp [resolveDirs, resolveThoughts, h0]
  | some p => simp

/-- Witness for C24: two files given, the second one missing. -/
theorem ResolveFiles_direct_files_witness :
    ({ Files := ["file1.md", "/nonexistent/path/to/file.md", "file3.md"], Dirs := [],
       Thoughts := 0 } : FileFlags).ResolveFiles
        (fun p => p == "/nonexistent/path/to/file.md" || p == "file3.md")
        (fun _ _ => .error "no file selected")
      = .error "file not found: /nonexistent/path/to/file.md" :=
  ResolveFiles_direct_files _ _ _ rfl (by decide)

/-- A path longer than a maxLen below 3 makes shortenPath panic. -/
theorem shortenPath_panics (path : List UInt8) (maxLen : Int) (h : maxLen < 3)
    (hlen : maxLen < (path.length : Int)) :
    shortenPath path maxLen = .error "panic: runtime error: slice bounds out of range" := by
  unfold shortenPath
  have hle : ¬ (path.length : Int) ≤ maxLen := by omega
  have hgt : (path.length : Int) > maxLen := by omega
  have hstart : (path.length : Int) - maxLen + 3 < 0
      ∨ (path.length : Int) - maxLen + 3 > (path.length : Int) := by omega
  simp [hle, hgt, hstart]

/-- C26 amended: for every path and every maxLen of at least 3 (the one call of
shortenPath, in the sessions list, passes 30), shortenPath returns a string of at
most maxLen bytes: the path itself when it is no longer than maxLen, and otherwise
three dots followed by the path without its first len - maxLen + 3 bytes, which
has exactly maxLen bytes. -/
theorem shortenPath_fits (path : List UInt8) (maxLen : Int) (h : 3 ≤ maxLen) :
    ∃ s, shortenPath path maxLen = .ok s ∧ (s.length : Int) ≤ maxLen
      ∧ ((path.length : Int) ≤ maxLen → s = path)
      ∧ (maxLen < (path.length : Int) →
          s = threeDots ++ path.drop ((path.length : Int) - maxLen + 3).toNat
          ∧ (s.length : Int) = maxLen) := by
  unfold shortenPath
  by_cases hle : (path.length : Int) ≤ maxLen
  · exact ⟨path, by simp [hle], hle, fun _ => rfl, fun hlt => absurd hle (by omega)⟩
  · have hgt : (path.length : Int) > maxLen := by omega
    have hstart : ¬ ((path.length : Int) - maxLen + 3 < 0
        ∨ (path.length : Int) - maxLen + 3 > (path.length : Int)) := by omega
    have hlen : ((threeDots ++ path.drop ((path.length : Int) - maxLen + 3).toNat).length : Int)
        = maxLen := by
      simp only [List.length_append, List.length_drop, threeDots, List.length_cons,
        List.length_nil]
      omega
    refine ⟨threeDots ++ path.drop ((path.length : Int) - maxLen + 3).toNat, ?_, ?_, ?_, ?_⟩
    · simp [hle, hgt, hstart]
    · omega
    · intro h'
      exact absurd h' hle
    · intro _
      exact ⟨rfl, hlen⟩

/-- Witness for C26 amended: the 6-byte path abcdef with maxLen 5 gives the three dots
and the last two bytes. -/
theorem shortenPath_fits_witness :
    ∃ s, shortenPath [0x61, 0x62, 0x63, 0x64, 0x65, 0x66] 5 = .ok s
      ∧ (s.length : Int) ≤ 5
      ∧ s = [0x2e, 0x2e, 0x2e, 0x65, 0x66] := by
  obtain ⟨s, hs, hle, _, hcut⟩ :=
    shortenPath_fits [0x61, 0x62, 0x63, 0x64, 0x65, 0x66] 5 (by decide)
  exact ⟨s, hs, hle, (hcut (by decide)).1.trans (by decide)⟩

/-- C26 as stated fails: for the 4-byte path abcd and maxLen 2 the slice expression
starts at 5, past the end of the string, and shortenPath panics instead of
returning a string of at most 2 bytes; the same for maxLen 0 and for a negative
maxLen. With maxLen 3 it returns the three dots. -/
theorem shortenPath_panics_below_three :
    shortenPath [0x61, 0x62, 0x63, 0x64] 2
        = .error "panic: runtime error: slice bounds out of range"
    ∧ shortenPath [0x61, 0x62, 0x63, 0x64] 0
        = .error "panic: runtime error: slice bounds out of range"
    ∧ shortenPath [0x61] (-1)
        = .error "panic: runtime error: slice bounds out of range"
    ∧ shortenPath [0x61, 0x62, 0x63, 0x64] 3 = .ok [0x2e, 0x2e, 0x2e] :=
  ⟨rfl, rfl, rfl, rfl⟩

end cli

namespace tui

/-! ## Layout of the dashboard -/

/-- C29 as stated fails: with the info panel shown and a terminal of 5 lines the list
height is clamped to 5, which is not less than the terminal height; on a terminal
of 3 lines it is larger. -/
theorem contentHeight_clamped_at_five :
    ({ NewDashboard with showInfo := true, height := 5 }).contentHeight = 5
    ∧ ¬ ({ NewDashboard with showInfo := true, height := 5 }).contentHeight
        < ({ NewDashboard with showInfo := true, height := 5 }).height
    ∧ ({ NewDashboard with showInfo := true, height := 3 }).contentHeight = 5 := by
  decide

/-- C29 amended: for every dashboard whose height is a Go int. With the info panel
hidden contentHeight is the height minus 5 for every height from 0 on, and it is
less than the height for every height except the 5 lowest ints. With the panel
shown it is the larger of 5 and the height minus 26 for every height from 0 on,
and it is less than the height exactly when the height is above 5. -/
theorem contentHeight_below_height (d : Dashboard)
    (hlo : -9223372036854775808 ≤ d.height) (hhi : d.height < 9223372036854775808) :
    (d.showInfo = false →
        (0 ≤ d.height → d.contentHeight = d.height - 5)
        ∧ (d.contentHeight < d.height ↔ -9223372036854775808 + 5 ≤ d.height))
    ∧ (d.showInfo = true →
        (0 ≤ d.height → d.contentHeight = max 5 (d.height - 26))
        ∧ 5 ≤ d.contentHeight
        ∧ (d.contentHeight < d.height ↔ 5 < d.height)) := by
  constructor
  · intro hs
    simp only [Dashboard.contentHeight, hs, wrapInt]
    constructor
    · intro h0
      simp only [Bool.false_eq_true, if_false]
      omega
    · simp only [Bool.false_eq_true, if_false]
      omega
  · intro hs
    simp only [Dashboard.contentHeight, hs, wrapInt, if_true]
    refine ⟨?_, ?_, ?_⟩
    · intro h0
      split <;> omega
    · split <;> omega
    · split <;> omega

/-- Witness for C29 amended: a terminal of 40 lines with the info panel shown. -/
theorem contentHeight_below_height_witness :
    ({ NewDashboard with showInfo := true, height := 40 }).contentHeight = max 5 (40 - 26)
    ∧ ({ NewDashboard with showInfo := true, height := 40 }).contentHeight < 40 :=
  ⟨((contentHeight_below_height { NewDashboard with showInfo := true, height := 40 }
      (by decide) (by decide)).2 rfl).1 (by decide),
   ((contentHeight_below_height { NewDashboard with showInfo := true, height := 40 }
      (by decide) (by decide)).2 rfl).2.2.2 (by decide)⟩

/-- The five fixed columns as a function of the available width. -/
theorem getVisibleColumns_flags (width : Int) :
    (getVisibleColumns width).id = true
    ∧ (getVisibleColumns width).status = decide (22 ≤ wrapInt (width - 6))
    ∧ (getVisibleColumns width).workflow
        = decide (wrapInt (width - 6) = 21 ∨ 33 ≤ wrapInt (width - 6))
    ∧ (getVisibleColumns width).age
        = decide ((19 ≤ wrapInt (width - 6) ∧ wrapInt (width - 6) ≤ 20)
            ∨ (31 ≤ wrapInt (width - 6) ∧ wrapInt (width - 6) ≤ 32)
            ∨ 42 ≤ wrapInt (width - 6))
    ∧ (getVisibleColumns width).prefixCol = decide (63 ≤ wrapInt (width - 6)) := by
  unfold getVisibleColumns
  generalize wrapInt (width - 6) = a
  simp only [colIDWidth, colStatusWidth, colWorkflowWidth, colAgeWidth, colPrefixWidth]
  by_cases h1 : (10 : Int) + 1 + 11 ≤ a
  · by_cases h2 : (10 : Int) + (1 + 11) + 1 + 10 ≤ a
    · by_cases h3 : (10 : Int) + (1 + 11) + (1 + 10) + 1 + 6 + 2 ≤ a
      · by_cases h4 : (10 : Int) + (1 + 11) + (1 + 10) + (1 + 6 + 2) + 1 + 20 ≤ a
        · simp only [h1, h2, h3, h4, if_true]
          split <;> simp <;> omega
        · simp only [h1, h2, h3, h4, if_true, if_false]
          split <;> simp <;> omega
      · have h4 : ¬ (10 : Int) + (1 + 11) + (1 + 10) + 1 + 20 ≤ a := by omega
        simp only [h1, h2, h3, h4, if_true, if_false]
        split <;> simp <;> omega
    · by_cases h3 : (10 : Int) + (1 + 11) + 1 + 6 + 2 ≤ a
      · have h4 : ¬ (10 : Int) + (1 + 11) + (1 + 6 + 2) + 1 + 20 ≤ a := by omega
        simp only [h1, h2, h3, h4, if_true, if_false]
        split <;> simp <;> omega
      · have h4 : ¬ (10 : Int) + (1 + 11) + 1 + 20 ≤ a := by omega
        simp only [h1, h2, h3, h4, if_true, if_false]
        split <;> simp <;> omega
  · by_cases h2 : (10 : Int) + 1 + 10 ≤ a
    · have h3 : ¬ (10 : Int) + (1 + 10) + 1 + 6 + 2 ≤ a := by omega
      have h4 : ¬ (10 : Int) + (1 + 10) + 1 + 20 ≤ a := by omega
      simp only [h1, h2, h3, h4, if_true, if_false]
      split <;> simp <;> omega
    · by_cases h3 : (10 : Int) + 1 + 6 + 2 ≤ a
      · have h4 : ¬ (10 : Int) + (1 + 6 + 2) + 1 + 20 ≤ a := by omega
        simp only [h1, h2, h3, h4, if_true, if_false]
        split <;> simp <;> omega
      · have h4 : ¬ (10 : Int) + 1 + 20 ≤ a := by omega
        simp only [h1, h2, h3, h4, if_true, if_false]
        split <;> simp <;> omega

/-- C30 as stated fails: at width 25 the age column is visible although the status and
workflow columns are not, at width 27 the workflow column is visible without the
status column, and at width 37 the age column is visible without the workflow
column. -/
theorem getVisibleColumns_skips_columns :
    getVisibleColumns 25
      = { id := true, status := false, workflow := false, age := true, prefixCol := false,
          prompt := false, promptWidth := 0 }
    ∧ getVisibleColumns 27
      = { id := true, status := false, workflow := true, age := false, prefixCol := false,
          prompt := false, promptWidth := 0 }
    ∧ getVisibleColumns 37
      = { id := true, status := true, workflow := false, age := true, prefixCol := false,
          prompt := false, promptWidth := 0 } := by
  decide

/-- C30 amended: for every width, with the available width being the width minus 6 as
a Go int: the id column is always visible; each of the other four columns is
visible exactly when it fits beside the columns made visible before it, that is
status from 22 on, workflow at 21 and from 33 on, age at 19, 20, 31, 32 and from
42 on, and the fifth column from 63 on. So the fifth column is visible only
together with all columns before it, and every visible column has all columns
before it visible exactly when the available width is none of 19, 20, 21, 31
and 32. -/
theorem getVisibleColumns_visible_iff (width : Int) :
    (getVisibleColumns width).id = true
    ∧ ((getVisibleColumns width).status = true ↔ 22 ≤ wrapInt (width - 6))
    ∧ ((getVisibleColumns width).workflow = true
        ↔ wrapInt (width - 6) = 21 ∨ 33 ≤ wrapInt (width - 6))
    ∧ ((getVisibleColumns width).age = true
        ↔ (19 ≤ wrapInt (width - 6) ∧ wrapInt (width - 6) ≤ 20)
          ∨ (31 ≤ wrapInt (width - 6) ∧ wrapInt (width - 6) ≤ 32)
          ∨ 42 ≤ wrapInt (width - 6))
    ∧ ((getVisibleColumns width).prefixCol = true ↔ 63 ≤ wrapInt (width - 6))
    ∧ ((getVisibleColumns width).prefixCol = true →
        (getVisibleColumns width).status = true ∧ (getVisibleColumns width).workflow = true
        ∧ (getVisibleColumns width).age = true)
    ∧ ((((getVisibleColumns width).workflow = true → (getVisibleColumns width).status = true)
        ∧ ((getVisibleColumns width).age = true → (getVisibleColumns width).workflow = true)
        ∧ ((getVisibleColumns width).prefixCol = true → (getVisibleColumns width).age = true))
        ↔ wrapInt (width - 6) ∉ [19, 20, 21, 31, 32]) := by
  obtain ⟨hid, hst, hwf, hage, hpre⟩ := getVisibleColumns_flags width
  rw [hst, hwf, hage, hpre]
  generalize wrapInt (width - 6) = a
  simp only [decide_eq_true_eq, List.mem_cons, List.mem_singleton, List.not_mem_nil, or_false]
  refine ⟨hid, trivial, trivial, trivial, trivial, ?_, ?_⟩
  · intro h
    omega
  · constructor
    · intro ⟨h1, h2, h3⟩
      omega
    · intro h
      refine ⟨?_, ?_, ?_⟩ <;> intro h' <;> omega

end tui

namespace tui

/-! ## sortSessions -/

theorem sessionLess_total (a b : db.Session) :
    ¬ sessionLess b a = true ∨ ¬ sessionLess a b = true := by
  unfold sessionLess
  cases isRunning a <;> cases isRunning b <;> simp <;> omega

theorem sessionLess_trans (a b c : db.Session)
    (hab : ¬ sessionLess b a = true) (hbc : ¬ sessionLess c b = true) :
    ¬ sessionLess c a = true := by
  unfold sessionLess at *
  cases ha : isRunning a <;> cases hb : isRunning b <;> cases hc : isRunning c <;>
    simp [ha, hb, hc] at hab hbc ⊢ <;> omega

theorem sortSlice_perm (l : List db.Session) : (sortSlice l).Perm l :=
  List.perm_insertionSort _ l

theorem sortSlice_pairwise (l : List db.Session) :
    (sortSlice l).Pairwise fun a b => ¬ sessionLess b a = true := by
  haveI : IsTotal db.Session (fun a b => ¬ sessionLess b a = true) :=
    ⟨fun a b => sessionLess_total a b⟩
  haveI : IsTrans db.Session (fun a b => ¬ sessionLess b a = true) :=
    ⟨fun a b c => sessionLess_trans a b c⟩
  exact List.sorted_insertionSort (fun a b => ¬ sessionLess b a = true) l

theorem sortSessions_snd (l : List db.Session) : (sortSessions l).2 = sortSlice l := by
  unfold sortSessions
  cases l with
  | nil => rfl
  | cons a rest => simp

theorem sortSessions_length (l : List db.Session) : (sortSessions l).2.length = l.length := by
  rw [sortSessions_snd]
  exact (sortSlice_perm l).length_eq

/-- C28. For every list of sessions: the slice sortSessions returns is a permutation of
the input; in it no session with another status stands before a session whose
status is waiting or working; of two sessions of the same group the one standing
first was not created earlier than the other; and the caller's slice holds the
input in its original order after the call. -/
theorem sortSessions_running_first_newest_first (sessions : List db.Session) :
    (sortSessions sessions).2.Perm sessions
    ∧ (sortSessions sessions).2.Pairwise
        (fun a b => ¬ (isRunning a = false ∧ isRunning b = true))
    ∧ (sortSessions sessions).2.Pairwise
        (fun a b => isRunning a ≠ isRunning b ∨ b.CreatedAt ≤ a.CreatedAt)
    ∧ (sortSessions sessions).1 = sessions
    ∧ (∀ s : db.Session,
        isRunning s = true ↔ (s.Status = db.StatusWaiting ∨ s.Status = db.StatusWorking)) := by
  rw [sortSessions_snd]
  refine ⟨sortSlice_perm sessions, ?_, ?_, ?_, ?_⟩
  · refine (sortSlice_pairwise sessions).imp ?_
    intro a b h
    unfold sessionLess at h
    cases ha : isRunning a <;> cases hb : isRunning b <;> simp [ha, hb] at h ⊢
  · refine (sortSlice_pairwise sessions).imp ?_
    intro a b h
    unfold sessionLess at h
    cases ha : isRunning a <;> cases hb : isRunning b <;> simp [ha, hb] at h ⊢ <;> omega
  · unfold sortSessions
    split <;> rfl
  · intro s
    simp [isRunning]

/-! ## The selection of the dashboard -/

theorem index_ok (l : List db.Session) (i : Int) (h0 : 0 ≤ i) (h1 : i < (l.length : Int)) :
    ∃ s, index l i = .ok s ∧ l[i.toNat]? = some s := by
  have hlt : i.toNat < l.length := by omega
  refine ⟨l[i.toNat], ?_, ?_⟩
  · unfold index
    have hn : ¬ i < 0 := by omega
    simp only [hn, if_false, List.getElem?_eq_getElem hlt]
  · exact List.getElem?_eq_getElem hlt

theorem updateInfoContent_ok (d : Dashboard) (h0 : 0 ≤ d.selected) :
    ∃ v, d.updateInfoContent = .ok { d with infoViewport := v } := by
  unfold Dashboard.updateInfoContent
  by_cases hc : d.sessions.length = 0 ∨ d.selected ≥ (d.sessions.length : Int)
  · exact ⟨d.infoViewport.SetContent .noSession, by simp only [hc, if_true]⟩
  · have hlt : d.selected < (d.sessions.length : Int) := by omega
    obtain ⟨s, hs, _⟩ := index_ok d.sessions d.selected h0 hlt
    exact ⟨d.infoViewport.SetContent (.details s), by simp only [hc, if_false, hs]⟩

theorem refreshInfo_selectionOk (d : Dashboard) (store : db.DB) (h : selectionOk d) :
    ∃ r, d.refreshInfo store = .ok r ∧ selectionOk r.model ∧ r.store = store := by
  obtain ⟨v, hv⟩ := updateInfoContent_ok d h.1
  unfold Dashboard.refreshInfo
  rw [hv]
  exact ⟨_, rfl, h, rfl⟩

theorem updateKey_selectionOk (d : Dashboard) (store : db.DB) (ts : Nat) (k : String)
    (h : selectionOk d) :
    ∃ r, d.updateKey store ts k = .ok r ∧ selectionOk r.model := by
  obtain ⟨h0, h1⟩ := h
  have hidx : d.hasSelection → ∃ s, index d.sessions d.selected = .ok s := by
    intro hsel
    obtain ⟨s, hs, _⟩ := index_ok d.sessions d.selected h0 hsel.2
    exact ⟨s, hs⟩
  unfold Dashboard.updateKey
  by_cases hq : k = "q" ∨ k = "ctrl+c"
  · rw [if_pos hq]
    exact ⟨_, rfl, h0, h1⟩
  rw [if_neg hq]
  by_cases htab : k = "tab"
  · rw [if_pos htab]
    refine ⟨_, rfl, ?_⟩
    by_cases hs : d.showInfo = true
    · simp only [hs, if_true]
      exact ⟨h0, h1⟩
    · simp only [hs, if_false]
      exact ⟨h0, h1⟩
  rw [if_neg htab]
  by_cases hj : k = "j" ∨ k = "down"
  · rw [if_pos hj]
    by_cases hc : d.focus = focusList ∧ d.selected < (d.sessions.length : Int) - 1
    · rw [if_pos hc]
      have hd : selectionOk { d with selected := d.selected + 1 } := by
        refine ⟨?_, Or.inr ?_⟩
        · show 0 ≤ d.selected + 1
          omega
        · show d.selected + 1 < (d.sessions.length : Int)
          omega
      obtain ⟨r, hr, hok, _⟩ := refreshInfo_selectionOk _ store hd
      exact ⟨r, hr, hok⟩
    · rw [if_neg hc]
      by_cases hf : d.focus = focusInfo
      · rw [if_pos hf]
        exact ⟨_, rfl, h0, h1⟩
      · rw [if_neg hf]
        exact ⟨_, rfl, h0, h1⟩
  rw [if_neg hj]
  by_cases hk : k = "k" ∨ k = "up"
  · rw [if_pos hk]
    by_cases hc : d.focus = focusList ∧ d.selected > 0
    · rw [if_pos hc]
      have hd : selectionOk { d with selected := d.selected - 1 } := by
        refine ⟨?_, ?_⟩
        · show 0 ≤ d.selected - 1
          omega
        · rcases h1 with h1 | h1
          · exact Or.inl h1
          · refine Or.inr ?_
            show d.selected - 1 < (d.sessions.length : Int)
            omega
      obtain ⟨r, hr, hok, _⟩ := refreshInfo_selectionOk _ store hd
      exact ⟨r, hr, hok⟩
    · rw [if_neg hc]
      by_cases hf : d.focus = focusInfo
      · rw [if_pos hf]
        exact ⟨_, rfl, h0, h1⟩
      · rw [if_neg hf]
        exact ⟨_, rfl, h0, h1⟩
  rw [if_neg hk]
  by_cases he : k = "enter"
  · rw [if_pos he]
    by_cases hc : d.viewMode = viewNormal ∧ d.focus = focusList ∧ d.hasSelection
    · rw [if_pos hc]
      obtain ⟨s, hs⟩ := hidx hc.2.2
      rw [hs]
      exact ⟨_, rfl, h0, h1⟩
    · rw [if_neg hc]
      exact ⟨_, rfl, h0, h1⟩
  rw [if_neg he]
  by_cases hr : k = "r"
  · rw [if_pos hr]
    exact ⟨_, rfl, h0, h1⟩
  rw [if_neg hr]
  by_cases hi : k = "i"
  · rw [if_pos hi]
    dsimp only
    have hd : ∀ d' : Dashboard, d'.selected = d.selected → d'.sessions = d.sessions →
        ∃ r, d'.refreshInfo store = .ok r ∧ selectionOk r.model := by
      intro d' hsel hses
      obtain ⟨r, hr, hok, _⟩ := refreshInfo_selectionOk d' store
        (by unfold selectionOk; rw [hsel, hses]; exact ⟨h0, h1⟩)
      exact ⟨r, hr, hok⟩
    apply hd
    · split <;> rfl
    · split <;> rfl
  rw [if_neg hi]
  by_cases hs : k = "s"
  · rw [if_pos hs]
    by_cases hc : d.viewMode = viewNormal ∧ d.focus = focusList ∧ d.hasSelection
    · rw [if_pos hc]
      obtain ⟨s, hs⟩ := hidx hc.2.2
      rw [hs]
      by_cases hrun : s.Status = db.StatusWaiting ∨ s.Status = db.StatusWorking
      · simp only [hrun, if_true]
        exact ⟨_, rfl, h0, h1⟩
      · simp only [hrun, if_false]
        exact ⟨_, rfl, h0, h1⟩
    · rw [if_neg hc]
      exact ⟨_, rfl, h0, h1⟩
  rw [if_neg hs]
  by_cases hD : k = "D"
  · rw [if_pos hD]
    by_cases hc : d.viewMode = viewNormal ∧ d.focus = focusList ∧ d.hasSelection
    · rw [if_pos hc]
      obtain ⟨s, hs⟩ := hidx hc.2.2
      rw [hs]
      exact ⟨_, rfl, h0, h1⟩
    · rw [if_neg hc]
      exact ⟨_, rfl, h0, h1⟩
  rw [if_neg hD]
  by_cases hT : k = "T"
  · rw [if_pos hT]
    refine ⟨_, rfl, ?_, ?_⟩
    · show (0 : Int) ≤ 0
      omega
    · by_cases hv : d.viewMode = viewNormal
      · simp only [hv, if_true]
        rcases h1 with h1 | h1
        · exact Or.inl h1
        · refine Or.inr ?_
          show (0 : Int) < (d.sessions.length : Int)
          omega
      · simp only [hv, if_false]
        rcases h1 with h1 | h1
        · exact Or.inl h1
        · refine Or.inr ?_
          show (0 : Int) < (d.sessions.length : Int)
          omega
  rw [if_neg hT]
  by_cases hR : k = "R"
  · rw [if_pos hR]
    by_cases hc : d.viewMode = viewTrash ∧ d.focus = focusList ∧ d.hasSelection
    · rw [if_pos hc]
      obtain ⟨s, hs⟩ := hidx hc.2.2
      rw [hs]
      exact ⟨_, rfl, h0, h1⟩
    · rw [if_neg hc]
      exact ⟨_, rfl, h0, h1⟩
  rw [if_neg hR]
  exact ⟨_, rfl, h0, h1⟩

theorem Update_selectionOk (d : Dashboard) (store : db.DB) (ts : Nat) (msg : Msg)
    (h : selectionOk d) :
    ∃ r, d.Update store ts msg = .ok r ∧ selectionOk r.model := by
  cases msg with
  | key k => exact updateKey_selectionOk d store ts k h
  | windowSize w hgt =>
    unfold Dashboard.Update
    dsimp only
    obtain ⟨r, hr, hok, _⟩ := refreshInfo_selectionOk
      { d with width := w, height := hgt,
               infoViewport := Viewport.New
                 (Dashboard.infoWidth { d with width := w, height := hgt })
                 (Dashboard.infoHeight { d with width := w, height := hgt }) } store h
    exact ⟨r, hr, hok⟩
  | pruneCompleted c e => exact ⟨_, rfl, h⟩
  | sessionsLoaded sessions err =>
    unfold Dashboard.Update
    dsimp only
    have hd : ∀ d' : Dashboard, selectionOk d' →
        ∃ r, d'.refreshInfo store = .ok r ∧ selectionOk r.model := by
      intro d' hsel
      obtain ⟨r, hr, hok, _⟩ := refreshInfo_selectionOk d' store hsel
      exact ⟨r, hr, hok⟩
    apply hd
    by_cases hc : d.selected ≥ ((sortSessions sessions).2.length : Int)
        ∧ (sortSessions sessions).2.length > 0
    · simp only [hc, and_self, if_true]
      refine ⟨?_, Or.inr ?_⟩
      · show (0 : Int) ≤ ((sortSessions sessions).2.length : Int) - 1
        omega
      · show ((sortSessions sessions).2.length : Int) - 1
          < ((sortSessions sessions).2.length : Int)
        omega
    · simp only [hc, if_false]
      refine ⟨h.1, ?_⟩
      show (sortSessions sessions).2 = []
        ∨ d.selected < ((sortSessions sessions).2.length : Int)
      by_cases he : (sortSessions sessions).2 = []
      · exact Or.inl he
      · refine Or.inr ?_
        have hpos : 0 < (sortSessions sessions).2.length := List.length_pos.mpr he
        omega
  | tick t => exact ⟨_, rfl, h⟩
  | other => exact ⟨_, rfl, h⟩

theorem runUpdates_selectionOk (msgs : List (Nat × Msg)) :
    ∀ (d : Dashboard) (store : db.DB), selectionOk d →
      ∃ d' store', runUpdates d store msgs = .ok (d', store') ∧ selectionOk d' := by
  induction msgs with
  | nil =>
    intro d store h
    exact ⟨d, store, rfl, h⟩
  | cons m rest ih =>
    intro d store h
    obtain ⟨ts, msg⟩ := m
    obtain ⟨r, hr, hok⟩ := Update_selectionOk d store ts msg h
    obtain ⟨d', store', hrun, hok'⟩ := ih r.model r.store hok
    refine ⟨d', store', ?_, hok'⟩
    simp only [runUpdates, hr]
    exact hrun

/-- C27. Starting from NewDashboard, for every store and every sequence of messages
(every key, window sizes, prune results, ticks, other messages, and sessions-loaded
messages carrying any list), with any clock values: no call of Update panics, and
in the model reached the selection index is not negative and, when the session
list is not empty, smaller than its length. -/
theorem selection_stays_in_bounds (store : db.DB) (msgs : List (Nat × Msg)) :
    ∃ d store', runUpdates NewDashboard store msgs = .ok (d, store')
      ∧ 0 ≤ d.selected
      ∧ (d.sessions = [] ∨ d.selected < (d.sessions.length : Int)) := by
  have h0 : selectionOk NewDashboard := ⟨by decide, Or.inl rfl⟩
  obtain ⟨d, store', hrun, hok⟩ := runUpdates_selectionOk msgs NewDashboard store h0
  exact ⟨d, store', hrun, hok.1, hok.2⟩

end tui

namespace tui

/-! ## Deleting and restoring from the dashboard -/

theorem index_of_getElem (l : List db.Session) (i : Int) (s : db.Session) (h0 : 0 ≤ i)
    (h : l[i.toNat]? = some s) : index l i = .ok s := by
  unfold index
  have hn : ¬ i < 0 := by omega
  simp only [hn, if_false, h]

theorem hasSelection_of_getElem (d : Dashboard) (s : db.Session) (h0 : 0 ≤ d.selected)
    (h : d.sessions[d.selected.toNat]? = some s) : d.hasSelection := by
  have hlt : d.selected.toNat < d.sessions.length := by
    by_contra hge
    rw [List.getElem?_eq_none (by omega)] at h
    exact absurd h (by simp)
  unfold Dashboard.hasSelection
  constructor <;> omega

/-- C21. In the normal view with the list focused, for every store and every selected
session whose loaded status is waiting or working and whose pid is above 0:
Update on the key D does not panic, sends exactly one signal, SIGKILL to that pid,
and leaves every row with the id of the session with status deleted, deleted_at set
to the clock value and updated_at set to it, every other column of these rows and
every other row as they were; the model is unchanged and a reload is requested. A
later Update on the key R in the trash view, with the list focused and the session
of that id selected, sends no signal and leaves every row with that id with status
restored, deleted_at NULL and updated_at the new clock value, every other column
and every other row as before the deletion. -/
theorem delete_then_restore (d d2 : Dashboard) (store : db.DB) (ts ts2 : Nat)
    (s s2 : db.Session)
    (hview : d.viewMode = viewNormal) (hfocus : d.focus = focusList)
    (h0 : 0 ≤ d.selected) (hsel : d.sessions[d.selected.toNat]? = some s)
    (hstatus : s.Status = db.StatusWaiting ∨ s.Status = db.StatusWorking)
    (hpid : s.PID > 0)
    (hview2 : d2.viewMode = viewTrash) (hfocus2 : d2.focus = focusList)
    (h02 : 0 ≤ d2.selected) (hsel2 : d2.sessions[d2.selected.toNat]? = some s2)
    (hid : s2.ID = s.ID) :
    ∃ r r2, d.Update store ts (.key "D") = .ok r
      ∧ r.effects = [.kill s.PID .SIGKILL]
      ∧ r.store.sessions = store.sessions.map (fun row =>
          if row.id = s.ID then
            { row with updated_at := ts, status := "deleted", deleted_at := some ts }
          else row)
      ∧ r.model = d ∧ r.cmds = [.loadSessions]
      ∧ d2.Update r.store ts2 (.key "R") = .ok r2
      ∧ r2.effects = []
      ∧ r2.store.sessions = r.store.sessions.map (fun row =>
          if row.id = s.ID then
            { row with updated_at := ts2, status := "restored", deleted_at := none }
          else row)
      ∧ r2.store.sessions = store.sessions.map (fun row =>
          if row.id = s.ID then
            { row with updated_at := ts2, status := "restored", deleted_at := none }
          else row)
      ∧ r2.model = d2 := by
  have hidx := index_of_getElem d.sessions d.selected s h0 hsel
  have hhas := hasSelection_of_getElem d s h0 hsel
  have hidx2 := index_of_getElem d2.sessions d2.selected s2 h02 hsel2
  have hhas2 := hasSelection_of_getElem d2 s2 h02 hsel2
  have hD : d.Update store ts (.key "D")
      = .ok { model := d, store := (deleteSession s store ts).1,
              effects := (deleteSession s store ts).2, jumps := [],
              cmds := [.loadSessions] } := by
    show d.updateKey store ts "D" = _
    unfold Dashboard.updateKey
    simp [hview, hfocus, hhas, hidx]
  have hR : d2.Update (deleteSession s store ts).1 ts2 (.key "R")
      = .ok { model := d2, store := (restoreSession s2 (deleteSession s store ts).1 ts2).1,
              effects := (restoreSession s2 (deleteSession s store ts).1 ts2).2, jumps := [],
              cmds := [.loadSessions] } := by
    show d2.updateKey _ ts2 "R" = _
    unfold Dashboard.updateKey
    simp [hview2, hfocus2, hhas2, hidx2]
  refine ⟨_, _, hD, ?_, ?_, rfl, rfl, hR, rfl, ?_, ?_, rfl⟩
  · simp [deleteSession, hpid, hstatus]
  · rfl
  · simp only [restoreSession, db.RestoreSession, hid]
  · simp only [restoreSession, db.RestoreSession, deleteSession, db.SoftDeleteSession, hid,
      List.map_map]
    apply List.map_congr_left
    intro row _
    by_cases hrow : row.id = s.ID
    · simp [hrow]
    · simp [hrow]

/-- Witness for C21: the waiting session abc12345 with pid 4242 is deleted at clock
200 and restored at clock 300. -/
theorem delete_then_restore_witness :
    ∃ r r2, exampleDashboard.Update exampleStore 200 (.key "D") = .ok r
      ∧ r.effects = [.kill 4242 .SIGKILL]
      ∧ exampleTrashDashboard.Update r.store 300 (.key "R") = .ok r2
      ∧ r2.store.sessions
        = [{ db.insertedRow 100 (exampleSession "abc12345" "waiting" 4242 100) with
             updated_at := 300, status := "restored", deleted_at := none },
           { db.insertedRow 50 (exampleSession "def67890" "completed" 0 50) with
             status := "completed" }] := by
  obtain ⟨r, r2, h1, h2, _, _, _, h6, _, _, h9, _⟩ :=
    delete_then_restore exampleDashboard exampleTrashDashboard exampleStore 200 300
      (exampleSession "abc12345" "waiting" 4242 100)
      ({ exampleSession "abc12345" "deleted" 4242 100 with
         UpdatedAt := 200, DeletedAt := some 200 })
      rfl rfl (by decide) rfl (Or.inl rfl) (by decide) rfl rfl (by decide) rfl rfl
  refine ⟨r, r2, h1, h2, h6, ?_⟩
  rw [h9]
  decide

end tui
